import Mathlib

/-!
# ODrive v3 board: sampling and dispatch core

A shallow embedding of the interrupt pipeline of `Firmware/Board/v3/board.cpp`
(`phase_current_from_adcval`, `fetch_and_reset_adcs`, `TIM8_UP_TIM13_IRQHandler`,
`ControlLoop_IRQHandler`) together with the properties its specification states.

* `float` is IEEE-754 binary32 with round-to-nearest-even, modelled exactly: every finite
  binary32 value is an integer multiple of `2^-149`, so a finite datum is a sign and a
  natural number of such units.
* `uint32_t` is `Nat` with explicit reduction modulo `2^32`.
* Hardware registers and the globals of the translation unit are fields of `State`;
  calls that leave the translation unit are recorded in `State.trace`.
-/

set_option maxRecDepth 100000

/-! ## binary32 arithmetic -/

/-- Bit length minus one of `n`, by halving with fuel. -/
def log2Aux : Nat → Nat → Nat
  | 0, _ => 0
  | fuel + 1, n => if n < 2 then 0 else log2Aux fuel (n / 2) + 1

/-- Floor of the base-2 logarithm of `n` (and `0` at `0`). -/
def ilog2 (n : Nat) : Nat := log2Aux n n

/-- Nearest integer to `N / D`, ties to the even integer. -/
def rneND (N D : Nat) : Nat :=
  let q := N / D
  let r := N % D
  if 2 * r < D then q
  else if D < 2 * r then q + 1
  else if q % 2 = 0 then q else q + 1

/-- Rounding of the non-negative rational `N / D`, counted in units of `2^-149`, to the
nearest number with a 24-bit significand (ties to even).  Below `2^24` units the spacing
is one unit (subnormals and the first normal binade); above, it is `2^(e-23)` units in
the binade `[2^e, 2^(e+1))`. -/
def roundND (N D : Nat) : Nat :=
  let q := N / D
  if q < 2 ^ 24 then rneND N D
  else
    let s := ilog2 q - 23
    rneND N (D * 2 ^ s) * 2 ^ s

/-- Number of `2^-149` units in one, the scale of the fixed-point reading of a datum. -/
def F32.one_units : Nat := 2 ^ 149

/-- First magnitude, in units, that no longer is a finite binary32 number: `2^128`. -/
def F32.overflow_units : Nat := 2 ^ 128 * 2 ^ 149

/-- An IEEE-754 binary32 datum.  `fin neg k` is the finite number `(-1)^neg * k * 2^-149`;
both zeros exist (`fin false 0` and `fin true 0`). -/
inductive F32 where
  | nan : F32
  | inf (neg : Bool) : F32
  | fin (neg : Bool) (k : Nat) : F32
  deriving DecidableEq, Repr

namespace F32

/-- Rounds the exact magnitude `N / D` units and attaches the sign; magnitudes that round
to `2^128` or more become infinite. -/
def round (neg : Bool) (N D : Nat) : F32 :=
  let k := roundND N D
  if overflow_units ≤ k then inf neg else fin neg k

/-- Conversion of an unsigned integer, `(float)n`. -/
def ofNat (n : Nat) : F32 := round false (n * one_units) 1

/-- The literal whose decimal value is `n / d`, such as `0.3f` for `3 / 10`. -/
def ofRatio (n d : Nat) : F32 := round false (n * one_units) d

/-- Unary minus. -/
def neg : F32 → F32
  | nan => nan
  | inf s => inf (!s)
  | fin s k => fin (!s) k

/-- Addition. -/
def add : F32 → F32 → F32
  | nan, _ => nan
  | _, nan => nan
  | inf s, inf t => if s = t then inf s else nan
  | inf s, fin _ _ => inf s
  | fin _ _, inf t => inf t
  | fin s a, fin t b =>
    if s = t then round s (a + b) 1
    else if a = b then fin false 0
    else if b < a then round s (a - b) 1
    else round t (b - a) 1

/-- Subtraction. -/
def sub (x y : F32) : F32 := add x (neg y)

/-- Multiplication. -/
def mul : F32 → F32 → F32
  | nan, _ => nan
  | _, nan => nan
  | inf s, inf t => inf (xor s t)
  | inf s, fin t k => if k = 0 then nan else inf (xor s t)
  | fin s k, inf t => if k = 0 then nan else inf (xor s t)
  | fin s a, fin t b => round (xor s t) (a * b) one_units

/-- Division. -/
def div : F32 → F32 → F32
  | nan, _ => nan
  | _, nan => nan
  | inf _, inf _ => nan
  | inf s, fin t _ => inf (xor s t)
  | fin s _, inf t => fin (xor s t) 0
  | fin s a, fin t b =>
    if b = 0 then (if a = 0 then nan else inf (xor s t))
    else round (xor s t) (a * one_units) b

instance : Neg F32 := ⟨neg⟩

instance : Add F32 := ⟨add⟩

instance : Sub F32 := ⟨sub⟩

instance : Mul F32 := ⟨mul⟩

instance : Div F32 := ⟨div⟩

/-- Conversion to `uint32_t`, `(uint32_t)x`: truncation toward zero.  C++ leaves the
conversion undefined when the truncated value is not a `uint32_t`; those inputs give
`none`. -/
def toUInt32 : F32 → Option Nat
  | nan => none
  | inf _ => none
  | fin s k =>
    let q := k / one_units
    if s then (if q = 0 then some 0 else none)
    else if q < 2 ^ 32 then some q else none

/-- Position of a datum on the extended number line, in units; `nan` has none.  The two
zeros share position `0`. -/
def key : F32 → Option Int
  | nan => none
  | inf s => some (if s then -(overflow_units : Int) else (overflow_units : Int))
  | fin s k => some (if s then -(k : Int) else (k : Int))

/-- The comparison `x <= y`; false when either side is `nan`. -/
def le (x y : F32) : Bool :=
  match key x, key y with
  | some a, some b => decide (a ≤ b)
  | _, _ => false

/-- The comparison `x < y`; false when either side is `nan`. -/
def lt (x y : F32) : Bool :=
  match key x, key y with
  | some a, some b => decide (a < b)
  | _, _ => false

/-- The comparison `x == 0.0f`: true for both zeros only. -/
def isZero : F32 → Bool
  | fin _ 0 => true
  | _ => false

/-- Neither infinite nor `nan`. -/
def isFinite : F32 → Bool
  | fin _ _ => true
  | _ => false

/-- A finite datum is a genuine binary32 number when its magnitude is below `2^128` and
has at most 24 significant bits. -/
def isBinary32 : F32 → Bool
  | fin _ k => decide (k < overflow_units) && decide (roundND k 1 = k)
  | _ => true

/-- Exact value of a finite datum as a signed number of units (and `0` for the others). -/
def units : F32 → Int
  | fin s k => if s then -(k : Int) else (k : Int)
  | _ => 0

end F32

/-! ## Constants of the translation unit and of the headers it includes -/

/-- Build parameters and header constants that `board.cpp` uses but does not define:
`board.kAdcMaxVoltage` and `SHUNT_RESISTANCE` (both `float`), the build macro
`HW_VERSION_VOLTAGE`, the timer constants of `board.h`, and the numeric values of the
`Motor::Error` flags. -/
structure Board where
  kAdcMaxVoltage : F32
  SHUNT_RESISTANCE : F32
  HW_VERSION_VOLTAGE : Nat
  TIM_1_8_PERIOD_CLOCKS : Nat
  TIM_1_8_RCR : Nat
  TIM1_INIT_COUNT : Nat
  ERROR_CURRENT_SENSE_SATURATION : Nat
  ERROR_TIMER_UPDATE_MISSED : Nat
  ERROR_BAD_TIMING : Nat
  ERROR_CONTROL_DEADLINE_MISSED : Nat
  deriving DecidableEq, Repr

/-- The constant `kAdcFullScale = static_cast<float>(1UL << 12UL)`. -/
def kAdcFullScale : F32 := F32.ofNat (1 <<< 12)

/-- The macro `CURRENT_SENSE_MIN_VOLT`, `0.3f`. -/
def CURRENT_SENSE_MIN_VOLT : F32 := F32.ofRatio 3 10

/-- The macro `CURRENT_SENSE_MAX_VOLT`, `3.0f`. -/
def CURRENT_SENSE_MAX_VOLT : F32 := F32.ofRatio 30 10

/-- The macro `VBUS_S_DIVIDER_RATIO`: `19.0f` from 48 V up, `11.0f` on the 24 V board (any
other voltage stops the build). -/
def VBUS_S_DIVIDER_RATIO (b : Board) : F32 :=
  if 48 ≤ b.HW_VERSION_VOLTAGE then F32.ofNat 19 else F32.ofNat 11

/-- The constant `CURRENT_ADC_LOWER_BOUND`; a board whose conversion is undefined does not
build, and reads `0` here. -/
def CURRENT_ADC_LOWER_BOUND (b : Board) : Nat :=
  (F32.toUInt32 (kAdcFullScale * CURRENT_SENSE_MIN_VOLT / b.kAdcMaxVoltage)).getD 0

/-- The constant `CURRENT_ADC_UPPER_BOUND`; a board whose conversion is undefined does not
build, and reads `0` here. -/
def CURRENT_ADC_UPPER_BOUND (b : Board) : Nat :=
  (F32.toUInt32 (kAdcFullScale * CURRENT_SENSE_MAX_VOLT / b.kAdcMaxVoltage)).getD 0

/-- Reduction of an unsigned result to 32 bits. -/
def wrap32 (n : Nat) : Nat := n % 2 ^ 32

/-- Subtraction of `uint32_t` values, `a - b` modulo `2^32`. -/
def sub32 (a b : Nat) : Nat := (a + (2 ^ 32 - b % 2 ^ 32)) % 2 ^ 32

/-- Bitwise complement of a 32-bit value, `~m`. -/
def not32 (m : Nat) : Nat := (2 ^ 32 - 1) ^^^ (m % 2 ^ 32)

/-- The tick count of one timer update interval, `TIM_1_8_PERIOD_CLOCKS * (TIM_1_8_RCR + 1)`. -/
def half_period_ticks (b : Board) : Nat := b.TIM_1_8_PERIOD_CLOCKS * (b.TIM_1_8_RCR + 1)

/-- Status bit `ADC_SR_EOC` of the STM32F4 device header. -/
def ADC_SR_EOC : Nat := 0x2

/-- Status bit `ADC_SR_JEOC` of the STM32F4 device header. -/
def ADC_SR_JEOC : Nat := 0x4

/-- Status bit `ADC_SR_OVR` of the STM32F4 device header. -/
def ADC_SR_OVR : Nat := 0x20

/-- Direction bit `TIM_CR1_DIR` of the STM32F4 device header. -/
def TIM_CR1_DIR : Nat := 0x10

/-- Main-output-enable bit `TIM_BDTR_MOE_Msk` of the STM32F4 device header. -/
def TIM_BDTR_MOE_Msk : Nat := 0x8000

/-! ## State -/

/-- The three phase currents `Iph_ABC_t`. -/
structure Iph_ABC_t where
  phA : F32
  phB : F32
  phC : F32
  deriving DecidableEq, Repr

/-- The members of `Motor` that the pipeline touches. -/
structure Motor where
  error_ : Nat
  phase_current_rev_gain_ : F32
  is_armed_ : Bool
  deriving DecidableEq, Repr

/-- Registers of one ADC unit. -/
structure ADC_TypeDef where
  SR : Nat
  JDR1 : Nat
  DR : Nat
  deriving DecidableEq, Repr

/-- Registers of one advanced-control timer. -/
structure TIM_TypeDef where
  CR1 : Nat
  BDTR : Nat
  CCR1 : Nat
  CCR2 : Nat
  CCR3 : Nat
  deriving DecidableEq, Repr

/-- Calls that leave the translation unit, and the register writes of the handlers, in
the order in which they happen. -/
inductive Event where
  | disarm_with_error (axis : Nat) (code : Nat)
  | sampling_cb
  | raise_ControlLoop_IRQn
  | write_CCR (timer : Nat) (channel : Nat) (value : Nat)
  | current_meas_cb (axis : Nat) (timestamp : Nat) (current : Option Iph_ABC_t)
  | control_loop_cb (timestamp : Nat)
  | dc_calib_cb (axis : Nat) (timestamp : Nat) (current : Option Iph_ABC_t)
  | pwm_update_cb (axis : Nat) (timestamp : Nat)
  | brake_resistor_update
  | brake_resistor_output_update (timestamp : Nat)
  deriving DecidableEq, Repr

/-- Globals and hardware registers read or written by the pipeline. -/
structure State where
  timestamp_ : Nat
  counting_down_ : Bool
  motors0 : Motor
  motors1 : Motor
  ADC1 : ADC_TypeDef
  ADC2 : ADC_TypeDef
  ADC3 : ADC_TypeDef
  TIM1 : TIM_TypeDef
  TIM8 : TIM_TypeDef
  vbus_voltage : F32
  m0_gate_driver_ready : Bool
  m1_gate_driver_ready : Bool
  adc1_dma_tc : Bool
  task_timers_armed_ : Bool
  TaskTimer_enabled : Bool
  trace : List Event
  deriving DecidableEq, Repr

/-! ## Operations -/

/-- Modelled from the spec: `Motor::disarm_with_error` is declared outside `board.cpp`;
the spec has it record a sticky error, OR-ed into the error bitmask, and force the axis
into the disarmed state. -/
def Motor.disarm_with_error (m : Motor) (code : Nat) : Motor :=
  { m with error_ := m.error_ ||| code, is_armed_ := false }

/-- The call `motors[0].disarm_with_error(code)`. -/
def State.disarm0 (s : State) (code : Nat) : State :=
  { s with motors0 := s.motors0.disarm_with_error code,
           trace := s.trace ++ [Event.disarm_with_error 0 code] }

/-- The call `motors[1].disarm_with_error(code)`. -/
def State.disarm1 (s : State) (code : Nat) : State :=
  { s with motors1 := s.motors1.disarm_with_error code,
           trace := s.trace ++ [Event.disarm_with_error 1 code] }

/-- Both axes disarmed with the same code, axis 0 first. -/
def State.disarm_both (s : State) (code : Nat) : State :=
  (s.disarm0 code).disarm1 code

/-- A call that leaves the translation unit. -/
def State.emit (s : State) (e : Event) : State :=
  { s with trace := s.trace ++ [e] }

/-- The value returned by `phase_current_from_adcval` for a code inside the window. -/
def phase_current_value (b : Board) (ADCValue : Nat) (rev_gain : F32) : F32 :=
  (F32.ofNat ADCValue - kAdcFullScale / F32.ofNat 2)
    * (b.kAdcMaxVoltage / kAdcFullScale)
    * rev_gain
    * (F32.ofNat 1 / b.SHUNT_RESISTANCE)

/-- The function `phase_current_from_adcval`: the state after the call and the returned
optional. -/
def phase_current_from_adcval (b : Board) (s : State) (ADCValue : Nat) (rev_gain : F32) :
    State × Option F32 :=
  if ADCValue < CURRENT_ADC_LOWER_BOUND b ∨ ADCValue > CURRENT_ADC_UPPER_BOUND b then
    ({ s with motors0 :=
        { s.motors0 with error_ := s.motors0.error_ ||| b.ERROR_CURRENT_SENSE_SATURATION } },
      none)
  else
    (s, some (phase_current_value b ADCValue rev_gain))

/-- The test `all_adcs_done` at the head of `fetch_and_reset_adcs`. -/
def all_adcs_done (s : State) : Bool :=
  (s.ADC1.SR &&& ADC_SR_JEOC == ADC_SR_JEOC)
    && (s.ADC2.SR &&& (ADC_SR_EOC ||| ADC_SR_JEOC) == (ADC_SR_EOC ||| ADC_SR_JEOC))
    && (s.ADC3.SR &&& (ADC_SR_EOC ||| ADC_SR_JEOC) == (ADC_SR_EOC ||| ADC_SR_JEOC))

/-- The assignment `*current = {-*phB - *phC, *phB, *phC}`, made only when both readings
are present; otherwise the pointee keeps its value. -/
def store_current (current : Option Iph_ABC_t) (phB phC : Option F32) : Option Iph_ABC_t :=
  match phB, phC with
  | some vB, some vC => some { phA := -vB - vC, phB := vB, phC := vC }
  | _, _ => current

/-- A write to an ADC status register: its flags are cleared by writing zero and are left
alone by writing one. -/
def ADC_TypeDef.write_SR (a : ADC_TypeDef) (v : Nat) : ADC_TypeDef :=
  { a with SR := a.SR &&& v }

/-- The block `if (m0_gate_driver.is_ready()) { ... }`: both phases of axis 0 are
converted from the injected data registers and the triple is stored when both are
present. -/
def fetch_axis0 (b : Board) (s : State) (current0 : Option Iph_ABC_t) :
    State × Option Iph_ABC_t :=
  if s.m0_gate_driver_ready then
    let rB := phase_current_from_adcval b s s.ADC2.JDR1 s.motors0.phase_current_rev_gain_
    let rC := phase_current_from_adcval b rB.1 rB.1.ADC3.JDR1 rB.1.motors0.phase_current_rev_gain_
    (rC.1, store_current current0 rB.2 rC.2)
  else (s, current0)

/-- The block `if (m1_gate_driver.is_ready()) { ... }`: both phases of axis 1 are
converted from the regular data registers and the triple is stored when both are
present. -/
def fetch_axis1 (b : Board) (s : State) (current1 : Option Iph_ABC_t) :
    State × Option Iph_ABC_t :=
  if s.m1_gate_driver_ready then
    let rB := phase_current_from_adcval b s s.ADC2.DR s.motors1.phase_current_rev_gain_
    let rC := phase_current_from_adcval b rB.1 rB.1.ADC3.DR rB.1.motors1.phase_current_rev_gain_
    (rC.1, store_current current1 rB.2 rC.2)
  else (s, current1)

/-- The three writes that clear the completion flags at the end of
`fetch_and_reset_adcs`. -/
def reset_adcs (s : State) : State :=
  { s with
    ADC1 := s.ADC1.write_SR (not32 ADC_SR_JEOC),
    ADC2 := s.ADC2.write_SR (not32 (ADC_SR_EOC ||| ADC_SR_JEOC ||| ADC_SR_OVR)),
    ADC3 := s.ADC3.write_SR (not32 (ADC_SR_EOC ||| ADC_SR_JEOC ||| ADC_SR_OVR)) }

/-- The assignment to `board.vbus_voltage`. -/
def store_vbus (b : Board) (s : State) : State :=
  { s with vbus_voltage :=
      F32.ofNat s.ADC1.JDR1 * (b.kAdcMaxVoltage * VBUS_S_DIVIDER_RATIO b / kAdcFullScale) }

/-- The function `fetch_and_reset_adcs`.  `current0` and `current1` are the pointees on
entry; the result holds the state, the pointees on exit and the returned flag. -/
def fetch_and_reset_adcs (b : Board) (s : State) (current0 current1 : Option Iph_ABC_t) :
    State × Option Iph_ABC_t × Option Iph_ABC_t × Bool :=
  if !all_adcs_done s then (s, current0, current1, false)
  else
    let r0 := fetch_axis0 b (store_vbus b s) current0
    let r1 := fetch_axis1 b r0.1 current1
    (reset_adcs r1.1, r0.2, r1.2, true)

/-- The chained assignment of `TIM_1_8_PERIOD_CLOCKS / 2` to the six compare registers;
the rightmost register is written first. -/
def reset_pwm_outputs (b : Board) (s : State) : State :=
  let v := b.TIM_1_8_PERIOD_CLOCKS / 2
  { s with
    TIM1 := { s.TIM1 with CCR1 := v, CCR2 := v, CCR3 := v },
    TIM8 := { s.TIM8 with CCR1 := v, CCR2 := v, CCR3 := v },
    trace := s.trace ++
      [Event.write_CCR 8 3 v, Event.write_CCR 8 2 v, Event.write_CCR 8 1 v,
       Event.write_CCR 1 3 v, Event.write_CCR 1 2 v, Event.write_CCR 1 1 v] }

/-- The handler `TIM8_UP_TIM13_IRQHandler`; the direction flag is read from `TIM8->CR1`.
The interrupt counter, the clearing of the update flag and the copy of the PWM input
captures touch nothing of `State` and are left out. -/
def TIM8_UP_TIM13_IRQHandler (b : Board) (s : State) : State :=
  let counting_down : Bool := s.TIM8.CR1 &&& TIM_CR1_DIR != 0
  let timer_update_missed : Bool := s.counting_down_ == counting_down
  if timer_update_missed then
    s.disarm_both b.ERROR_TIMER_UPDATE_MISSED
  else
    let s1 : State := { s with counting_down_ := counting_down }
    let s2 : State := { s1 with timestamp_ := wrap32 (s1.timestamp_ + half_period_ticks b) }
    if !counting_down then
      let s3 : State := { s2 with TaskTimer_enabled := s2.task_timers_armed_ }
      (s3.emit Event.sampling_cb).emit Event.raise_ControlLoop_IRQn
    else
      reset_pwm_outputs b s2

/-- One firing of the timer update interrupt: the hardware presents `cr1` in `TIM8->CR1`
and the handler runs. -/
def half_cycle (b : Board) (s : State) (cr1 : Nat) : State :=
  TIM8_UP_TIM13_IRQHandler b { s with TIM8 := { s.TIM8 with CR1 := cr1 } }

/-- What the hardware does while one run of `ControlLoop_IRQHandler` is in progress.
`irqs` holds the values of `TIM8->CR1` at the timer update interrupts that preempt the
handler; `adc2_sr_polls` holds the values of `ADC2->SR` seen by the successive polls of the
wait loop, the flag staying unset for ever once the list is used up; `ADC1`, `ADC2`, `ADC3`
are the ADC registers as the second call of `fetch_and_reset_adcs` finds them. -/
structure ControlLoopEnv where
  irqs : List Nat
  adc2_sr_polls : List Nat
  ADC1 : ADC_TypeDef
  ADC2 : ADC_TypeDef
  ADC3 : ADC_TypeDef
  deriving DecidableEq, Repr

/-- The loop `while (!(ADC2->SR & ADC_SR_EOC));`: the number of polls it makes, or `none`
when no poll ever finds the flag set. -/
def wait_for_adc2_eoc : List Nat → Option Nat
  | [] => none
  | sr :: rest =>
    if sr &&& ADC_SR_EOC != 0 then some 1
    else (wait_for_adc2_eoc rest).map (· + 1)

/-- How a run of a handler ends: it returns, or it stays in a loop for ever; either way
with the state reached. -/
inductive Outcome where
  | returned (s : State)
  | hangs (s : State)
  deriving DecidableEq, Repr

/-- The state reached. -/
def Outcome.state : Outcome → State
  | Outcome.returned s => s
  | Outcome.hangs s => s

/-- The locals of `ControlLoop_IRQHandler` that live across the wait loop. -/
structure ControlLoopLocals where
  timestamp : Nat
  current0 : Option Iph_ABC_t
  current1 : Option Iph_ABC_t
  deriving DecidableEq, Repr

/-- The value `{0.0f, 0.0f}` of `Iph_ABC_t`; the member without initialiser is zero. -/
def Iph_ABC_t.zero : Iph_ABC_t :=
  { phA := F32.fin false 0, phB := F32.fin false 0, phC := F32.fin false 0 }

/-- The two `disarm_with_error` calls made when a check fails. -/
def State.disarm_both_unless (s : State) (ok : Bool) (code : Nat) : State :=
  if !ok then s.disarm_both code else s

/-- The macro call `__HAL_DMA_CLEAR_FLAG(hadc1.DMA_Handle, tcif)`. -/
def State.clear_dma_flag (s : State) : State := { s with adc1_dma_tc := false }

/-- The last two statements of `ControlLoop_IRQHandler`, which disarm the task timers. -/
def State.finish_task_timers (s : State) : State :=
  { s with task_timers_armed_ := s.task_timers_armed_ && !s.TaskTimer_enabled,
           TaskTimer_enabled := false }

/-- The statement `if (!fetch_and_reset_adcs(&current0, &current1)) { ... }`: the fetch,
and `ERROR_BAD_TIMING` on both axes when it returns false.  The result holds the state and
the two pointees. -/
def fetch_or_disarm (b : Board) (s : State) (current0 current1 : Option Iph_ABC_t) :
    State × Option Iph_ABC_t × Option Iph_ABC_t :=
  let f := fetch_and_reset_adcs b s current0 current1
  (f.1.disarm_both_unless f.2.2.2 b.ERROR_BAD_TIMING, f.2.1, f.2.2.1)

/-- The check of the ADC1 DMA transfer-complete flag, and the clearing of the flag. -/
def dma_check (b : Board) (s : State) : State :=
  (s.disarm_both_unless s.adc1_dma_tc b.ERROR_BAD_TIMING).clear_dma_flag

/-- The statement `if (!(TIMx->BDTR & TIM_BDTR_MOE_Msk)) { current = {0.0f, 0.0f}; }`. -/
def zero_unless_switching (bdtr : Nat) (current : Option Iph_ABC_t) : Option Iph_ABC_t :=
  if bdtr &&& TIM_BDTR_MOE_Msk == 0 then some Iph_ABC_t.zero else current

/-- The two `current_meas_cb` calls and the `control_loop_cb` call. -/
def measure_callbacks (b : Board) (s : State) (timestamp : Nat)
    (current0 current1 : Option Iph_ABC_t) : State :=
  let s4 := s.emit (Event.current_meas_cb 0 (sub32 timestamp b.TIM1_INIT_COUNT) current0)
  let s5 := s4.emit (Event.current_meas_cb 1 timestamp current1)
  s5.emit (Event.control_loop_cb timestamp)

/-- The part of `ControlLoop_IRQHandler` before the wait loop: the true-current fetch, the
DMA check, the zero-current guess for a stage that does not switch, and the
`current_meas_cb` and `control_loop_cb` calls.  The conversion of the GPIO and thermistor
samples touches nothing of `State` and is left out. -/
def ControlLoop_measure (b : Board) (s : State) : State × ControlLoopLocals :=
  let timestamp := s.timestamp_
  let f := fetch_or_disarm b s none none
  let s3 := dma_check b f.1
  let current0 := zero_unless_switching s3.TIM1.BDTR f.2.1
  let current1 := zero_unless_switching s3.TIM8.BDTR f.2.2
  (measure_callbacks b s3 timestamp current0 current1,
   { timestamp := timestamp, current0 := current0, current1 := current1 })

/-- The calls made between the calibration fetch and the deadline check: `dc_calib_cb` and
`pwm_update_cb` for both axes, then the two brake resistor updates. -/
def ControlLoop_callbacks (b : Board) (s : State) (timestamp : Nat)
    (current0 current1 : Option Iph_ABC_t) : State :=
  let s2 := s.emit (Event.dc_calib_cb 0
    (sub32 (timestamp + half_period_ticks b) b.TIM1_INIT_COUNT) current0)
  let s3 := s2.emit (Event.dc_calib_cb 1 (wrap32 (timestamp + half_period_ticks b)) current1)
  let s4 := s3.emit (Event.pwm_update_cb 0
    (sub32 (timestamp + 3 * half_period_ticks b) b.TIM1_INIT_COUNT))
  let s5 := s4.emit (Event.pwm_update_cb 1 (wrap32 (timestamp + 3 * half_period_ticks b)))
  let s6 := s5.emit Event.brake_resistor_update
  s6.emit (Event.brake_resistor_output_update
    (sub32 (timestamp + 3 * half_period_ticks b) b.TIM1_INIT_COUNT))

/-- The deadline check at the end of `ControlLoop_IRQHandler`. -/
def deadline_check (b : Board) (s : State) (timestamp : Nat) : State :=
  s.disarm_both_unless (s.timestamp_ == wrap32 (timestamp + half_period_ticks b))
    b.ERROR_CONTROL_DEADLINE_MISSED

/-- The part of `ControlLoop_IRQHandler` after the wait loop: the calibration fetch, the
`dc_calib_cb` and `pwm_update_cb` calls, the brake resistor update and the deadline
check. -/
def ControlLoop_actuate (b : Board) (s : State) (l : ControlLoopLocals) : State :=
  let f := fetch_or_disarm b s l.current0 l.current1
  let s7 := ControlLoop_callbacks b f.1 l.timestamp f.2.1 f.2.2
  (deadline_check b s7 l.timestamp).finish_task_timers

/-- The hardware presents fresh ADC registers. -/
def State.with_adcs (s : State) (a1 a2 a3 : ADC_TypeDef) : State :=
  { s with ADC1 := a1, ADC2 := a2, ADC3 := a3 }

/-- The handler `ControlLoop_IRQHandler`.  The timer update interrupts of `env.irqs`
preempt it while it waits for the calibration conversion. -/
def ControlLoop_IRQHandler (b : Board) (s : State) (env : ControlLoopEnv) : Outcome :=
  let m := ControlLoop_measure b s
  let s1 := env.irqs.foldl (half_cycle b) m.1
  match wait_for_adc2_eoc env.adc2_sr_polls with
  | none => Outcome.hangs s1
  | some _ =>
    Outcome.returned (ControlLoop_actuate b (s1.with_adcs env.ADC1 env.ADC2 env.ADC3) m.2)

/-! ## A concrete board and concrete states -/

/-- The literal `3.3f`. -/
def f32_3_3 : F32 := F32.ofRatio 33 10

/-- A concrete set of parameters, with the values of the ODrive v3.6 56 V board: 3.3 V
reference, 500 µΩ shunt, 3500-tick carrier, repetition counter 2, and the flag values of
the `Motor::Error` enumeration.  It serves to evaluate the code on concrete input. -/
def odrive_v3_6 : Board :=
  { kAdcMaxVoltage := f32_3_3
    SHUNT_RESISTANCE := F32.ofRatio 5 10000
    HW_VERSION_VOLTAGE := 56
    TIM_1_8_PERIOD_CLOCKS := 3500
    TIM_1_8_RCR := 2
    TIM1_INIT_COUNT := 3500 / 2 - 1 * 128
    ERROR_CURRENT_SENSE_SATURATION := 0x400
    ERROR_TIMER_UPDATE_MISSED := 0x80000
    ERROR_BAD_TIMING := 0x2000000
    ERROR_CONTROL_DEADLINE_MISSED := 0x10 }

/-- An axis without errors, armed, with reverse gain `1 / 40`. -/
def motor_init : Motor :=
  { error_ := 0, phase_current_rev_gain_ := F32.ofNat 1 / F32.ofNat 40, is_armed_ := true }

/-- An ADC unit with all completion flags set and mid-scale readings. -/
def adc_done : ADC_TypeDef := { SR := ADC_SR_EOC ||| ADC_SR_JEOC, JDR1 := 2048, DR := 2048 }

/-- A timer with its outputs enabled. -/
def tim_running : TIM_TypeDef :=
  { CR1 := 0, BDTR := TIM_BDTR_MOE_Msk, CCR1 := 0, CCR2 := 0, CCR3 := 0 }

/-- The state after start-up: `timestamp_ = 0`, `counting_down_ = false`, no errors. -/
def state_init : State :=
  { timestamp_ := 0, counting_down_ := false
    motors0 := motor_init, motors1 := motor_init
    ADC1 := adc_done, ADC2 := adc_done, ADC3 := adc_done
    TIM1 := tim_running, TIM8 := tim_running
    vbus_voltage := F32.fin false 0
    m0_gate_driver_ready := true, m1_gate_driver_ready := true
    adc1_dma_tc := true
    task_timers_armed_ := false, TaskTimer_enabled := false
    trace := [] }

/-- The start-up state with the regular data register of ADC2, the phase B sample of axis
1, at code 0: below the sensing window. -/
def state_axis1_saturated : State :=
  { state_init with ADC2 := { adc_done with DR := 0 } }

/-- The start-up state with the injected samples of axis 0 at codes 2050 (phase B) and
2053 (phase C). -/
def state_unbalanced : State :=
  { state_init with ADC2 := { adc_done with JDR1 := 2050 },
                    ADC3 := { adc_done with JDR1 := 2053 } }

/-- The values of `TIM8->CR1` of `n` firings whose direction flags alternate, the first
flag being `d`. -/
def alternating_cr1s : Bool → Nat → List Nat
  | _, 0 => []
  | d, n + 1 => (if d then TIM_CR1_DIR else 0) :: alternating_cr1s (!d) n

/-- The smallest positive subnormal number, `2^-149`. -/
def f32_min_subnormal : F32 := F32.fin false 1

/-! ## Vocabulary of the properties -/

/-- A board with the 3.3 V ADC reference of the ODrive v3 (the window comment of the source
puts the centre point at 1.65 V); all other parameters are those of `b`. -/
def Board.with_3V3 (b : Board) : Board := { b with kAdcMaxVoltage := f32_3_3 }

/-- Every bit set in `old` is set in `new`. -/
def bits_kept (old new : Nat) : Prop := ∀ i, old.testBit i = true → new.testBit i = true

/-- All bits of the flag `code` are set in the bitmask `e`. -/
def flag_set (e code : Nat) : Prop := e &&& code = code

instance (e code : Nat) : Decidable (flag_set e code) := by
  unfold flag_set; infer_instance

/-- No error bit of either axis set in `s` is clear in `t`. -/
def errors_kept (s t : State) : Prop :=
  bits_kept s.motors0.error_ t.motors0.error_ ∧ bits_kept s.motors1.error_ t.motors1.error_

/-- A sequence of conversions, each with its raw code and reverse gain, run one after the
other. -/
def convert_all (b : Board) (s : State) (cs : List (Nat × F32)) : State :=
  cs.foldl (fun st c => (phase_current_from_adcval b st c.1 c.2).1) s

/-- A run of timer update interrupts, one per value of `TIM8->CR1`. -/
def fire_all (b : Board) (s : State) (cr1s : List Nat) : State :=
  cr1s.foldl (half_cycle b) s

/-- The direction flag the handler reads, `TIM8->CR1 & TIM_CR1_DIR`. -/
def counting_down_flag (cr1 : Nat) : Bool := cr1 &&& TIM_CR1_DIR != 0

/-- The direction flags of `cr1s` alternate, the first one being `d`. -/
def alternates_from : Bool → List Nat → Prop
  | _, [] => True
  | d, c :: cs => counting_down_flag c = d ∧ alternates_from (!d) cs

/-- Decision procedure for `alternates_from`. -/
def alternates_from_dec : (d : Bool) → (l : List Nat) → Decidable (alternates_from d l)
  | _, [] => isTrue trivial
  | d, c :: cs =>
    match decEq (counting_down_flag c) d, alternates_from_dec (!d) cs with
    | isTrue h1, isTrue h2 => isTrue ⟨h1, h2⟩
    | isFalse h1, _ => isFalse (fun h => h1 h.1)
    | _, isFalse h2 => isFalse (fun h => h2 h.2)

instance (d : Bool) (l : List Nat) : Decidable (alternates_from d l) := alternates_from_dec d l

/-- Whether an event is a call of `disarm_with_error`. -/
def Event.is_disarm : Event → Bool
  | Event.disarm_with_error _ _ => true
  | _ => false

/-- Number of dispatch interrupts raised in a trace. -/
def dispatch_count (tr : List Event) : Nat := tr.count Event.raise_ControlLoop_IRQn

/-- Number of `disarm_with_error` calls in a trace. -/
def disarm_count (tr : List Event) : Nat := tr.countP Event.is_disarm

/-- The magnitude of a gain is at least the smallest normal number `2^-126`, or the gain
is infinite or `nan`. -/
def F32.abs_ge_min_normal : F32 → Bool
  | F32.fin _ k => decide (2 ^ 23 ≤ k)
  | _ => true

/-! ## Sign and magnitude of a converted current -/

/-- A magnitude with its sign, as a signed number of units. -/
def sgn (s : Bool) (x : Nat) : Int := if s then -(x : Int) else (x : Int)

/-- A rounded magnitude with everything from `2^128` on collapsed to `2^128`, the
position of infinity. -/
def clamp (k : Nat) : Nat := min k F32.overflow_units

/-- The datum with sign `t` and clamped magnitude `M`: infinite from `2^128` on. -/
def F32.of_mag (t : Bool) (M : Nat) : F32 :=
  if F32.overflow_units ≤ M then F32.inf t else F32.fin t M

/-- The distance of a raw code from the half-scale code 2048. -/
def code_offset (raw : Nat) : Nat := if raw < 2048 then 2048 - raw else raw - 2048

/-- The volts-per-code factor of a 3.3 V board, `3.3f / 4096`, in units. -/
def volts_per_code_units : Nat := 13841203 * 2 ^ 115

/-- Magnitude, in units and clamped at infinity, of the current computed from a code at
distance `n` from half scale: `n` times the volts-per-code factor `kk`, times the gain
magnitude `gk`, times the shunt conductance `ks`, each product rounded. -/
def conv_mag (kk gk ks n : Nat) : Nat :=
  let p1 := roundND (n * F32.one_units * kk) F32.one_units
  let p2 := clamp (roundND (p1 * gk) F32.one_units)
  if p2 = F32.overflow_units then F32.overflow_units
  else clamp (roundND (p2 * ks) F32.one_units)

/-- Two magnitudes stay apart under `j` further roundings: `x * (2^24 + 1)^j` is below
`y * (2^24 - 1)^j`. -/
def apart (j x y : Nat) : Prop := x * (2 ^ 24 + 1) ^ j < y * (2 ^ 24 - 1) ^ j

/-! ## Vocabulary of the handler properties -/

/-- The `disarm_with_error` calls made on both axes, axis 0 first, when the check `ok`
fails; none when it holds. -/
def disarm_events (ok : Bool) (code : Nat) : List Event :=
  if ok then [] else [Event.disarm_with_error 0 code, Event.disarm_with_error 1 code]

/-- The state in which a firing that fails the direction check leaves the handler: both
axes disarmed with `ERROR_TIMER_UPDATE_MISSED`, nothing else. -/
def missed_firing (b : Board) (s : State) (cr1 : Nat) : State :=
  { s with
    TIM8 := { s.TIM8 with CR1 := cr1 },
    motors0 := s.motors0.disarm_with_error b.ERROR_TIMER_UPDATE_MISSED,
    motors1 := s.motors1.disarm_with_error b.ERROR_TIMER_UPDATE_MISSED,
    trace := s.trace ++ [Event.disarm_with_error 0 b.ERROR_TIMER_UPDATE_MISSED,
                         Event.disarm_with_error 1 b.ERROR_TIMER_UPDATE_MISSED] }

/-- The state in which a firing at a trough (the flag reads "counting up") leaves the
handler in a fault-free run: direction stored, timestamp advanced, sampling callback and
dispatch interrupt. -/
def trough_firing (b : Board) (s : State) (cr1 : Nat) : State :=
  { s with
    TIM8 := { s.TIM8 with CR1 := cr1 },
    counting_down_ := false,
    timestamp_ := wrap32 (s.timestamp_ + half_period_ticks b),
    TaskTimer_enabled := s.task_timers_armed_,
    trace := s.trace ++ [Event.sampling_cb, Event.raise_ControlLoop_IRQn] }

/-- The state in which a firing at a peak (the flag reads "counting down") leaves the
handler in a fault-free run: direction stored, timestamp advanced, the six compare
registers at `TIM_1_8_PERIOD_CLOCKS / 2`. -/
def peak_firing (b : Board) (s : State) (cr1 : Nat) : State :=
  { s with
    counting_down_ := true,
    timestamp_ := wrap32 (s.timestamp_ + half_period_ticks b),
    TIM1 := { s.TIM1 with CCR1 := b.TIM_1_8_PERIOD_CLOCKS / 2,
                          CCR2 := b.TIM_1_8_PERIOD_CLOCKS / 2,
                          CCR3 := b.TIM_1_8_PERIOD_CLOCKS / 2 },
    TIM8 := { s.TIM8 with CR1 := cr1,
                          CCR1 := b.TIM_1_8_PERIOD_CLOCKS / 2,
                          CCR2 := b.TIM_1_8_PERIOD_CLOCKS / 2,
                          CCR3 := b.TIM_1_8_PERIOD_CLOCKS / 2 },
    trace := s.trace ++
      [Event.write_CCR 8 3 (b.TIM_1_8_PERIOD_CLOCKS / 2),
       Event.write_CCR 8 2 (b.TIM_1_8_PERIOD_CLOCKS / 2),
       Event.write_CCR 8 1 (b.TIM_1_8_PERIOD_CLOCKS / 2),
       Event.write_CCR 1 3 (b.TIM_1_8_PERIOD_CLOCKS / 2),
       Event.write_CCR 1 2 (b.TIM_1_8_PERIOD_CLOCKS / 2),
       Event.write_CCR 1 1 (b.TIM_1_8_PERIOD_CLOCKS / 2)] }

/-- Every firing of the run passes the direction check and does what the fault-free run
does: a trough dispatches, a peak resets the compare registers. -/
def fault_free_run (b : Board) : State → List Nat → Prop
  | _, [] => True
  | s, c :: cs =>
    s.counting_down_ ≠ counting_down_flag c ∧
    half_cycle b s c = (if counting_down_flag c then peak_firing b s c else trough_firing b s c) ∧
    fault_free_run b (half_cycle b s c) cs

/-- The direction stored after a fault-free run of `n` firings whose first flag is `d`. -/
def direction_after (d : Bool) (n : Nat) : Bool := if n % 2 = 0 then !d else d

/-- The events one firing of the timer update interrupt adds to the trace. -/
def half_cycle_events (b : Board) (s : State) (cr1 : Nat) : List Event :=
  if s.counting_down_ = counting_down_flag cr1 then
    [Event.disarm_with_error 0 b.ERROR_TIMER_UPDATE_MISSED,
     Event.disarm_with_error 1 b.ERROR_TIMER_UPDATE_MISSED]
  else if counting_down_flag cr1 then
    [Event.write_CCR 8 3 (b.TIM_1_8_PERIOD_CLOCKS / 2),
     Event.write_CCR 8 2 (b.TIM_1_8_PERIOD_CLOCKS / 2),
     Event.write_CCR 8 1 (b.TIM_1_8_PERIOD_CLOCKS / 2),
     Event.write_CCR 1 3 (b.TIM_1_8_PERIOD_CLOCKS / 2),
     Event.write_CCR 1 2 (b.TIM_1_8_PERIOD_CLOCKS / 2),
     Event.write_CCR 1 1 (b.TIM_1_8_PERIOD_CLOCKS / 2)]
  else [Event.sampling_cb, Event.raise_ControlLoop_IRQn]

/-- The events a run of firings adds to the trace. -/
def fire_events (b : Board) : State → List Nat → List Event
  | _, [] => []
  | s, c :: cs => half_cycle_events b s c ++ fire_events b (half_cycle b s c) cs

/-- Whether an event is one of the calls `ControlLoop_IRQHandler` makes to the axes, the
control loop and the brake resistor. -/
def Event.is_control_loop_call : Event → Bool
  | Event.current_meas_cb _ _ _ => true
  | Event.control_loop_cb _ => true
  | Event.dc_calib_cb _ _ _ => true
  | Event.pwm_update_cb _ _ => true
  | Event.brake_resistor_update => true
  | Event.brake_resistor_output_update _ => true
  | _ => false

/-- The events added to the trace between the states `s` and `t`. -/
def new_events (s t : State) : List Event := t.trace.drop s.trace.length

/-- The calls of `ControlLoop_IRQHandler` among the events added between `s` and `t`, in
order. -/
def control_loop_calls (s t : State) : List Event :=
  (new_events s t).filter Event.is_control_loop_call

/-- The events of `l` that follow its last call of `ControlLoop_IRQHandler`. -/
def events_after_calls (l : List Event) : List Event :=
  (l.reverse.takeWhile (fun e => !e.is_control_loop_call)).reverse

/-- The number of firings of a run that pass the direction check, `d` being the direction
stored before the run. -/
def flips : Bool → List Nat → Nat
  | _, [] => 0
  | d, c :: cs =>
    if d = counting_down_flag c then flips d cs else flips (counting_down_flag c) cs + 1

/-- All completion flags that `fetch_and_reset_adcs` requires are set: JEOC of ADC1, EOC
and JEOC of ADC2 and of ADC3. -/
def completion_flags_set (s : State) : Prop :=
  flag_set s.ADC1.SR ADC_SR_JEOC ∧
  flag_set s.ADC2.SR ADC_SR_EOC ∧ flag_set s.ADC2.SR ADC_SR_JEOC ∧
  flag_set s.ADC3.SR ADC_SR_EOC ∧ flag_set s.ADC3.SR ADC_SR_JEOC

instance (s : State) : Decidable (completion_flags_set s) := by
  unfold completion_flags_set; infer_instance

/-- The state in which the calibration fetch of a run of `ControlLoop_IRQHandler` starts:
the part before the wait loop has run, the firings of `env.irqs` have preempted the
handler, and the hardware presents the ADC registers of `env`. -/
def calibration_entry (b : Board) (s : State) (env : ControlLoopEnv) : State :=
  (fire_all b (ControlLoop_measure b s).1 env.irqs).with_adcs env.ADC1 env.ADC2 env.ADC3

/-- The reading handed to `current_meas_cb` of axis 0 by a run of `ControlLoop_IRQHandler`
from `s`; it is also what the local `current0` holds when the calibration fetch starts. -/
def measured_current0 (b : Board) (s : State) : Option Iph_ABC_t :=
  (ControlLoop_measure b s).2.current0

/-- The reading handed to `current_meas_cb` of axis 1 by a run of `ControlLoop_IRQHandler`
from `s`; it is also what the local `current1` holds when the calibration fetch starts. -/
def measured_current1 (b : Board) (s : State) : Option Iph_ABC_t :=
  (ControlLoop_measure b s).2.current1

/-- Whether an event is a call of `current_meas_cb`. -/
def Event.is_current_meas : Event → Bool
  | Event.current_meas_cb _ _ _ => true
  | _ => false

/-- Whether an event is a call of `dc_calib_cb`. -/
def Event.is_dc_calib : Event → Bool
  | Event.dc_calib_cb _ _ _ => true
  | _ => false

/-- Whether the run of a handler returned. -/
def Outcome.is_returned : Outcome → Bool
  | Outcome.returned _ => true
  | Outcome.hangs _ => false

/-- The test of `phase_current_from_adcval`: the raw code lies outside the accepted
window. -/
def out_of_window (b : Board) (raw : Nat) : Prop :=
  raw < CURRENT_ADC_LOWER_BOUND b ∨ raw > CURRENT_ADC_UPPER_BOUND b

instance (b : Board) (raw : Nat) : Decidable (out_of_window b raw) := by
  unfold out_of_window; infer_instance

/-! ## Concrete runs of the control loop handler -/

/-- The start-up state with the end-of-conversion flag of ADC2 not set. -/
def state_adc2_not_done : State :=
  { state_init with ADC2 := { adc_done with SR := ADC_SR_JEOC } }

/-- The state `state_axis1_saturated`, in which the phase B sample of axis 1 is code 0,
with the gate driver of axis 0 not ready. -/
def state_axis0_not_ready : State :=
  { state_axis1_saturated with m0_gate_driver_ready := false }

/-- A run in which one timer update, at the peak, preempts the handler, the second poll of
the wait loop finds the conversion complete and the calibration samples are mid-scale. -/
def env_one_firing : ControlLoopEnv :=
  { irqs := [TIM_CR1_DIR], adc2_sr_polls := [0, ADC_SR_EOC]
    ADC1 := adc_done, ADC2 := adc_done, ADC3 := adc_done }

/-- A run in which the end-of-conversion flag of ADC2 is never set. -/
def env_never_done : ControlLoopEnv :=
  { irqs := [TIM_CR1_DIR], adc2_sr_polls := []
    ADC1 := adc_done, ADC2 := adc_done, ADC3 := adc_done }

/-- A run like `env_one_firing` in which the calibration sample of phase B of axis 0 is
code 0, below the sensing window. -/
def env_calibration_saturated : ControlLoopEnv :=
  { env_one_firing with ADC2 := { adc_done with JDR1 := 0 } }

/-- A run like `env_one_firing` in which the calibration fetch finds the injected
conversion of ADC3 not complete. -/
def env_calibration_not_done : ControlLoopEnv :=
  { env_one_firing with ADC3 := { adc_done with SR := ADC_SR_EOC } }

/-! ## Rounding to binary32 -/

theorem log2Aux_spec (f : Nat) : ∀ n, n ≤ f → 1 ≤ n →
    2 ^ log2Aux f n ≤ n ∧ n < 2 ^ (log2Aux f n + 1) := by
  induction f with
  | zero => intro n h1 h2; omega
  | succ f ih =>
    intro n h1 h2
    unfold log2Aux
    by_cases h : n < 2
    · rw [if_pos h]
      have : n = 1 := by omega
      subst this
      decide
    · rw [if_neg h]
      have hdiv : n / 2 ≤ f := by omega
      have hpos : 1 ≤ n / 2 := by omega
      obtain ⟨i1, i2⟩ := ih (n / 2) hdiv hpos
      rw [pow_succ] at i2
      rw [pow_succ, pow_succ, pow_succ]
      constructor <;> omega

theorem ilog2_spec (n : Nat) (h : 1 ≤ n) : 2 ^ ilog2 n ≤ n ∧ n < 2 ^ (ilog2 n + 1) :=
  log2Aux_spec n n (le_refl n) h

theorem rneND_ge (N D : Nat) : N / D ≤ rneND N D := by
  unfold rneND
  dsimp only
  split_ifs <;> omega

theorem rneND_le (N D : Nat) : rneND N D ≤ N / D + 1 := by
  unfold rneND
  dsimp only
  split_ifs <;> omega

theorem rneND_exact (m D : Nat) (hD : 0 < D) : rneND (m * D) D = m := by
  unfold rneND
  dsimp only
  rw [Nat.mul_mod_left, Nat.mul_div_cancel _ hD, if_pos (by omega)]

theorem rneND_mono (N1 N2 D : Nat) (_hD : 0 < D) (h : N1 ≤ N2) : rneND N1 D ≤ rneND N2 D := by
  have hq : N1 / D ≤ N2 / D := Nat.div_le_div_right h
  rcases Nat.lt_or_ge (N1 / D) (N2 / D) with hlt | hge
  · exact le_trans (rneND_le N1 D) (le_trans hlt (rneND_ge N2 D))
  · have heq : N1 / D = N2 / D := le_antisymm hq hge
    have e1 := Nat.div_add_mod N1 D
    have e2 := Nat.div_add_mod N2 D
    have hr : N1 % D ≤ N2 % D := by
      rw [heq] at e1
      omega
    unfold rneND
    dsimp only
    rw [heq]
    split_ifs <;> omega

theorem roundND_small (N D : Nat) (h : N / D < 2 ^ 24) : roundND N D = rneND N D := by
  unfold roundND
  dsimp only
  rw [if_pos h]

theorem roundND_large (N D : Nat) (h : ¬ N / D < 2 ^ 24) :
    roundND N D = rneND N (D * 2 ^ (ilog2 (N / D) - 23)) * 2 ^ (ilog2 (N / D) - 23) := by
  unfold roundND
  dsimp only
  rw [if_neg h]

theorem ilog2_ge_24 (q : Nat) (h : ¬ q < 2 ^ 24) : 24 ≤ ilog2 q := by
  have hq : 1 ≤ q := by
    have : (2 : Nat) ^ 24 = 16777216 := by norm_num
    omega
  obtain ⟨-, h2⟩ := ilog2_spec q hq
  by_contra hlt
  have h3 : ilog2 q + 1 ≤ 24 := by omega
  have h4 : 2 ^ (ilog2 q + 1) ≤ 2 ^ 24 := Nat.pow_le_pow_right (by norm_num) h3
  omega

theorem roundND_large_bounds (N D : Nat) (h : ¬ N / D < 2 ^ 24) :
    2 ^ ilog2 (N / D) ≤ roundND N D ∧ roundND N D ≤ 2 ^ (ilog2 (N / D) + 1) := by
  have hl := ilog2_ge_24 _ h
  have hq : 1 ≤ N / D := by
    have : (2 : Nat) ^ 24 = 16777216 := by norm_num
    omega
  obtain ⟨h1, h2⟩ := ilog2_spec _ hq
  rw [roundND_large N D h]
  generalize hs : ilog2 (N / D) - 23 = s
  have hls : ilog2 (N / D) = s + 23 := by omega
  rw [hls] at h1 h2 ⊢
  have hpos : 0 < 2 ^ s := Nat.pow_pos (by norm_num)
  have hm : N / (D * 2 ^ s) = N / D / 2 ^ s := (Nat.div_div_eq_div_mul N D (2 ^ s)).symm
  have e1 : 2 ^ (s + 23) = 2 ^ 23 * 2 ^ s := by rw [pow_add, mul_comm]
  have e2 : 2 ^ (s + 23 + 1) = 2 ^ 24 * 2 ^ s := by
    rw [show s + 23 + 1 = s + 24 by omega, pow_add, mul_comm]
  have m1 : 2 ^ 23 ≤ N / D / 2 ^ s := by
    rw [Nat.le_div_iff_mul_le hpos, ← e1]
    exact h1
  have m2 : N / D / 2 ^ s < 2 ^ 24 := by
    rw [Nat.div_lt_iff_lt_mul hpos, ← e2]
    exact h2
  have r1 := rneND_ge N (D * 2 ^ s)
  have r2 := rneND_le N (D * 2 ^ s)
  rw [hm] at r1 r2
  rw [e1, e2]
  constructor
  · exact Nat.mul_le_mul_right _ (le_trans m1 r1)
  · exact Nat.mul_le_mul_right _ (by omega)

theorem roundND_mono (N1 N2 D : Nat) (hD : 0 < D) (h : N1 ≤ N2) :
    roundND N1 D ≤ roundND N2 D := by
  have hq : N1 / D ≤ N2 / D := Nat.div_le_div_right h
  by_cases h2 : N2 / D < 2 ^ 24
  · have h1 : N1 / D < 2 ^ 24 := lt_of_le_of_lt hq h2
    rw [roundND_small _ _ h1, roundND_small _ _ h2]
    exact rneND_mono N1 N2 D hD h
  · obtain ⟨b2, -⟩ := roundND_large_bounds N2 D h2
    have hl2 := ilog2_ge_24 _ h2
    by_cases h1 : N1 / D < 2 ^ 24
    · rw [roundND_small _ _ h1]
      have a1 := rneND_le N1 D
      have a2 : 2 ^ 24 ≤ 2 ^ ilog2 (N2 / D) := Nat.pow_le_pow_right (by norm_num) hl2
      omega
    · obtain ⟨-, b1⟩ := roundND_large_bounds N1 D h1
      have hq1 : 1 ≤ N1 / D := by
        have : (2 : Nat) ^ 24 = 16777216 := by norm_num
        omega
      have hq2 : 1 ≤ N2 / D := le_trans hq1 hq
      obtain ⟨s1, -⟩ := ilog2_spec _ hq1
      obtain ⟨-, s2⟩ := ilog2_spec _ hq2
      have hll : ilog2 (N1 / D) ≤ ilog2 (N2 / D) := by
        by_contra hc
        have : ilog2 (N2 / D) + 1 ≤ ilog2 (N1 / D) := by omega
        have := Nat.pow_le_pow_right (show 0 < 2 by norm_num) this
        omega
      rcases Nat.lt_or_ge (ilog2 (N1 / D)) (ilog2 (N2 / D)) with hlt | hge
      · have : 2 ^ (ilog2 (N1 / D) + 1) ≤ 2 ^ ilog2 (N2 / D) :=
          Nat.pow_le_pow_right (by norm_num) hlt
        omega
      · have heq : ilog2 (N1 / D) = ilog2 (N2 / D) := le_antisymm hll hge
        rw [roundND_large _ _ h1, roundND_large _ _ h2, heq]
        exact Nat.mul_le_mul_right _
          (rneND_mono N1 N2 _ (Nat.mul_pos hD (Nat.pow_pos (by norm_num))) h)

theorem roundND_zero (D : Nat) : roundND 0 D = 0 := by
  have h : 0 / D < 2 ^ 24 := by rw [Nat.zero_div]; exact Nat.pow_pos (by norm_num)
  rw [roundND_small _ _ h]
  unfold rneND
  simp

theorem roundND_pos (N D : Nat) (hD : 0 < D) (h : D ≤ N) : 1 ≤ roundND N D := by
  have h1 : roundND D D ≤ roundND N D := roundND_mono D N D hD h
  have h2 : roundND D D = 1 := by
    have hs : D / D < 2 ^ 24 := by
      rw [Nat.div_self hD]
      norm_num
    rw [roundND_small _ _ hs]
    have := rneND_exact 1 D hD
    rwa [Nat.one_mul] at this
  omega

theorem roundND_exact_pow (m j : Nat) (hm : m < 2 ^ 24) : roundND (m * 2 ^ j) 1 = m * 2 ^ j := by
  by_cases h : m * 2 ^ j / 1 < 2 ^ 24
  · rw [roundND_small _ _ h]
    have := rneND_exact (m * 2 ^ j) 1 Nat.one_pos
    rwa [Nat.mul_one] at this
  · rw [roundND_large _ _ h, Nat.div_one, Nat.one_mul]
    have hN : 1 ≤ m * 2 ^ j := by
      rw [Nat.div_one] at h
      have : (2 : Nat) ^ 24 = 16777216 := by norm_num
      omega
    obtain ⟨h1, -⟩ := ilog2_spec _ hN
    generalize hs : ilog2 (m * 2 ^ j) - 23 = s
    have hsj : s ≤ j := by
      by_contra hc
      have h3 : j + 24 ≤ ilog2 (m * 2 ^ j) := by omega
      have h4 : 2 ^ (j + 24) ≤ 2 ^ ilog2 (m * 2 ^ j) := Nat.pow_le_pow_right (by norm_num) h3
      have h5 : m * 2 ^ j < 2 ^ 24 * 2 ^ j :=
        Nat.mul_lt_mul_of_pos_right hm (Nat.pow_pos (by norm_num))
      rw [pow_add, mul_comm (2 ^ j)] at h4
      omega
    have e : m * 2 ^ j = (m * 2 ^ (j - s)) * 2 ^ s := by
      rw [Nat.mul_assoc, ← pow_add, Nat.sub_add_cancel hsj]
    rw [e, rneND_exact _ _ (Nat.pow_pos (by norm_num))]

theorem rneND_error (N D : Nat) (hD : 0 < D) :
    2 * (rneND N D * D) ≤ 2 * N + D ∧ 2 * N ≤ 2 * (rneND N D * D) + D := by
  have e := Nat.div_add_mod N D
  have hr := Nat.mod_lt N hD
  have hx : N / D * D = D * (N / D) := Nat.mul_comm _ _
  have hy : (N / D + 1) * D = D * (N / D) + D := by rw [Nat.add_mul, Nat.one_mul, hx]
  unfold rneND
  dsimp only
  split_ifs
  · rw [hx]; omega
  · rw [hy]; omega
  · rw [hx]; omega
  · rw [hy]; omega

theorem roundND_error (N D : Nat) (hD0 : 0 < D) (h : ¬ N / D < 2 ^ 24) :
    2 ^ 24 * (roundND N D * D) ≤ (2 ^ 24 + 1) * N ∧
    (2 ^ 24 - 1) * N ≤ 2 ^ 24 * (roundND N D * D) := by
  have hq : 1 ≤ N / D := by
    have : (2 : Nat) ^ 24 = 16777216 := by norm_num
    omega
  have hl := ilog2_ge_24 _ h
  obtain ⟨h1, -⟩ := ilog2_spec _ hq
  rw [roundND_large N D h]
  generalize hs : ilog2 (N / D) - 23 = s
  have hls : ilog2 (N / D) = s + 23 := by omega
  rw [hls] at h1
  obtain ⟨e1, e2⟩ := rneND_error N (D * 2 ^ s) (Nat.mul_pos hD0 (Nat.pow_pos (by norm_num)))
  have hD : D * (N / D) ≤ N := Nat.mul_div_le N D
  have h3 : D * 2 ^ s * 2 ^ 23 ≤ N := by
    have : D * 2 ^ s * 2 ^ 23 = D * 2 ^ (s + 23) := by rw [Nat.mul_assoc, ← pow_add]
    rw [this]
    exact le_trans (Nat.mul_le_mul_left D h1) hD
  have e3 : rneND N (D * 2 ^ s) * 2 ^ s * D = rneND N (D * 2 ^ s) * (D * 2 ^ s) := by ring
  rw [e3]
  generalize rneND N (D * 2 ^ s) * (D * 2 ^ s) = X at e1 e2
  generalize D * 2 ^ s = Y at e1 e2 h3
  have c1 : (2 : Nat) ^ 24 = 16777216 := by norm_num
  have c2 : (2 : Nat) ^ 23 = 8388608 := by norm_num
  rw [c1]
  rw [c2] at h3
  omega

theorem apart_lt {j x y : Nat} (h : apart j x y) : x < y := by
  unfold apart at h
  by_contra hc
  have h1 : y ≤ x := by omega
  have h2 : (2 ^ 24 - 1) ^ j ≤ (2 ^ 24 + 1) ^ j := Nat.pow_le_pow_left (by norm_num) j
  have h3 : y * (2 ^ 24 - 1) ^ j ≤ x * (2 ^ 24 + 1) ^ j := Nat.mul_le_mul h1 h2
  omega

theorem apart_mul {j x y : Nat} (c : Nat) (hc : 0 < c) (h : apart j x y) :
    apart j (x * c) (y * c) := by
  unfold apart at *
  have : x * (2 ^ 24 + 1) ^ j * c < y * (2 ^ 24 - 1) ^ j * c := Nat.mul_lt_mul_of_pos_right h hc
  calc x * c * (2 ^ 24 + 1) ^ j = x * (2 ^ 24 + 1) ^ j * c := by ring
    _ < y * (2 ^ 24 - 1) ^ j * c := this
    _ = y * c * (2 ^ 24 - 1) ^ j := by ring

theorem apart_round {j N1 N2 D : Nat} (hD : 0 < D) (h1 : ¬ N1 / D < 2 ^ 24)
    (h : apart (j + 1) N1 N2) : apart j (roundND N1 D) (roundND N2 D) := by
  have hlt : N1 < N2 := apart_lt h
  have h2 : ¬ N2 / D < 2 ^ 24 := by
    have : N1 / D ≤ N2 / D := Nat.div_le_div_right (le_of_lt hlt)
    omega
  obtain ⟨a1, -⟩ := roundND_error N1 D hD h1
  obtain ⟨-, a2⟩ := roundND_error N2 D hD h2
  unfold apart at *
  rw [pow_succ, pow_succ] at h
  have s1 : 2 ^ 24 * (roundND N1 D * D) * (2 ^ 24 + 1) ^ j
      ≤ (2 ^ 24 + 1) * N1 * (2 ^ 24 + 1) ^ j := Nat.mul_le_mul_right _ a1
  have s2 : (2 ^ 24 - 1) * N2 * (2 ^ 24 - 1) ^ j
      ≤ 2 ^ 24 * (roundND N2 D * D) * (2 ^ 24 - 1) ^ j := Nat.mul_le_mul_right _ a2
  have s3 : (2 ^ 24 + 1) * N1 * (2 ^ 24 + 1) ^ j < (2 ^ 24 - 1) * N2 * (2 ^ 24 - 1) ^ j := by
    calc (2 ^ 24 + 1) * N1 * (2 ^ 24 + 1) ^ j = N1 * ((2 ^ 24 + 1) ^ j * (2 ^ 24 + 1)) := by ring
      _ < N2 * ((2 ^ 24 - 1) ^ j * (2 ^ 24 - 1)) := h
      _ = (2 ^ 24 - 1) * N2 * (2 ^ 24 - 1) ^ j := by ring
  have s4 : 2 ^ 24 * (roundND N1 D * D) * (2 ^ 24 + 1) ^ j
      < 2 ^ 24 * (roundND N2 D * D) * (2 ^ 24 - 1) ^ j := lt_of_le_of_lt s1 (lt_of_lt_of_le s3 s2)
  have s5 : (roundND N1 D * (2 ^ 24 + 1) ^ j) * (2 ^ 24 * D)
      < (roundND N2 D * (2 ^ 24 - 1) ^ j) * (2 ^ 24 * D) := by
    calc (roundND N1 D * (2 ^ 24 + 1) ^ j) * (2 ^ 24 * D)
        = 2 ^ 24 * (roundND N1 D * D) * (2 ^ 24 + 1) ^ j := by ring
      _ < 2 ^ 24 * (roundND N2 D * D) * (2 ^ 24 - 1) ^ j := s4
      _ = (roundND N2 D * (2 ^ 24 - 1) ^ j) * (2 ^ 24 * D) := by ring
  exact Nat.lt_of_mul_lt_mul_right s5

theorem one_units_pos : 0 < F32.one_units := by
  unfold F32.one_units
  exact Nat.pow_pos (by norm_num)

theorem overflow_units_pos : 1 ≤ F32.overflow_units := by decide

theorem clamp_mono {a b : Nat} (h : a ≤ b) : clamp a ≤ clamp b := by
  unfold clamp
  omega

theorem clamp_le (a : Nat) : clamp a ≤ F32.overflow_units := by
  unfold clamp
  omega

theorem clamp_pos {a : Nat} (h : 1 ≤ a) : 1 ≤ clamp a := by
  unfold clamp
  have := overflow_units_pos
  omega

theorem large_quotient {N : Nat} (h : 2 ^ 24 * F32.one_units ≤ N) :
    ¬ N / F32.one_units < 2 ^ 24 := by
  have := (Nat.le_div_iff_mul_le one_units_pos).mpr h
  omega

theorem roundND_ge_of_large {N : Nat} (h : 2 ^ 24 * F32.one_units ≤ N) :
    2 ^ 24 ≤ roundND N F32.one_units := by
  have hq := large_quotient h
  obtain ⟨b1, -⟩ := roundND_large_bounds N F32.one_units hq
  have := Nat.pow_le_pow_right (show 0 < 2 by norm_num) (ilog2_ge_24 _ hq)
  omega

theorem F32.ofNat_exact (n : Nat) (h : n < 2 ^ 24) :
    F32.ofNat n = F32.fin false (n * F32.one_units) := by
  unfold F32.ofNat F32.round
  dsimp only
  have e : roundND (n * F32.one_units) 1 = n * F32.one_units := roundND_exact_pow n 149 h
  rw [e]
  have hlt : ¬ F32.overflow_units ≤ n * F32.one_units := by
    unfold F32.overflow_units F32.one_units
    have : n * 2 ^ 149 < 2 ^ 24 * 2 ^ 149 :=
      Nat.mul_lt_mul_of_pos_right h (Nat.pow_pos (by norm_num))
    have : (2 : Nat) ^ 24 * 2 ^ 149 ≤ 2 ^ 128 * 2 ^ 149 :=
      Nat.mul_le_mul_right _ (Nat.pow_le_pow_right (by norm_num) (by norm_num))
    omega
  rw [if_neg hlt]

theorem F32.round_eq_of_mag (t : Bool) (N D : Nat) :
    F32.round t N D = F32.of_mag t (clamp (roundND N D)) := by
  unfold F32.round F32.of_mag clamp
  dsimp only
  by_cases h : F32.overflow_units ≤ roundND N D
  · rw [if_pos h, Nat.min_eq_right h, if_pos (le_refl _)]
  · rw [if_neg h, Nat.min_eq_left (by omega), if_neg h]

theorem F32.of_mag_mul (t : Bool) (m ks : Nat) (hm : m ≤ F32.overflow_units) (hks : ks ≠ 0) :
    F32.of_mag t m * F32.fin false ks =
      F32.of_mag t (if m = F32.overflow_units then F32.overflow_units
                    else clamp (roundND (m * ks) F32.one_units)) := by
  show F32.mul (F32.of_mag t m) (F32.fin false ks) = _
  by_cases h : m = F32.overflow_units
  · rw [if_pos h]
    unfold F32.of_mag
    rw [if_pos (by omega), if_pos (le_refl _)]
    unfold F32.mul
    simp only [hks, if_false, Bool.xor_false]
  · rw [if_neg h]
    have e : F32.of_mag t m = F32.fin t m := by
      unfold F32.of_mag
      rw [if_neg (by omega)]
    rw [e]
    unfold F32.mul
    simp only [Bool.xor_false]
    exact F32.round_eq_of_mag _ _ _

theorem F32.key_of_mag (t : Bool) (M : Nat) (h : M ≤ F32.overflow_units) :
    F32.key (F32.of_mag t M) = some (sgn t M) := by
  unfold F32.of_mag
  by_cases hM : F32.overflow_units ≤ M
  · have : M = F32.overflow_units := le_antisymm h hM
    rw [if_pos hM, this]
    rfl
  · rw [if_neg hM]
    rfl

theorem F32.isZero_of_mag (t : Bool) (M : Nat) :
    (F32.of_mag t M).isZero = decide (M = 0) := by
  unfold F32.of_mag
  by_cases hM : F32.overflow_units ≤ M
  · have := overflow_units_pos
    rw [if_pos hM]
    have : ¬ M = 0 := by omega
    simp [F32.isZero, this]
  · rw [if_neg hM]
    cases M with
    | zero => rfl
    | succ k => simp [F32.isZero]

theorem F32.isFinite_of_mag (t : Bool) (M : Nat) (h : (F32.of_mag t M).isFinite = true) :
    M < F32.overflow_units := by
  unfold F32.of_mag at h
  by_cases hM : F32.overflow_units ≤ M
  · rw [if_pos hM] at h
    cases h
  · omega

theorem F32.le_of_key {x y : F32} {a c : Int} (hx : F32.key x = some a) (hy : F32.key y = some c)
    (h : a ≤ c) : F32.le x y = true := by
  unfold F32.le
  rw [hx, hy]
  simpa using h

theorem F32.lt_of_key {x y : F32} {a c : Int} (hx : F32.key x = some a) (hy : F32.key y = some c)
    (h : a < c) : F32.lt x y = true := by
  unfold F32.lt
  rw [hx, hy]
  simpa using h

theorem F32.round_neg_eq (s : Bool) (N D k : Nat) (h : F32.round s N D = F32.fin s k) :
    F32.round (!s) N D = F32.fin (!s) k := by
  unfold F32.round at *
  dsimp only at *
  split at h
  · cases h
  · rw [if_neg (by assumption)]
    injection h with _ hk
    rw [hk]

theorem F32.round_finite (s : Bool) (N D : Nat) (h : (F32.round s N D).isFinite = true) :
    ∃ k, F32.round s N D = F32.fin s k := by
  unfold F32.round at *
  dsimp only at *
  split at h
  · cases h
  · exact ⟨_, by rw [if_neg (by assumption)]⟩

theorem F32.add_fin_cancel (s : Bool) (k : Nat) :
    F32.add (F32.fin (!s) k) (F32.fin s k) = F32.fin false 0 := by
  unfold F32.add
  cases s <;> simp

theorem F32.neg_sub_add_cancel (x y : F32) (h : (x + y).isFinite = true) :
    ((-x - y) + (x + y)).isZero = true := by
  show (F32.add (F32.sub (F32.neg x) y) (F32.add x y)).isZero = true
  change (F32.add x y).isFinite = true at h
  cases x with
  | nan => cases y <;> cases h
  | inf s =>
    cases y with
    | nan => cases h
    | inf t =>
      unfold F32.add at h
      by_cases hst : s = t
      · simp [hst, F32.isFinite] at h
      · simp [hst, F32.isFinite] at h
    | fin t b => cases h
  | fin s a =>
    cases y with
    | nan => cases h
    | inf t => cases h
    | fin t b =>
      unfold F32.sub F32.neg
      by_cases hst : s = t
      · subst hst
        have e1 : F32.add (F32.fin s a) (F32.fin s b) = F32.round s (a + b) 1 := by
          unfold F32.add; simp
        have e2 : F32.add (F32.fin (!s) a) (F32.fin (!s) b) = F32.round (!s) (a + b) 1 := by
          unfold F32.add; simp
        rw [e1] at h
        obtain ⟨k, hk⟩ := F32.round_finite s (a + b) 1 h
        rw [e1, e2, F32.round_neg_eq s _ _ k hk, hk, F32.add_fin_cancel]
        rfl
      · by_cases hab : a = b
        · subst hab
          have e1 : F32.add (F32.fin s a) (F32.fin t a) = F32.fin false 0 := by
            unfold F32.add; simp [hst]
          have e2 : F32.add (F32.fin (!s) a) (F32.fin (!t) a) = F32.fin false 0 := by
            unfold F32.add; simp [hst]
          rw [e1, e2]
          decide
        · by_cases hlt : b < a
          · have e1 : F32.add (F32.fin s a) (F32.fin t b) = F32.round s (a - b) 1 := by
              unfold F32.add; simp [hst, hab, hlt]
            have e2 : F32.add (F32.fin (!s) a) (F32.fin (!t) b) = F32.round (!s) (a - b) 1 := by
              unfold F32.add; simp [hst, hab, hlt]
            rw [e1] at h
            obtain ⟨k, hk⟩ := F32.round_finite s (a - b) 1 h
            rw [e1, e2, F32.round_neg_eq s _ _ k hk, hk, F32.add_fin_cancel]
            rfl
          · have e1 : F32.add (F32.fin s a) (F32.fin t b) = F32.round t (b - a) 1 := by
              unfold F32.add; simp [hst, hab, hlt]
            have e2 : F32.add (F32.fin (!s) a) (F32.fin (!t) b) = F32.round (!t) (b - a) 1 := by
              unfold F32.add; simp [hst, hab, hlt]
            rw [e1] at h
            obtain ⟨k, hk⟩ := F32.round_finite t (b - a) 1 h
            rw [e1, e2, F32.round_neg_eq t _ _ k hk, hk, F32.add_fin_cancel]
            rfl

/-! ## The current conversion -/

theorem window_3V3 (b : Board) :
    CURRENT_ADC_LOWER_BOUND b.with_3V3 = 372 ∧ CURRENT_ADC_UPPER_BOUND b.with_3V3 = 3723 := by
  constructor <;> rfl

theorem half_scale_eq : kAdcFullScale / F32.ofNat 2 = F32.ofNat 2048 := by decide

theorem full_scale_eq : kAdcFullScale = F32.ofNat 4096 := by decide

/-- C1: `phase_current_from_adcval` returns absent exactly when the raw code is below
`CURRENT_ADC_LOWER_BOUND` or above `CURRENT_ADC_UPPER_BOUND`, and otherwise the present
value `(raw - 2048) * (kAdcMaxVoltage / 4096) * rev_gain * (1 / SHUNT_RESISTANCE)` in
binary32 arithmetic; on a 3.3 V board the bounds are 372 and 3723 and both are accepted. -/
theorem phase_current_from_adcval_result (b : Board) (s : State) (raw : Nat) (g : F32) :
    ((phase_current_from_adcval b s raw g).2 = none ↔
        (raw < CURRENT_ADC_LOWER_BOUND b ∨ CURRENT_ADC_UPPER_BOUND b < raw)) ∧
    (phase_current_from_adcval b s raw g).2 =
      (if raw < CURRENT_ADC_LOWER_BOUND b ∨ CURRENT_ADC_UPPER_BOUND b < raw then none
       else some ((F32.ofNat raw - F32.ofNat 2048) * (b.kAdcMaxVoltage / F32.ofNat 4096)
                    * g * (F32.ofNat 1 / b.SHUNT_RESISTANCE))) ∧
    (phase_current_from_adcval b.with_3V3 s (CURRENT_ADC_LOWER_BOUND b.with_3V3) g).2.isSome
      = true ∧
    (phase_current_from_adcval b.with_3V3 s (CURRENT_ADC_UPPER_BOUND b.with_3V3) g).2.isSome
      = true := by
  refine ⟨?_, ?_, ?_, ?_⟩
  · unfold phase_current_from_adcval
    by_cases h : raw < CURRENT_ADC_LOWER_BOUND b ∨ raw > CURRENT_ADC_UPPER_BOUND b
    · simp only [if_pos h]; exact ⟨(fun _ => h), (fun _ => trivial)⟩
    · simp only [if_neg h]
      exact ⟨(fun h' => by cases h'), (fun h' => absurd h' h)⟩
  · unfold phase_current_from_adcval phase_current_value
    rw [half_scale_eq, full_scale_eq]
    by_cases h : raw < CURRENT_ADC_LOWER_BOUND b ∨ raw > CURRENT_ADC_UPPER_BOUND b
    · rw [if_pos h, if_pos h]
    · rw [if_neg h, if_neg h]
  · unfold phase_current_from_adcval
    rw [(window_3V3 b).1, (window_3V3 b).2]
    rfl
  · unfold phase_current_from_adcval
    rw [(window_3V3 b).1, (window_3V3 b).2]
    rfl

theorem convert_frame (b : Board) (s : State) (raw : Nat) (g : F32) :
    ∃ e, (phase_current_from_adcval b s raw g).1
      = { s with motors0 := { s.motors0 with error_ := e } } := by
  unfold phase_current_from_adcval
  split
  · exact ⟨_, rfl⟩
  · exact ⟨s.motors0.error_, rfl⟩

theorem convert_value (b : Board) (s : State) (raw : Nat) (g v : F32)
    (h : (phase_current_from_adcval b s raw g).2 = some v) :
    v = phase_current_value b raw g := by
  unfold phase_current_from_adcval at h
  split at h
  · cases h
  · injection h with h
    exact h.symm

theorem convert_in_window (b : Board) (s : State) (raw : Nat) (g : F32)
    (h1 : 372 ≤ raw) (h2 : raw ≤ 3723) :
    (phase_current_from_adcval b.with_3V3 s raw g).2
      = some (phase_current_value b.with_3V3 raw g) := by
  unfold phase_current_from_adcval
  rw [(window_3V3 b).1, (window_3V3 b).2, if_neg (by omega)]

/-- C2: evaluation of `fetch_and_reset_adcs` on a saturated phase B sample of axis 1.  The
fetch succeeds and the reading of axis 1 is absent, yet `ERROR_CURRENT_SENSE_SATURATION`
is not set on axis 1, whose bitmask stays `0`; it is set on axis 0.  In general the fetch
never changes `motors[1]`. -/
theorem saturation_of_axis1_is_recorded_on_axis0 :
    (fetch_and_reset_adcs odrive_v3_6 state_axis1_saturated none none).2.2.2 = true ∧
    (fetch_and_reset_adcs odrive_v3_6 state_axis1_saturated none none).2.2.1 = none ∧
    (fetch_and_reset_adcs odrive_v3_6 state_axis1_saturated none none).1.motors1.error_ = 0 ∧
    ¬ flag_set (fetch_and_reset_adcs odrive_v3_6 state_axis1_saturated none none).1.motors1.error_
        odrive_v3_6.ERROR_CURRENT_SENSE_SATURATION ∧
    flag_set (fetch_and_reset_adcs odrive_v3_6 state_axis1_saturated none none).1.motors0.error_
        odrive_v3_6.ERROR_CURRENT_SENSE_SATURATION ∧
    (∀ (b : Board) (s : State) (c0 c1 : Option Iph_ABC_t),
        (fetch_and_reset_adcs b s c0 c1).1.motors1 = s.motors1) := by
  refine ⟨by decide, by decide, by decide, by decide, by decide, ?_⟩
  intro b s c0 c1
  have hc : ∀ (t : State) (raw : Nat) (g : F32),
      (phase_current_from_adcval b t raw g).1.motors1 = t.motors1 := by
    intro t raw g
    unfold phase_current_from_adcval
    split <;> rfl
  have h0 : ∀ (t : State) (c : Option Iph_ABC_t), (fetch_axis0 b t c).1.motors1 = t.motors1 := by
    intro t c
    unfold fetch_axis0
    split
    · exact (hc _ _ _).trans (hc _ _ _)
    · rfl
  have h1 : ∀ (t : State) (c : Option Iph_ABC_t), (fetch_axis1 b t c).1.motors1 = t.motors1 := by
    intro t c
    unfold fetch_axis1
    split
    · exact (hc _ _ _).trans (hc _ _ _)
    · rfl
  unfold fetch_and_reset_adcs
  split
  · rfl
  · exact (h1 _ _).trans (h0 _ _)

/-- The difference `(float)raw - kAdcFullScale / 2` for a code below `2^24`. -/
theorem centred_code (raw : Nat) (h : raw < 2 ^ 24) :
    F32.ofNat raw - kAdcFullScale / F32.ofNat 2 =
      F32.fin (decide (raw < 2048))
        ((if raw < 2048 then 2048 - raw else raw - 2048) * F32.one_units) := by
  have e2 : kAdcFullScale / F32.ofNat 2 = F32.fin false (2048 * F32.one_units) := by decide
  rw [e2, F32.ofNat_exact raw h]
  show F32.add (F32.fin false (raw * F32.one_units))
    (F32.neg (F32.fin false (2048 * F32.one_units))) = _
  have hU : 0 < F32.one_units := by unfold F32.one_units; exact Nat.pow_pos (by norm_num)
  unfold F32.neg F32.add
  simp only [Bool.not_false, Bool.false_eq_true, if_false]
  rcases Nat.lt_trichotomy raw 2048 with hlt | heq | hgt
  · have h1 : ¬ raw * F32.one_units = 2048 * F32.one_units := by
      intro hc
      have := Nat.eq_of_mul_eq_mul_right hU hc
      omega
    have h2 : ¬ 2048 * F32.one_units < raw * F32.one_units := by
      intro hc
      have := Nat.lt_of_mul_lt_mul_right hc
      omega
    rw [if_neg h1, if_neg h2, if_pos hlt, ← Nat.sub_mul]
    have hm : 2048 - raw < 2 ^ 24 := by
      have : (2 : Nat) ^ 24 = 16777216 := by norm_num
      omega
    have := F32.ofNat_exact (2048 - raw) hm
    unfold F32.ofNat F32.round at this
    dsimp only at this
    unfold F32.round
    dsimp only
    split at this
    · cases this
    · rw [if_neg (by assumption)]
      injection this with _ hk
      rw [hk]
      simp [hlt]
  · subst heq
    simp
  · have h1 : ¬ raw * F32.one_units = 2048 * F32.one_units := by
      intro hc
      have := Nat.eq_of_mul_eq_mul_right hU hc
      omega
    have h2 : 2048 * F32.one_units < raw * F32.one_units :=
      Nat.mul_lt_mul_of_pos_right hgt hU
    have hn : ¬ raw < 2048 := by omega
    rw [if_neg h1, if_pos h2, if_neg hn, ← Nat.sub_mul]
    have hm : raw - 2048 < 2 ^ 24 := by omega
    have := F32.ofNat_exact (raw - 2048) hm
    unfold F32.ofNat at this
    rw [this]
    simp [hn]

theorem volts_per_code (b : Board) :
    b.with_3V3.kAdcMaxVoltage / kAdcFullScale = F32.fin false volts_per_code_units := by
  show f32_3_3 / kAdcFullScale = _
  decide

theorem first_product_bound (n : Nat) (h : n ≤ 1676) :
    roundND (n * F32.one_units * volts_per_code_units) F32.one_units < F32.overflow_units := by
  have h1 : roundND (n * F32.one_units * volts_per_code_units) F32.one_units
      ≤ roundND (1676 * F32.one_units * volts_per_code_units) F32.one_units :=
    roundND_mono _ _ _ one_units_pos (Nat.mul_le_mul_right _ (Nat.mul_le_mul_right _ h))
  have h2 : roundND (1676 * F32.one_units * volts_per_code_units) F32.one_units
      < F32.overflow_units := by decide
  omega

theorem code_offset_le (raw : Nat) (h1 : 372 ≤ raw) (h2 : raw ≤ 3723) :
    code_offset raw ≤ 1676 := by
  unfold code_offset
  split <;> omega

theorem code_offset_pos (raw : Nat) (h : raw ≠ 2048) : 1 ≤ code_offset raw := by
  unfold code_offset
  split <;> omega

theorem first_product_ge (n : Nat) (h : 1 ≤ n) :
    volts_per_code_units
      ≤ roundND (n * F32.one_units * volts_per_code_units) F32.one_units := by
  have h1 : roundND (1 * F32.one_units * volts_per_code_units) F32.one_units
      ≤ roundND (n * F32.one_units * volts_per_code_units) F32.one_units :=
    roundND_mono _ _ _ one_units_pos (Nat.mul_le_mul_right _ (Nat.mul_le_mul_right _ h))
  have h2 : roundND (1 * F32.one_units * volts_per_code_units) F32.one_units
      = volts_per_code_units := by decide
  omega

/-- The first product `((float)raw - 2048) * (3.3f / 4096)` for a code of the window. -/
theorem first_product (b : Board) (raw : Nat) (h1 : 372 ≤ raw) (h2 : raw ≤ 3723) :
    (F32.ofNat raw - kAdcFullScale / F32.ofNat 2) * (b.with_3V3.kAdcMaxVoltage / kAdcFullScale)
      = F32.fin (decide (raw < 2048))
          (roundND (code_offset raw * F32.one_units * volts_per_code_units) F32.one_units) := by
  have hraw : raw < 2 ^ 24 := by
    have : (2 : Nat) ^ 24 = 16777216 := by norm_num
    omega
  rw [centred_code raw hraw, volts_per_code]
  have hb := first_product_bound (code_offset raw) (code_offset_le raw h1 h2)
  show F32.mul _ _ = _
  unfold F32.mul F32.round
  simp only [Bool.xor_false]
  have e0 : (if raw < 2048 then 2048 - raw else raw - 2048) = code_offset raw := rfl
  rw [e0, if_neg (by omega)]

theorem final_mag_mono (ks : Nat) {a c : Nat} (h : a ≤ c) (hc : c ≤ F32.overflow_units) :
    (if a = F32.overflow_units then F32.overflow_units
      else clamp (roundND (a * ks) F32.one_units))
    ≤ (if c = F32.overflow_units then F32.overflow_units
      else clamp (roundND (c * ks) F32.one_units)) := by
  by_cases h2 : c = F32.overflow_units
  · rw [if_pos h2]
    split
    · exact le_refl _
    · exact clamp_le _
  · have h1 : ¬ a = F32.overflow_units := by omega
    rw [if_neg h1, if_neg h2]
    exact clamp_mono (roundND_mono _ _ _ one_units_pos (Nat.mul_le_mul_right ks h))

theorem conv_mag_mono (kk gk ks : Nat) {n1 n2 : Nat} (h : n1 ≤ n2) :
    conv_mag kk gk ks n1 ≤ conv_mag kk gk ks n2 := by
  unfold conv_mag
  dsimp only
  have h1 : roundND (n1 * F32.one_units * kk) F32.one_units
      ≤ roundND (n2 * F32.one_units * kk) F32.one_units :=
    roundND_mono _ _ _ one_units_pos
      (Nat.mul_le_mul_right _ (Nat.mul_le_mul_right _ h))
  exact final_mag_mono ks
    (clamp_mono (roundND_mono _ _ _ one_units_pos (Nat.mul_le_mul_right gk h1)))
    (clamp_le _)

theorem conv_mag_zero (kk gk ks : Nat) : conv_mag kk gk ks 0 = 0 := by
  unfold conv_mag
  dsimp only
  have hne : ¬ (0 : Nat) = F32.overflow_units := by decide
  simp only [Nat.zero_mul, roundND_zero]
  have c0 : clamp 0 = 0 := by unfold clamp; simp
  rw [c0, if_neg hne, Nat.zero_mul, roundND_zero, c0]

theorem conv_mag_le (kk gk ks n : Nat) : conv_mag kk gk ks n ≤ F32.overflow_units := by
  unfold conv_mag
  dsimp only
  split
  · exact le_refl _
  · exact clamp_le _

theorem conv_mag_pos (gk ks n : Nat) (hg : 2 ^ 23 ≤ gk) (hks : F32.one_units ≤ ks)
    (hn : 1 ≤ n) : 1 ≤ conv_mag volts_per_code_units gk ks n := by
  unfold conv_mag
  dsimp only
  have h1 := first_product_ge n hn
  have c : F32.one_units ≤ volts_per_code_units * 2 ^ 23 := by decide
  have h2 : F32.one_units
      ≤ roundND (n * F32.one_units * volts_per_code_units) F32.one_units * gk :=
    le_trans c (Nat.mul_le_mul h1 hg)
  have h3 := clamp_pos (roundND_pos _ _ one_units_pos h2)
  split
  · exact overflow_units_pos
  · apply clamp_pos
    apply roundND_pos _ _ one_units_pos
    calc F32.one_units = 1 * F32.one_units := (Nat.one_mul _).symm
      _ ≤ _ := Nat.mul_le_mul h3 hks

theorem apart_codes {n1 n2 : Nat} (h : n1 < n2) (hn : n2 ≤ 1676) : apart 3 n1 n2 := by
  unfold apart
  norm_num
  omega

theorem conv_mag_strict (gk ks n1 n2 : Nat) (hg : 2 ^ 35 ≤ gk) (hks : F32.one_units ≤ ks)
    (h12 : n1 < n2) (hn : n2 ≤ 1676)
    (hfin : conv_mag volts_per_code_units gk ks n2 < F32.overflow_units) :
    conv_mag volts_per_code_units gk ks n1 < conv_mag volts_per_code_units gk ks n2 := by
  rcases Nat.eq_zero_or_pos n1 with h0 | hpos
  · subst h0
    rw [conv_mag_zero]
    have hg' : 2 ^ 23 ≤ gk := le_trans (Nat.pow_le_pow_right (by norm_num) (by norm_num)) hg
    exact conv_mag_pos gk ks n2 hg' hks (by omega)
  · have hgpos : 0 < gk := lt_of_lt_of_le (Nat.pow_pos (by norm_num)) hg
    have hkspos : 0 < ks := lt_of_lt_of_le one_units_pos hks
    have hkk : 0 < volts_per_code_units := by decide
    -- first product
    have a3 : apart 3 (n1 * F32.one_units * volts_per_code_units)
        (n2 * F32.one_units * volts_per_code_units) :=
      apart_mul _ hkk (apart_mul _ one_units_pos (apart_codes h12 hn))
    have c1 : 2 ^ 24 * F32.one_units ≤ 1 * F32.one_units * volts_per_code_units := by decide
    have q1 : 2 ^ 24 * F32.one_units ≤ n1 * F32.one_units * volts_per_code_units :=
      le_trans c1 (Nat.mul_le_mul_right _ (Nat.mul_le_mul_right _ hpos))
    have a2 := apart_round one_units_pos (large_quotient q1) a3
    -- second product
    have a2' := apart_mul gk hgpos a2
    have c2 : 2 ^ 24 * F32.one_units ≤ volts_per_code_units * 2 ^ 35 := by decide
    have q2 : 2 ^ 24 * F32.one_units
        ≤ roundND (n1 * F32.one_units * volts_per_code_units) F32.one_units * gk :=
      le_trans c2 (Nat.mul_le_mul (first_product_ge n1 hpos) hg)
    have a1 := apart_round one_units_pos (large_quotient q2) a2'
    have r2 := roundND_ge_of_large q2
    -- third product
    have a1' := apart_mul ks hkspos a1
    have q3 : 2 ^ 24 * F32.one_units
        ≤ roundND (roundND (n1 * F32.one_units * volts_per_code_units) F32.one_units * gk)
            F32.one_units * ks := Nat.mul_le_mul r2 hks
    have a0 := apart_round one_units_pos (large_quotient q3) a1'
    have l2 := apart_lt a1
    have l3 := apart_lt a0
    -- no overflow on the way
    unfold conv_mag at hfin ⊢
    dsimp only at hfin ⊢
    generalize roundND (n1 * F32.one_units * volts_per_code_units) F32.one_units = P1 at *
    generalize roundND (n2 * F32.one_units * volts_per_code_units) F32.one_units = P2 at *
    generalize hR1 : roundND (P1 * gk) F32.one_units = R1 at *
    generalize hR2 : roundND (P2 * gk) F32.one_units = R2 at *
    have hc2 : R2 < F32.overflow_units := by
      by_contra hc
      have : clamp R2 = F32.overflow_units := by unfold clamp; omega
      rw [if_pos this] at hfin
      omega
    have e2 : clamp R2 = R2 := by unfold clamp; omega
    have e1 : clamp R1 = R1 := by unfold clamp; omega
    rw [e2] at hfin
    rw [e1, e2]
    have n2' : ¬ R2 = F32.overflow_units := by omega
    have n1' : ¬ R1 = F32.overflow_units := by omega
    rw [if_neg n2'] at hfin
    rw [if_neg n1', if_neg n2']
    generalize roundND (R1 * ks) F32.one_units = S1 at *
    generalize roundND (R2 * ks) F32.one_units = S2 at *
    unfold clamp at hfin ⊢
    omega

/-- The converted current of a code of the window of a 3.3 V board, for a finite gain and
a finite non-zero shunt conductance: sign and clamped magnitude. -/
theorem phase_current_value_eq (b : Board) (ks : Nat)
    (hs : F32.ofNat 1 / b.SHUNT_RESISTANCE = F32.fin false ks) (hks : ks ≠ 0)
    (raw : Nat) (h1 : 372 ≤ raw) (h2 : raw ≤ 3723) (sg : Bool) (gk : Nat) :
    phase_current_value b.with_3V3 raw (F32.fin sg gk) =
      F32.of_mag (xor (decide (raw < 2048)) sg)
        (conv_mag volts_per_code_units gk ks (code_offset raw)) := by
  have hs' : F32.ofNat 1 / b.with_3V3.SHUNT_RESISTANCE = F32.fin false ks := hs
  unfold phase_current_value
  rw [first_product b raw h1 h2, hs']
  have e2 : F32.fin (decide (raw < 2048))
        (roundND (code_offset raw * F32.one_units * volts_per_code_units) F32.one_units)
      * F32.fin sg gk
      = F32.round (xor (decide (raw < 2048)) sg)
          (roundND (code_offset raw * F32.one_units * volts_per_code_units) F32.one_units * gk)
          F32.one_units := rfl
  rw [e2, F32.round_eq_of_mag, F32.of_mag_mul _ _ _ (clamp_le _) hks]
  rfl

theorem sgn_not (s : Bool) (x : Nat) : sgn (!s) x = - sgn s x := by
  unfold sgn
  cases s <;> simp

theorem sgn_mono_of_codes (M : Nat → Nat) (hM : ∀ a c, a ≤ c → M a ≤ M c) (r1 r2 : Nat)
    (h : r1 ≤ r2) :
    sgn (decide (r1 < 2048)) (M (code_offset r1)) ≤ sgn (decide (r2 < 2048)) (M (code_offset r2)) := by
  unfold sgn code_offset
  by_cases a1 : r1 < 2048
  · by_cases a2 : r2 < 2048
    · have := hM (2048 - r2) (2048 - r1) (by omega)
      simp only [a1, a2, decide_True, if_true]
      omega
    · simp only [a1, a2, decide_True, decide_False, if_true, if_false, Bool.false_eq_true]
      omega
  · have a2 : ¬ r2 < 2048 := by omega
    have := hM (r1 - 2048) (r2 - 2048) (by omega)
    simp only [a1, a2, decide_False, if_false, Bool.false_eq_true]
    omega

theorem sgn_strict_of_codes (M : Nat → Nat) (hpos : ∀ n, 1 ≤ n → 1 ≤ M n)
    (hM : ∀ a c, a < c → c ≤ 1676 → M c < F32.overflow_units → M a < M c) (r1 r2 : Nat)
    (h1 : 372 ≤ r1) (h : r1 < r2) (h2 : r2 ≤ 3723)
    (f1 : M (code_offset r1) < F32.overflow_units)
    (f2 : M (code_offset r2) < F32.overflow_units) :
    sgn (decide (r1 < 2048)) (M (code_offset r1)) < sgn (decide (r2 < 2048)) (M (code_offset r2)) := by
  unfold sgn
  unfold code_offset at *
  by_cases a1 : r1 < 2048
  · by_cases a2 : r2 < 2048
    · rw [if_pos a1] at f1
      have := hM (2048 - r2) (2048 - r1) (by omega) (by omega) f1
      simp only [a1, a2, decide_True, if_true]
      omega
    · have := hpos (2048 - r1) (by omega)
      simp only [a1, a2, decide_True, decide_False, if_true, if_false, Bool.false_eq_true]
      omega
  · have a2 : ¬ r2 < 2048 := by omega
    rw [if_neg a2] at f2
    have := hM (r1 - 2048) (r2 - 2048) (by omega) (by omega) f2
    simp only [a1, a2, decide_False, if_false, Bool.false_eq_true]
    omega

/-- C3, counterexample: an in-window code other than 2048 and a non-zero gain whose
conversion is zero.  With the smallest positive binary32 number as reverse gain, code 2049
converts to `+0`: the product underflows. -/
theorem tiny_gain_converts_to_zero :
    f32_min_subnormal.isBinary32 = true ∧ f32_min_subnormal.isZero = false ∧
    CURRENT_ADC_LOWER_BOUND odrive_v3_6 ≤ 2049 ∧ 2049 ≤ CURRENT_ADC_UPPER_BOUND odrive_v3_6 ∧
    (phase_current_from_adcval odrive_v3_6 state_init 2049 f32_min_subnormal).2
      = some (F32.fin false 0) := by
  decide

/-- C3, amended: on a 3.3 V board whose shunt conductance `1 / SHUNT_RESISTANCE` is finite
and at least one, the code 2048 lies inside the window and converts to zero for every
finite reverse gain; every other code of the window converts to a non-zero value for every
reverse gain whose magnitude is at least the smallest normal number `2^-126` (a smaller
gain can underflow to zero). -/
theorem zero_crossing (b : Board) (s : State) (ks : Nat)
    (hs : F32.ofNat 1 / b.SHUNT_RESISTANCE = F32.fin false ks) (hks : F32.one_units ≤ ks) :
    CURRENT_ADC_LOWER_BOUND b.with_3V3 ≤ 2048 ∧ 2048 ≤ CURRENT_ADC_UPPER_BOUND b.with_3V3 ∧
    (∀ g : F32, g.isFinite = true →
      ∃ v, (phase_current_from_adcval b.with_3V3 s 2048 g).2 = some v ∧ v.isZero = true) ∧
    (∀ (raw : Nat) (g : F32), CURRENT_ADC_LOWER_BOUND b.with_3V3 ≤ raw →
      raw ≤ CURRENT_ADC_UPPER_BOUND b.with_3V3 → raw ≠ 2048 → g.abs_ge_min_normal = true →
      ∃ v, (phase_current_from_adcval b.with_3V3 s raw g).2 = some v ∧ v.isZero = false) := by
  have hks0 : ks ≠ 0 := by
    have := one_units_pos
    omega
  rw [(window_3V3 b).1, (window_3V3 b).2]
  refine ⟨by norm_num, by norm_num, ?_, ?_⟩
  · intro g hg
    refine ⟨_, convert_in_window b s 2048 g (by norm_num) (by norm_num), ?_⟩
    cases g with
    | nan => cases hg
    | inf t => cases hg
    | fin sg gk =>
      rw [phase_current_value_eq b ks hs hks0 2048 (by norm_num) (by norm_num),
        F32.isZero_of_mag]
      have : code_offset 2048 = 0 := rfl
      rw [this, conv_mag_zero]
      rfl
  · intro raw g h1 h2 hne hg
    refine ⟨_, convert_in_window b s raw g h1 h2, ?_⟩
    have hs' : F32.ofNat 1 / b.with_3V3.SHUNT_RESISTANCE = F32.fin false ks := hs
    have hp := first_product_ge (code_offset raw) (code_offset_pos raw hne)
    have hkk : 0 < volts_per_code_units := by decide
    cases g with
    | nan =>
      unfold phase_current_value
      rw [first_product b raw h1 h2, hs']
      rfl
    | inf t =>
      unfold phase_current_value
      rw [first_product b raw h1 h2, hs']
      show (F32.mul (F32.mul (F32.fin _ _) (F32.inf t)) (F32.fin false ks)).isZero = false
      have hne' : ¬ roundND (code_offset raw * F32.one_units * volts_per_code_units)
          F32.one_units = 0 := by omega
      unfold F32.mul
      simp only [hne', if_false]
      simp only [hks0, if_false]
      rfl
    | fin sg gk =>
      have hgk : 2 ^ 23 ≤ gk := by simpa [F32.abs_ge_min_normal] using hg
      rw [phase_current_value_eq b ks hs hks0 raw h1 h2, F32.isZero_of_mag]
      have := conv_mag_pos gk ks (code_offset raw) hgk hks (code_offset_pos raw hne)
      have hne' : ¬ conv_mag volts_per_code_units gk ks (code_offset raw) = 0 := by omega
      simp [hne']

/-- C3, instance: the 500 µΩ shunt has conductance `16383999 * 2^-13`, just below 2000;
code 2048 converts to zero with gain 1 and code 2049 does not. -/
theorem zero_crossing_witness :
    (∃ v, (phase_current_from_adcval odrive_v3_6.with_3V3 state_init 2048 (F32.ofNat 1)).2
        = some v ∧ v.isZero = true) ∧
    (∃ v, (phase_current_from_adcval odrive_v3_6.with_3V3 state_init 2049 (F32.ofNat 1)).2
        = some v ∧ v.isZero = false) :=
  ⟨(zero_crossing odrive_v3_6 state_init (16383999 * 2 ^ 136) (by decide)
      (by decide)).2.2.1 (F32.ofNat 1) (by decide),
   (zero_crossing odrive_v3_6 state_init (16383999 * 2 ^ 136) (by decide)
      (by decide)).2.2.2 2049 (F32.ofNat 1) (by decide) (by decide) (by decide) (by decide)⟩

/-- C4, counterexample: a positive reverse gain for which the conversion is not strictly
increasing.  With the smallest positive binary32 number as gain, the in-window codes 2049
and 2050 both convert to `+0`. -/
theorem tiny_gain_not_strictly_increasing :
    f32_min_subnormal.isBinary32 = true ∧
    F32.lt (F32.fin false 0) f32_min_subnormal = true ∧
    (phase_current_from_adcval odrive_v3_6 state_init 2049 f32_min_subnormal).2
      = some (F32.fin false 0) ∧
    (phase_current_from_adcval odrive_v3_6 state_init 2050 f32_min_subnormal).2
      = some (F32.fin false 0) ∧
    F32.lt (F32.fin false 0) (F32.fin false 0) = false := by
  decide

/-- C4, amended: on a 3.3 V board with a finite positive shunt conductance and for every
finite reverse gain, the conversion is monotonic in the raw code over the window:
non-decreasing when the gain is positive or zero, non-increasing when it is negative or
zero.  It is strictly increasing when the gain is at least `2^-114`, the shunt conductance
is at least one and the two results are finite; for smaller gains the results can
coincide. -/
theorem conversion_monotone (b : Board) (s : State) (ks : Nat)
    (hs : F32.ofNat 1 / b.SHUNT_RESISTANCE = F32.fin false ks) (hks : ks ≠ 0)
    (sg : Bool) (gk r1 r2 : Nat) (h1 : CURRENT_ADC_LOWER_BOUND b.with_3V3 ≤ r1)
    (h12 : r1 ≤ r2) (h2 : r2 ≤ CURRENT_ADC_UPPER_BOUND b.with_3V3) :
    ∃ v1 v2,
      (phase_current_from_adcval b.with_3V3 s r1 (F32.fin sg gk)).2 = some v1 ∧
      (phase_current_from_adcval b.with_3V3 s r2 (F32.fin sg gk)).2 = some v2 ∧
      (sg = false → F32.le v1 v2 = true) ∧
      (sg = true → F32.le v2 v1 = true) ∧
      (sg = false → 2 ^ 35 ≤ gk → F32.one_units ≤ ks → v1.isFinite = true →
        v2.isFinite = true → r1 < r2 → F32.lt v1 v2 = true) := by
  rw [(window_3V3 b).1] at h1
  rw [(window_3V3 b).2] at h2
  have w1 : 372 ≤ r2 := le_trans h1 h12
  have w2 : r1 ≤ 3723 := le_trans h12 h2
  refine ⟨_, _, convert_in_window b s r1 _ h1 w2, convert_in_window b s r2 _ w1 h2, ?_, ?_, ?_⟩
  · intro hsg
    subst hsg
    rw [phase_current_value_eq b ks hs hks r1 h1 w2, phase_current_value_eq b ks hs hks r2 w1 h2]
    refine F32.le_of_key (F32.key_of_mag _ _ (conv_mag_le _ _ _ _))
      (F32.key_of_mag _ _ (conv_mag_le _ _ _ _)) ?_
    simp only [Bool.xor_false]
    exact sgn_mono_of_codes (conv_mag volts_per_code_units gk ks)
      (fun a c h => conv_mag_mono _ _ _ h) r1 r2 h12
  · intro hsg
    subst hsg
    rw [phase_current_value_eq b ks hs hks r1 h1 w2, phase_current_value_eq b ks hs hks r2 w1 h2]
    refine F32.le_of_key (F32.key_of_mag _ _ (conv_mag_le _ _ _ _))
      (F32.key_of_mag _ _ (conv_mag_le _ _ _ _)) ?_
    simp only [Bool.xor_true, sgn_not]
    have := sgn_mono_of_codes (conv_mag volts_per_code_units gk ks)
      (fun a c h => conv_mag_mono _ _ _ h) r1 r2 h12
    omega
  · intro hsg hg hk f1 f2 hlt
    subst hsg
    rw [phase_current_value_eq b ks hs hks r1 h1 w2] at f1 ⊢
    rw [phase_current_value_eq b ks hs hks r2 w1 h2] at f2 ⊢
    refine F32.lt_of_key (F32.key_of_mag _ _ (conv_mag_le _ _ _ _))
      (F32.key_of_mag _ _ (conv_mag_le _ _ _ _)) ?_
    simp only [Bool.xor_false]
    have hg' : 2 ^ 23 ≤ gk := le_trans (Nat.pow_le_pow_right (by norm_num) (by norm_num)) hg
    exact sgn_strict_of_codes (conv_mag volts_per_code_units gk ks)
      (fun n hn => conv_mag_pos gk ks n hg' hk hn)
      (fun a c hac hc hf => conv_mag_strict gk ks a c hg hk hac hc hf)
      r1 r2 h1 hlt h2 (F32.isFinite_of_mag _ _ f1) (F32.isFinite_of_mag _ _ f2)

/-- C4, instance: with the 500 µΩ shunt and reverse gain `13421773 * 2^-29`, which is
`1.0f / 40.0f`, the conversions of the codes 1000 and 3000 are finite and strictly
ordered. -/
theorem conversion_monotone_witness :
    ∃ v1 v2,
      (phase_current_from_adcval odrive_v3_6.with_3V3 state_init 1000
        (F32.fin false (13421773 * 2 ^ 120))).2 = some v1 ∧
      (phase_current_from_adcval odrive_v3_6.with_3V3 state_init 3000
        (F32.fin false (13421773 * 2 ^ 120))).2 = some v2 ∧
      F32.le v1 v2 = true ∧ F32.lt v1 v2 = true := by
  obtain ⟨v1, v2, e1, e2, hle, -, hlt⟩ :=
    conversion_monotone odrive_v3_6 state_init (16383999 * 2 ^ 136) (by decide) (by decide)
      false (13421773 * 2 ^ 120) 1000 3000 (by decide) (by decide) (by decide)
  have c1 := convert_in_window odrive_v3_6 state_init 1000
    (F32.fin false (13421773 * 2 ^ 120)) (by decide) (by decide)
  have c2 := convert_in_window odrive_v3_6 state_init 3000
    (F32.fin false (13421773 * 2 ^ 120)) (by decide) (by decide)
  have hv1 : v1 = _ := Option.some.inj (e1.symm.trans c1)
  have hv2 : v2 = _ := Option.some.inj (e2.symm.trans c2)
  have f1 : v1.isFinite = true := by rw [hv1]; decide
  have f2 : v2.isFinite = true := by rw [hv2]; decide
  exact ⟨v1, v2, e1, e2, hle rfl, hlt rfl (by decide) (by decide) f1 f2 (by decide)⟩

/-! ## Error bitmasks -/

theorem bits_kept_refl (e : Nat) : bits_kept e e := fun _ h => h

theorem bits_kept_trans {a b c : Nat} (h1 : bits_kept a b) (h2 : bits_kept b c) :
    bits_kept a c := fun i h => h2 i (h1 i h)

theorem bits_kept_lor (e c : Nat) : bits_kept e (e ||| c) := by
  intro i h
  rw [Nat.testBit_lor, h]
  rfl

theorem flag_set_lor (e c : Nat) : flag_set (e ||| c) c := by
  unfold flag_set
  apply Nat.eq_of_testBit_eq
  intro i
  rw [Nat.testBit_land, Nat.testBit_lor]
  cases e.testBit i <;> cases c.testBit i <;> rfl

theorem flag_set_of_bits_kept {e e' c : Nat} (h : bits_kept e e') (hc : flag_set e c) :
    flag_set e' c := by
  unfold flag_set at *
  apply Nat.eq_of_testBit_eq
  intro i
  rw [Nat.testBit_land]
  cases hci : c.testBit i
  · simp
  · have h1 : (e &&& c).testBit i = true := by rw [hc]; exact hci
    rw [Nat.testBit_land, hci, Bool.and_true] at h1
    rw [h i h1]
    rfl

theorem errors_kept_refl (s : State) : errors_kept s s :=
  ⟨bits_kept_refl _, bits_kept_refl _⟩

theorem errors_kept_trans {s t u : State} (h1 : errors_kept s t) (h2 : errors_kept t u) :
    errors_kept s u :=
  ⟨bits_kept_trans h1.1 h2.1, bits_kept_trans h1.2 h2.2⟩

theorem errors_kept_of_eq {s t : State} (h0 : t.motors0 = s.motors0)
    (h1 : t.motors1 = s.motors1) : errors_kept s t := by
  unfold errors_kept
  rw [h0, h1]
  exact ⟨bits_kept_refl _, bits_kept_refl _⟩

theorem errors_kept_disarm_both (s : State) (code : Nat) :
    errors_kept s (s.disarm_both code) :=
  ⟨bits_kept_lor _ _, bits_kept_lor _ _⟩

theorem errors_kept_disarm_both_unless (s : State) (ok : Bool) (code : Nat) :
    errors_kept s (s.disarm_both_unless ok code) := by
  unfold State.disarm_both_unless
  cases ok
  · exact errors_kept_disarm_both s code
  · exact errors_kept_refl s

theorem errors_kept_convert (b : Board) (s : State) (raw : Nat) (g : F32) :
    errors_kept s (phase_current_from_adcval b s raw g).1 := by
  unfold phase_current_from_adcval
  split
  · exact ⟨bits_kept_lor _ _, bits_kept_refl _⟩
  · exact errors_kept_refl s

theorem errors_kept_fetch_axis0 (b : Board) (s : State) (c : Option Iph_ABC_t) :
    errors_kept s (fetch_axis0 b s c).1 := by
  unfold fetch_axis0
  split
  · exact errors_kept_trans (errors_kept_convert b s _ _) (errors_kept_convert b _ _ _)
  · exact errors_kept_refl s

theorem errors_kept_fetch_axis1 (b : Board) (s : State) (c : Option Iph_ABC_t) :
    errors_kept s (fetch_axis1 b s c).1 := by
  unfold fetch_axis1
  split
  · exact errors_kept_trans (errors_kept_convert b s _ _) (errors_kept_convert b _ _ _)
  · exact errors_kept_refl s

theorem errors_kept_fetch (b : Board) (s : State) (c0 c1 : Option Iph_ABC_t) :
    errors_kept s (fetch_and_reset_adcs b s c0 c1).1 := by
  unfold fetch_and_reset_adcs
  split
  · exact errors_kept_refl s
  · have h0 : errors_kept s (store_vbus b s) := errors_kept_of_eq rfl rfl
    have h1 := errors_kept_fetch_axis0 b (store_vbus b s) c0
    have h2 := errors_kept_fetch_axis1 b (fetch_axis0 b (store_vbus b s) c0).1 c1
    have h3 : errors_kept (fetch_axis1 b (fetch_axis0 b (store_vbus b s) c0).1 c1).1
        (reset_adcs (fetch_axis1 b (fetch_axis0 b (store_vbus b s) c0).1 c1).1) :=
      errors_kept_of_eq rfl rfl
    exact errors_kept_trans h0 (errors_kept_trans h1 (errors_kept_trans h2 h3))

theorem errors_kept_TIM8 (b : Board) (s : State) :
    errors_kept s (TIM8_UP_TIM13_IRQHandler b s) := by
  unfold TIM8_UP_TIM13_IRQHandler
  dsimp only
  split
  · exact errors_kept_disarm_both s _
  · split
    · exact errors_kept_of_eq rfl rfl
    · exact errors_kept_of_eq rfl rfl

theorem errors_kept_half_cycle (b : Board) (s : State) (cr1 : Nat) :
    errors_kept s (half_cycle b s cr1) :=
  errors_kept_trans (t := { s with TIM8 := { s.TIM8 with CR1 := cr1 } })
    (errors_kept_of_eq rfl rfl) (errors_kept_TIM8 b _)

theorem errors_kept_fire_all (b : Board) (cr1s : List Nat) (s : State) :
    errors_kept s (fire_all b s cr1s) := by
  induction cr1s generalizing s with
  | nil => exact errors_kept_refl s
  | cons c cs ih => exact errors_kept_trans (errors_kept_half_cycle b s c) (ih _)

theorem errors_kept_convert_all (b : Board) (cs : List (Nat × F32)) (s : State) :
    errors_kept s (convert_all b s cs) := by
  induction cs generalizing s with
  | nil => exact errors_kept_refl s
  | cons c cs ih => exact errors_kept_trans (errors_kept_convert b s c.1 c.2) (ih _)

theorem errors_kept_emit {s t : State} (h : errors_kept s t) (e : Event) :
    errors_kept s (t.emit e) := h

theorem errors_kept_callbacks (b : Board) (s : State) (ts : Nat) (c0 c1 : Option Iph_ABC_t) :
    errors_kept s (ControlLoop_callbacks b s ts c0 c1) := by
  unfold ControlLoop_callbacks
  exact errors_kept_emit (errors_kept_emit (errors_kept_emit (errors_kept_emit
    (errors_kept_emit (errors_kept_emit (errors_kept_refl s) _) _) _) _) _) _

theorem errors_kept_measure_callbacks (b : Board) (s : State) (ts : Nat)
    (c0 c1 : Option Iph_ABC_t) : errors_kept s (measure_callbacks b s ts c0 c1) := by
  unfold measure_callbacks
  exact errors_kept_emit (errors_kept_emit (errors_kept_emit (errors_kept_refl s) _) _) _

theorem errors_kept_fetch_or_disarm (b : Board) (s : State) (c0 c1 : Option Iph_ABC_t) :
    errors_kept s (fetch_or_disarm b s c0 c1).1 :=
  errors_kept_trans (errors_kept_fetch b s c0 c1) (errors_kept_disarm_both_unless _ _ _)

theorem errors_kept_dma_check (b : Board) (s : State) : errors_kept s (dma_check b s) :=
  errors_kept_trans (errors_kept_disarm_both_unless s s.adc1_dma_tc b.ERROR_BAD_TIMING)
    (errors_kept_of_eq rfl rfl)

theorem errors_kept_measure (b : Board) (s : State) :
    errors_kept s (ControlLoop_measure b s).1 := by
  unfold ControlLoop_measure
  dsimp only
  refine errors_kept_trans (errors_kept_fetch_or_disarm b s none none) ?_
  generalize (fetch_or_disarm b s none none) = f
  refine errors_kept_trans (errors_kept_dma_check b f.1) ?_
  generalize (dma_check b f.1) = s3
  exact errors_kept_measure_callbacks b s3 _ _ _

theorem errors_kept_actuate (b : Board) (s : State) (l : ControlLoopLocals) :
    errors_kept s (ControlLoop_actuate b s l) := by
  unfold ControlLoop_actuate
  dsimp only
  refine errors_kept_trans (errors_kept_fetch_or_disarm b s l.current0 l.current1) ?_
  generalize (fetch_or_disarm b s l.current0 l.current1) = f
  have h3 : errors_kept f.1 (ControlLoop_callbacks b f.1 l.timestamp f.2.1 f.2.2) :=
    errors_kept_callbacks b f.1 _ _ _
  refine errors_kept_trans h3 ?_
  generalize (ControlLoop_callbacks b f.1 l.timestamp f.2.1 f.2.2) = s7
  exact errors_kept_trans (errors_kept_disarm_both_unless _ _ _) (errors_kept_of_eq rfl rfl)

theorem errors_kept_ControlLoop (b : Board) (s : State) (env : ControlLoopEnv) :
    errors_kept s (ControlLoop_IRQHandler b s env).state := by
  unfold ControlLoop_IRQHandler
  have h1 : errors_kept s (env.irqs.foldl (half_cycle b) (ControlLoop_measure b s).1) :=
    errors_kept_trans (errors_kept_measure b s) (errors_kept_fire_all b env.irqs _)
  dsimp only
  generalize (ControlLoop_measure b s) = m at h1 ⊢
  generalize (List.foldl (half_cycle b) m.1 env.irqs) = s1 at h1 ⊢
  cases wait_for_adc2_eoc env.adc2_sr_polls with
  | none => exact h1
  | some n =>
    refine errors_kept_trans h1 ?_
    refine errors_kept_trans (t := s1.with_adcs env.ADC1 env.ADC2 env.ADC3)
      (errors_kept_of_eq rfl rfl) ?_
    exact errors_kept_actuate b _ _

/-- C5: error bits are sticky.  Every error bit of either axis that is set before
`phase_current_from_adcval` (any raw code), `fetch_and_reset_adcs`,
`TIM8_UP_TIM13_IRQHandler` or `ControlLoop_IRQHandler` (whether it returns or stays in its
wait loop) is set afterwards, `disarm_with_error` OR-ing its code into the bitmask; and a
flag that is set, such as `ERROR_CURRENT_SENSE_SATURATION`, stays set through any sequence
of further conversions. -/
theorem error_bits_sticky (b : Board) (s : State) :
    (∀ raw g, errors_kept s (phase_current_from_adcval b s raw g).1) ∧
    (∀ c0 c1, errors_kept s (fetch_and_reset_adcs b s c0 c1).1) ∧
    errors_kept s (TIM8_UP_TIM13_IRQHandler b s) ∧
    (∀ env, errors_kept s (ControlLoop_IRQHandler b s env).state) ∧
    (∀ cs code, flag_set s.motors0.error_ code →
        flag_set (convert_all b s cs).motors0.error_ code) ∧
    (∀ cs code, flag_set s.motors1.error_ code →
        flag_set (convert_all b s cs).motors1.error_ code) :=
  ⟨errors_kept_convert b s, errors_kept_fetch b s, errors_kept_TIM8 b s,
    errors_kept_ControlLoop b s,
    fun cs _ h => flag_set_of_bits_kept (errors_kept_convert_all b cs s).1 h,
    fun cs _ h => flag_set_of_bits_kept (errors_kept_convert_all b cs s).2 h⟩

/-- C5, instance: after a conversion of code 0 has set the saturation flag, the flag is
still set after conversions of the in-window codes 2048, 3000 and 372. -/
theorem error_bits_sticky_witness :
    flag_set (convert_all odrive_v3_6
        (phase_current_from_adcval odrive_v3_6 state_init 0 (F32.ofNat 1)).1
        [(2048, F32.ofNat 1), (3000, F32.ofNat 1), (372, F32.ofNat 1)]).motors0.error_
      odrive_v3_6.ERROR_CURRENT_SENSE_SATURATION :=
  (error_bits_sticky odrive_v3_6
    (phase_current_from_adcval odrive_v3_6 state_init 0 (F32.ofNat 1)).1).2.2.2.2.1
    _ _ (by decide)

/-! ## Reconstruction of the third phase -/

theorem fetch_axis0_frame (b : Board) (s : State) (c : Option Iph_ABC_t) :
    ∃ e, (fetch_axis0 b s c).1 = { s with motors0 := { s.motors0 with error_ := e } } := by
  unfold fetch_axis0
  split
  · obtain ⟨e1, h1⟩ := convert_frame b s s.ADC2.JDR1 s.motors0.phase_current_rev_gain_
    dsimp only
    rw [h1]
    obtain ⟨e2, h2⟩ := convert_frame b
      { s with motors0 := { s.motors0 with error_ := e1 } } s.ADC3.JDR1
      s.motors0.phase_current_rev_gain_
    exact ⟨e2, h2⟩
  · exact ⟨s.motors0.error_, rfl⟩

theorem store_current_some (vB vC : Option F32) (t : Iph_ABC_t)
    (h : store_current none vB vC = some t) :
    vB = some t.phB ∧ vC = some t.phC ∧ t.phA = -t.phB - t.phC := by
  unfold store_current at h
  cases vB with
  | none => cases h
  | some x =>
    cases vC with
    | none => cases h
    | some y =>
      injection h with h
      subst h
      exact ⟨rfl, rfl, rfl⟩

theorem fetch_axis0_some (b : Board) (s : State) (t : Iph_ABC_t)
    (h : (fetch_axis0 b s none).2 = some t) :
    t.phB = phase_current_value b s.ADC2.JDR1 s.motors0.phase_current_rev_gain_ ∧
    t.phC = phase_current_value b s.ADC3.JDR1 s.motors0.phase_current_rev_gain_ ∧
    t.phA = -t.phB - t.phC := by
  unfold fetch_axis0 at h
  split at h
  · dsimp only at h
    obtain ⟨hB, hC, hA⟩ := store_current_some _ _ t h
    have vB := convert_value b _ _ _ _ hB
    obtain ⟨e1, h1⟩ := convert_frame b s s.ADC2.JDR1 s.motors0.phase_current_rev_gain_
    rw [h1] at hC
    have vC := convert_value b _ _ _ _ hC
    exact ⟨vB, vC, hA⟩
  · cases h

theorem fetch_axis1_some (b : Board) (s : State) (t : Iph_ABC_t)
    (h : (fetch_axis1 b s none).2 = some t) :
    t.phB = phase_current_value b s.ADC2.DR s.motors1.phase_current_rev_gain_ ∧
    t.phC = phase_current_value b s.ADC3.DR s.motors1.phase_current_rev_gain_ ∧
    t.phA = -t.phB - t.phC := by
  unfold fetch_axis1 at h
  split at h
  · dsimp only at h
    obtain ⟨hB, hC, hA⟩ := store_current_some _ _ t h
    have vB := convert_value b _ _ _ _ hB
    obtain ⟨e1, h1⟩ := convert_frame b s s.ADC2.DR s.motors1.phase_current_rev_gain_
    rw [h1] at hC
    have vC := convert_value b _ _ _ _ hC
    exact ⟨vB, vC, hA⟩
  · cases h

/-- C6, counterexample: with in-window codes 2050 and 2053 on axis 0 and reverse gain
`1 / 40` the fetch produces a present triple of finite components whose sum is not zero:
neither the binary32 sum `(A + B) + C` nor the exact sum of the three values. -/
theorem triple_sum_not_zero :
    ((fetch_and_reset_adcs odrive_v3_6 state_unbalanced none none).2.1.map
        (fun t => t.phA.isFinite && t.phB.isFinite && t.phC.isFinite)) = some true ∧
    ((fetch_and_reset_adcs odrive_v3_6 state_unbalanced none none).2.1.map
        (fun t => (t.phA + t.phB + t.phC).isZero)) = some false ∧
    ((fetch_and_reset_adcs odrive_v3_6 state_unbalanced none none).2.1.map
        (fun t => decide (t.phA.units + t.phB.units + t.phC.units = 0))) = some false := by
  decide

/-- C6, amended: a present triple that `fetch_and_reset_adcs` produces for an axis is
`(-b - c, b, c)` in binary32 arithmetic, `b` and `c` being the converted phase B and phase C
samples of that axis; `A` is the negated rounded sum of `b` and `c`, so that `A + (B + C)`
is exactly zero whenever `B + C` is finite. -/
theorem reconstructed_triple (b : Board) (s : State) (t : Iph_ABC_t) :
    ((fetch_and_reset_adcs b s none none).2.1 = some t →
      t.phB = phase_current_value b s.ADC2.JDR1 s.motors0.phase_current_rev_gain_ ∧
      t.phC = phase_current_value b s.ADC3.JDR1 s.motors0.phase_current_rev_gain_ ∧
      t.phA = -t.phB - t.phC ∧
      ((t.phB + t.phC).isFinite = true → (t.phA + (t.phB + t.phC)).isZero = true)) ∧
    ((fetch_and_reset_adcs b s none none).2.2.1 = some t →
      t.phB = phase_current_value b s.ADC2.DR s.motors1.phase_current_rev_gain_ ∧
      t.phC = phase_current_value b s.ADC3.DR s.motors1.phase_current_rev_gain_ ∧
      t.phA = -t.phB - t.phC ∧
      ((t.phB + t.phC).isFinite = true → (t.phA + (t.phB + t.phC)).isZero = true)) := by
  constructor
  · intro h
    unfold fetch_and_reset_adcs at h
    split at h
    · cases h
    · obtain ⟨hB, hC, hA⟩ := fetch_axis0_some b (store_vbus b s) t h
      refine ⟨hB, hC, hA, fun hf => ?_⟩
      rw [hA]
      exact F32.neg_sub_add_cancel _ _ hf
  · intro h
    unfold fetch_and_reset_adcs at h
    split at h
    · cases h
    · dsimp only at h
      obtain ⟨e, he⟩ := fetch_axis0_frame b (store_vbus b s) none
      rw [he] at h
      obtain ⟨hB, hC, hA⟩ := fetch_axis1_some b _ t h
      refine ⟨hB, hC, hA, fun hf => ?_⟩
      rw [hA]
      exact F32.neg_sub_add_cancel _ _ hf

/-- C6, instance: the triple produced from codes 2050 and 2053 is `(-b - c, b, c)` and
`A + (B + C)` is zero. -/
theorem reconstructed_triple_witness :
    ∃ t, (fetch_and_reset_adcs odrive_v3_6 state_unbalanced none none).2.1 = some t ∧
      t.phA = -t.phB - t.phC ∧ (t.phA + (t.phB + t.phC)).isZero = true :=
  ⟨{ phA := -(phase_current_value odrive_v3_6 2050 motor_init.phase_current_rev_gain_)
              - phase_current_value odrive_v3_6 2053 motor_init.phase_current_rev_gain_,
     phB := phase_current_value odrive_v3_6 2050 motor_init.phase_current_rev_gain_,
     phC := phase_current_value odrive_v3_6 2053 motor_init.phase_current_rev_gain_ },
   by decide,
   ((reconstructed_triple odrive_v3_6 state_unbalanced _).1 (by decide)).2.2.1,
   ((reconstructed_triple odrive_v3_6 state_unbalanced _).1 (by decide)).2.2.2 (by decide)⟩

/-! ## The timer update handler -/

theorem TIM8_missed (b : Board) (s : State)
    (h : s.counting_down_ = counting_down_flag s.TIM8.CR1) :
    TIM8_UP_TIM13_IRQHandler b s =
      { s with
        motors0 := s.motors0.disarm_with_error b.ERROR_TIMER_UPDATE_MISSED,
        motors1 := s.motors1.disarm_with_error b.ERROR_TIMER_UPDATE_MISSED,
        trace := s.trace ++ [Event.disarm_with_error 0 b.ERROR_TIMER_UPDATE_MISSED,
                             Event.disarm_with_error 1 b.ERROR_TIMER_UPDATE_MISSED] } := by
  unfold TIM8_UP_TIM13_IRQHandler
  unfold counting_down_flag at h
  simp [h, State.disarm_both, State.disarm0, State.disarm1]

theorem TIM8_rising (b : Board) (s : State)
    (h : s.counting_down_ ≠ counting_down_flag s.TIM8.CR1)
    (hf : counting_down_flag s.TIM8.CR1 = false) :
    TIM8_UP_TIM13_IRQHandler b s =
      { s with
        counting_down_ := false,
        timestamp_ := wrap32 (s.timestamp_ + half_period_ticks b),
        TaskTimer_enabled := s.task_timers_armed_,
        trace := s.trace ++ [Event.sampling_cb, Event.raise_ControlLoop_IRQn] } := by
  unfold TIM8_UP_TIM13_IRQHandler
  unfold counting_down_flag at h hf
  rw [hf] at h
  simp [h, hf, State.emit]

theorem TIM8_falling (b : Board) (s : State)
    (h : s.counting_down_ ≠ counting_down_flag s.TIM8.CR1)
    (hf : counting_down_flag s.TIM8.CR1 = true) :
    TIM8_UP_TIM13_IRQHandler b s =
      { s with
        counting_down_ := true,
        timestamp_ := wrap32 (s.timestamp_ + half_period_ticks b),
        TIM1 := { s.TIM1 with CCR1 := b.TIM_1_8_PERIOD_CLOCKS / 2,
                              CCR2 := b.TIM_1_8_PERIOD_CLOCKS / 2,
                              CCR3 := b.TIM_1_8_PERIOD_CLOCKS / 2 },
        TIM8 := { s.TIM8 with CCR1 := b.TIM_1_8_PERIOD_CLOCKS / 2,
                              CCR2 := b.TIM_1_8_PERIOD_CLOCKS / 2,
                              CCR3 := b.TIM_1_8_PERIOD_CLOCKS / 2 },
        trace := s.trace ++
          [Event.write_CCR 8 3 (b.TIM_1_8_PERIOD_CLOCKS / 2),
           Event.write_CCR 8 2 (b.TIM_1_8_PERIOD_CLOCKS / 2),
           Event.write_CCR 8 1 (b.TIM_1_8_PERIOD_CLOCKS / 2),
           Event.write_CCR 1 3 (b.TIM_1_8_PERIOD_CLOCKS / 2),
           Event.write_CCR 1 2 (b.TIM_1_8_PERIOD_CLOCKS / 2),
           Event.write_CCR 1 1 (b.TIM_1_8_PERIOD_CLOCKS / 2)] } := by
  unfold TIM8_UP_TIM13_IRQHandler
  unfold counting_down_flag at h hf
  rw [hf] at h
  simp [h, hf, reset_pwm_outputs]

/-- C7: when the direction flag read from `TIM8->CR1` equals the stored direction, the
handler does nothing but disarm both axes with `ERROR_TIMER_UPDATE_MISSED`: no sampling
callback, no dispatch interrupt, no compare register write, stored direction unchanged.
When the flag differs, no axis is disarmed and the flag becomes the stored direction. -/
theorem timer_update_missed_disarms_and_returns (b : Board) (s : State) :
    (s.counting_down_ = counting_down_flag s.TIM8.CR1 →
      TIM8_UP_TIM13_IRQHandler b s =
        { s with
          motors0 := s.motors0.disarm_with_error b.ERROR_TIMER_UPDATE_MISSED,
          motors1 := s.motors1.disarm_with_error b.ERROR_TIMER_UPDATE_MISSED,
          trace := s.trace ++ [Event.disarm_with_error 0 b.ERROR_TIMER_UPDATE_MISSED,
                               Event.disarm_with_error 1 b.ERROR_TIMER_UPDATE_MISSED] }) ∧
    (s.counting_down_ ≠ counting_down_flag s.TIM8.CR1 →
      (TIM8_UP_TIM13_IRQHandler b s).counting_down_ = counting_down_flag s.TIM8.CR1 ∧
      (TIM8_UP_TIM13_IRQHandler b s).motors0 = s.motors0 ∧
      (TIM8_UP_TIM13_IRQHandler b s).motors1 = s.motors1 ∧
      ∃ evs, (TIM8_UP_TIM13_IRQHandler b s).trace = s.trace ++ evs ∧
        ∀ e ∈ evs, e.is_disarm = false) := by
  refine ⟨TIM8_missed b s, fun h => ?_⟩
  cases hf : counting_down_flag s.TIM8.CR1
  · rw [TIM8_rising b s h hf]
    refine ⟨rfl, rfl, rfl, _, rfl, ?_⟩
    intro e he
    simp only [List.mem_cons, List.mem_singleton, List.not_mem_nil, or_false] at he
    rcases he with rfl | rfl <;> rfl
  · rw [TIM8_falling b s h hf]
    refine ⟨rfl, rfl, rfl, _, rfl, ?_⟩
    intro e he
    simp only [List.mem_cons, List.mem_singleton, List.not_mem_nil, or_false] at he
    rcases he with rfl | rfl | rfl | rfl | rfl | rfl <;> rfl

/-- C7, instance: from the start-up state (stored direction up) a firing that reads the
direction up is a missed update, and a firing that reads the direction down is not. -/
theorem timer_update_missed_disarms_and_returns_witness :
    half_cycle odrive_v3_6 state_init 0 =
      { state_init with
        motors0 := state_init.motors0.disarm_with_error 0x80000,
        motors1 := state_init.motors1.disarm_with_error 0x80000,
        trace := [Event.disarm_with_error 0 0x80000, Event.disarm_with_error 1 0x80000] } ∧
    (half_cycle odrive_v3_6 state_init TIM_CR1_DIR).counting_down_ = true ∧
    (half_cycle odrive_v3_6 state_init TIM_CR1_DIR).motors0 = state_init.motors0 :=
  ⟨(timer_update_missed_disarms_and_returns odrive_v3_6
      { state_init with TIM8 := { state_init.TIM8 with CR1 := 0 } }).1 (by decide),
   ((timer_update_missed_disarms_and_returns odrive_v3_6
      { state_init with TIM8 := { state_init.TIM8 with CR1 := TIM_CR1_DIR } }).2 (by decide)).1,
   ((timer_update_missed_disarms_and_returns odrive_v3_6
      { state_init with TIM8 := { state_init.TIM8 with CR1 := TIM_CR1_DIR } }).2
        (by decide)).2.1⟩

/-- C8, counterexample: an entry of the handler on which the timestamp is not advanced.
From the start-up state a firing reads the direction up, as stored; the handler returns
with `timestamp_` still `0`, not `10500`. -/
theorem timestamp_not_advanced_on_missed_update :
    (half_cycle odrive_v3_6 state_init 0).timestamp_ = 0 ∧
    (half_cycle odrive_v3_6 state_init 0).timestamp_ ≠
      wrap32 (state_init.timestamp_ + half_period_ticks odrive_v3_6) := by
  decide

/-- C8, amended: an entry that passes the direction check advances the timestamp exactly
once, by `TIM_1_8_PERIOD_CLOCKS * (TIM_1_8_RCR + 1)` modulo `2^32`; an entry that fails
the check leaves the timestamp as it is. -/
theorem timestamp_advance (b : Board) (s : State) :
    (TIM8_UP_TIM13_IRQHandler b s).timestamp_ =
      if s.counting_down_ = counting_down_flag s.TIM8.CR1 then s.timestamp_
      else (s.timestamp_ + b.TIM_1_8_PERIOD_CLOCKS * (b.TIM_1_8_RCR + 1)) % 2 ^ 32 := by
  by_cases h : s.counting_down_ = counting_down_flag s.TIM8.CR1
  · rw [if_pos h, TIM8_missed b s h]
  · rw [if_neg h]
    cases hf : counting_down_flag s.TIM8.CR1
    · rw [TIM8_rising b s h hf]; rfl
    · rw [TIM8_falling b s h hf]; rfl

/-- C9: on an entry that passes the direction check, a flag that reads "counting up"
makes the handler call the sampling callback and then raise the dispatch interrupt, once
each, with no compare register written; a flag that reads "counting down" makes it write
`TIM_1_8_PERIOD_CLOCKS / 2` to the three compare registers of TIM1 and of TIM8, with
neither the callback nor the interrupt. -/
theorem half_cycle_dispatch_or_reset (b : Board) (s : State) :
    (s.counting_down_ ≠ counting_down_flag s.TIM8.CR1 →
      counting_down_flag s.TIM8.CR1 = false →
      TIM8_UP_TIM13_IRQHandler b s =
        { s with
          counting_down_ := false,
          timestamp_ := wrap32 (s.timestamp_ + half_period_ticks b),
          TaskTimer_enabled := s.task_timers_armed_,
          trace := s.trace ++ [Event.sampling_cb, Event.raise_ControlLoop_IRQn] }) ∧
    (s.counting_down_ ≠ counting_down_flag s.TIM8.CR1 →
      counting_down_flag s.TIM8.CR1 = true →
      TIM8_UP_TIM13_IRQHandler b s =
        { s with
          counting_down_ := true,
          timestamp_ := wrap32 (s.timestamp_ + half_period_ticks b),
          TIM1 := { s.TIM1 with CCR1 := b.TIM_1_8_PERIOD_CLOCKS / 2,
                                CCR2 := b.TIM_1_8_PERIOD_CLOCKS / 2,
                                CCR3 := b.TIM_1_8_PERIOD_CLOCKS / 2 },
          TIM8 := { s.TIM8 with CCR1 := b.TIM_1_8_PERIOD_CLOCKS / 2,
                                CCR2 := b.TIM_1_8_PERIOD_CLOCKS / 2,
                                CCR3 := b.TIM_1_8_PERIOD_CLOCKS / 2 },
          trace := s.trace ++
            [Event.write_CCR 8 3 (b.TIM_1_8_PERIOD_CLOCKS / 2),
             Event.write_CCR 8 2 (b.TIM_1_8_PERIOD_CLOCKS / 2),
             Event.write_CCR 8 1 (b.TIM_1_8_PERIOD_CLOCKS / 2),
             Event.write_CCR 1 3 (b.TIM_1_8_PERIOD_CLOCKS / 2),
             Event.write_CCR 1 2 (b.TIM_1_8_PERIOD_CLOCKS / 2),
             Event.write_CCR 1 1 (b.TIM_1_8_PERIOD_CLOCKS / 2)] }) :=
  ⟨TIM8_rising b s, TIM8_falling b s⟩

/-- C9, instance: from the start-up state a "counting down" firing resets the six compare
registers to 1750, and the "counting up" firing after it calls the sampling callback and
raises the dispatch interrupt. -/
theorem half_cycle_dispatch_or_reset_witness :
    (half_cycle odrive_v3_6 state_init TIM_CR1_DIR).trace =
      [Event.write_CCR 8 3 1750, Event.write_CCR 8 2 1750, Event.write_CCR 8 1 1750,
       Event.write_CCR 1 3 1750, Event.write_CCR 1 2 1750, Event.write_CCR 1 1 1750] ∧
    (half_cycle odrive_v3_6 (half_cycle odrive_v3_6 state_init TIM_CR1_DIR) 0).trace =
      (half_cycle odrive_v3_6 state_init TIM_CR1_DIR).trace ++
        [Event.sampling_cb, Event.raise_ControlLoop_IRQn] :=
  ⟨congrArg State.trace ((half_cycle_dispatch_or_reset odrive_v3_6
      { state_init with TIM8 := { state_init.TIM8 with CR1 := TIM_CR1_DIR } }).2
        (by decide) (by decide)),
   congrArg State.trace ((half_cycle_dispatch_or_reset odrive_v3_6
      { half_cycle odrive_v3_6 state_init TIM_CR1_DIR with
        TIM8 := { (half_cycle odrive_v3_6 state_init TIM_CR1_DIR).TIM8 with CR1 := 0 } }).1
        (by decide) (by decide))⟩

theorem half_cycle_alternating_step (b : Board) (s : State) (c : Nat) (d : Bool)
    (hd : s.counting_down_ = !d) (hc : counting_down_flag c = d) :
    (half_cycle b s c).counting_down_ = d ∧
    (half_cycle b s c).motors0 = s.motors0 ∧
    (half_cycle b s c).motors1 = s.motors1 ∧
    disarm_count (half_cycle b s c).trace = disarm_count s.trace ∧
    (half_cycle b s c).timestamp_ = (s.timestamp_ + half_period_ticks b) % 2 ^ 32 ∧
    dispatch_count (half_cycle b s c).trace
      = dispatch_count s.trace + (if d then 0 else 1) := by
  have hne : ({ s with TIM8 := { s.TIM8 with CR1 := c } } : State).counting_down_ ≠
      counting_down_flag ({ s with TIM8 := { s.TIM8 with CR1 := c } } : State).TIM8.CR1 := by
    show s.counting_down_ ≠ counting_down_flag c
    rw [hd, hc]
    cases d <;> decide
  unfold half_cycle
  cases d
  · rw [TIM8_rising b _ hne hc]
    refine ⟨rfl, rfl, rfl, ?_, rfl, ?_⟩
    · show disarm_count (s.trace ++ _) = _
      unfold disarm_count
      rw [List.countP_append]
      rfl
    · show dispatch_count (s.trace ++ _) = _
      unfold dispatch_count
      rw [List.count_append]
      rfl
  · rw [TIM8_falling b _ hne hc]
    refine ⟨rfl, rfl, rfl, ?_, rfl, ?_⟩
    · show disarm_count (s.trace ++ _) = _
      unfold disarm_count
      rw [List.countP_append]
      rfl
    · show dispatch_count (s.trace ++ _) = _
      unfold dispatch_count
      rw [List.count_append]
      rfl

theorem fire_all_cons (b : Board) (s : State) (c : Nat) (cs : List Nat) :
    fire_all b s (c :: cs) = fire_all b (half_cycle b s c) cs := rfl

theorem fire_all_alternating (b : Board) (cr1s : List Nat) (s : State) (d : Bool)
    (hd : s.counting_down_ = !d) (ht : s.timestamp_ < 2 ^ 32) (ha : alternates_from d cr1s) :
    (fire_all b s cr1s).motors0 = s.motors0 ∧
    (fire_all b s cr1s).motors1 = s.motors1 ∧
    disarm_count (fire_all b s cr1s).trace = disarm_count s.trace ∧
    (fire_all b s cr1s).timestamp_
      = (s.timestamp_ + cr1s.length * half_period_ticks b) % 2 ^ 32 ∧
    dispatch_count (fire_all b s cr1s).trace
      = dispatch_count s.trace + (if d then cr1s.length / 2 else (cr1s.length + 1) / 2) := by
  induction cr1s generalizing s d with
  | nil =>
    refine ⟨rfl, rfl, rfl, ?_, ?_⟩
    · show s.timestamp_ = _
      simp only [List.length_nil, Nat.zero_mul, Nat.add_zero]
      exact (Nat.mod_eq_of_lt ht).symm
    · show dispatch_count s.trace = _
      cases d <;> simp
  | cons c cs ih =>
    obtain ⟨hc, hcs⟩ := ha
    obtain ⟨h1, h2, h3, h4, h5, h6⟩ := half_cycle_alternating_step b s c d hd hc
    have hd' : (half_cycle b s c).counting_down_ = !(!d) := by rw [h1]; cases d <;> rfl
    have ht' : (half_cycle b s c).timestamp_ < 2 ^ 32 := by
      rw [h5]
      exact Nat.mod_lt _ (by decide)
    obtain ⟨i1, i2, i3, i4, i5⟩ := ih (half_cycle b s c) (!d) hd' ht' hcs
    rw [fire_all_cons]
    refine ⟨i1.trans h2, i2.trans h3, i3.trans h4, ?_, ?_⟩
    · rw [i4, h5, List.length_cons]
      have : (s.timestamp_ + (cs.length + 1) * half_period_ticks b)
          = (s.timestamp_ + half_period_ticks b) + cs.length * half_period_ticks b := by ring
      rw [this]
      exact Nat.mod_add_mod _ _ _
    · rw [i5, h6, List.length_cons]
      cases d
      · simp only [Bool.not_false, if_true, Bool.false_eq_true, if_false]
        omega
      · simp only [Bool.not_true, if_true, Bool.false_eq_true, if_false]
        omega

/-- C10: from a state with `timestamp_ = 0` and stored direction up, after `n` firings
whose direction flags alternate and begin with "counting down", neither axis has been
disarmed (its `Motor` is untouched and the trace holds no new `disarm_with_error`), the
timestamp is `n * TIM_1_8_PERIOD_CLOCKS * (TIM_1_8_RCR + 1)` modulo `2^32` (the product
itself while it is below `2^32`, as for `n = 1000` on the 3500-tick carrier), and the
dispatch interrupt has been raised `n / 2` times. -/
theorem alternating_run (b : Board) (s : State) (cr1s : List Nat) (h0 : s.timestamp_ = 0)
    (hd : s.counting_down_ = false) (ha : alternates_from true cr1s) :
    (fire_all b s cr1s).motors0 = s.motors0 ∧
    (fire_all b s cr1s).motors1 = s.motors1 ∧
    disarm_count (fire_all b s cr1s).trace = disarm_count s.trace ∧
    (fire_all b s cr1s).timestamp_
      = (cr1s.length * (b.TIM_1_8_PERIOD_CLOCKS * (b.TIM_1_8_RCR + 1))) % 2 ^ 32 ∧
    (cr1s.length * (b.TIM_1_8_PERIOD_CLOCKS * (b.TIM_1_8_RCR + 1)) < 2 ^ 32 →
      (fire_all b s cr1s).timestamp_
        = cr1s.length * (b.TIM_1_8_PERIOD_CLOCKS * (b.TIM_1_8_RCR + 1))) ∧
    dispatch_count (fire_all b s cr1s).trace = dispatch_count s.trace + cr1s.length / 2 := by
  have ht : s.timestamp_ < 2 ^ 32 := by rw [h0]; decide
  obtain ⟨h1, h2, h3, h4, h5⟩ := fire_all_alternating b cr1s s true hd ht ha
  rw [h0, Nat.zero_add] at h4
  refine ⟨h1, h2, h3, h4, fun hlt => ?_, h5⟩
  rw [h4]
  exact Nat.mod_eq_of_lt hlt

theorem alternating_cr1s_alternate (d : Bool) (n : Nat) :
    alternates_from d (alternating_cr1s d n) := by
  induction n generalizing d with
  | zero => trivial
  | succ n ih =>
    refine ⟨?_, ih (!d)⟩
    cases d <;> decide

theorem alternating_cr1s_length (d : Bool) (n : Nat) : (alternating_cr1s d n).length = n := by
  induction n generalizing d with
  | zero => rfl
  | succ n ih => simp [alternating_cr1s, ih]

/-- C10, instance: 1000 alternating firings from the start-up state on the 3500-tick
carrier leave both axes untouched and disarm nobody, end at timestamp
`1000 * 10500 = 10500000` and raise the dispatch interrupt 500 times. -/
theorem alternating_run_witness :
    (fire_all odrive_v3_6 state_init (alternating_cr1s true 1000)).motors0 = state_init.motors0 ∧
    (fire_all odrive_v3_6 state_init (alternating_cr1s true 1000)).motors1 = state_init.motors1 ∧
    disarm_count (fire_all odrive_v3_6 state_init (alternating_cr1s true 1000)).trace = 0 ∧
    (fire_all odrive_v3_6 state_init (alternating_cr1s true 1000)).timestamp_ = 10500000 ∧
    dispatch_count (fire_all odrive_v3_6 state_init (alternating_cr1s true 1000)).trace = 500 := by
  have h := alternating_run odrive_v3_6 state_init (alternating_cr1s true 1000) rfl rfl
    (alternating_cr1s_alternate true 1000)
  rw [alternating_cr1s_length] at h
  exact ⟨h.1, h.2.1, h.2.2.1, h.2.2.2.2.1 (by decide), h.2.2.2.2.2⟩

/-! ## A repeated direction flag -/

theorem half_cycle_missed (b : Board) (s : State) (c : Nat)
    (h : s.counting_down_ = counting_down_flag c) :
    half_cycle b s c = missed_firing b s c := by
  unfold half_cycle
  rw [TIM8_missed b { s with TIM8 := { s.TIM8 with CR1 := c } } h]
  rfl

theorem half_cycle_passed (b : Board) (s : State) (c : Nat)
    (h : s.counting_down_ ≠ counting_down_flag c) :
    half_cycle b s c
      = (if counting_down_flag c then peak_firing b s c else trough_firing b s c) := by
  unfold half_cycle
  cases hf : counting_down_flag c
  · rw [TIM8_rising b { s with TIM8 := { s.TIM8 with CR1 := c } } h hf]
    rfl
  · rw [TIM8_falling b { s with TIM8 := { s.TIM8 with CR1 := c } } h hf]
    rfl

theorem half_cycle_passed_direction (b : Board) (s : State) (c : Nat)
    (h : s.counting_down_ ≠ counting_down_flag c) :
    (half_cycle b s c).counting_down_ = counting_down_flag c := by
  rw [half_cycle_passed b s c h]
  cases counting_down_flag c <;> rfl

theorem half_cycle_passed_disarm_count (b : Board) (s : State) (c : Nat)
    (h : s.counting_down_ ≠ counting_down_flag c) :
    disarm_count (half_cycle b s c).trace = disarm_count s.trace := by
  rw [half_cycle_passed b s c h]
  cases counting_down_flag c
  · show disarm_count (s.trace ++ _) = _
    unfold disarm_count
    rw [List.countP_append]
    rfl
  · show disarm_count (s.trace ++ _) = _
    unfold disarm_count
    rw [List.countP_append]
    rfl

theorem fault_free_of_alternates (b : Board) (cs : List Nat) (s : State) (d : Bool)
    (hd : s.counting_down_ = !d) (ha : alternates_from d cs) :
    fault_free_run b s cs ∧
    (fire_all b s cs).counting_down_ = direction_after d cs.length ∧
    disarm_count (fire_all b s cs).trace = disarm_count s.trace := by
  induction cs generalizing s d with
  | nil => exact ⟨trivial, hd, rfl⟩
  | cons c cs ih =>
    obtain ⟨hc, hcs⟩ := ha
    have hne : s.counting_down_ ≠ counting_down_flag c := by
      rw [hd, hc]
      cases d <;> decide
    have hdir := half_cycle_passed_direction b s c hne
    have hd' : (half_cycle b s c).counting_down_ = !(!d) := by
      rw [hdir, hc]
      cases d <;> rfl
    obtain ⟨i1, i2, i3⟩ := ih (half_cycle b s c) (!d) hd' hcs
    rw [fire_all_cons]
    refine ⟨⟨hne, half_cycle_passed b s c hne, i1⟩, ?_, ?_⟩
    · rw [i2, List.length_cons]
      unfold direction_after
      rcases Nat.mod_two_eq_zero_or_one cs.length with h0 | h1
      · have : (cs.length + 1) % 2 = 1 := by omega
        simp [h0, this]
      · have : (cs.length + 1) % 2 = 0 := by omega
        simp [h1, this]
    · rw [i3]
      exact half_cycle_passed_disarm_count b s c hne

theorem fire_all_append (b : Board) (s : State) (l1 l2 : List Nat) :
    fire_all b s (l1 ++ l2) = fire_all b (fire_all b s l1) l2 := by
  unfold fire_all
  rw [List.foldl_append]

/-- C11: in a run of firings whose direction flags alternate except for one flag `c` that
repeats the direction stored by the firings `pre` before it, every firing of `pre` passes
the direction check and behaves as in the fault-free run (a trough dispatches, a peak
resets the compare registers); the firing of `c` disarms both axes with
`ERROR_TIMER_UPDATE_MISSED` and does nothing else (no sampling, no dispatch, no compare
register write); every firing of `post` after it passes the direction check and behaves
as in the fault-free run again.  The whole run makes exactly the two `disarm_with_error`
calls of the repeated firing. -/
theorem single_repeated_flag (b : Board) (s : State) (d : Bool) (pre : List Nat) (c : Nat)
    (post : List Nat) (hd : s.counting_down_ = !d) (hpre : alternates_from d pre)
    (hc : counting_down_flag c = direction_after d pre.length)
    (hpost : alternates_from (!counting_down_flag c) post) :
    fault_free_run b s pre ∧
    half_cycle b (fire_all b s pre) c = missed_firing b (fire_all b s pre) c ∧
    fault_free_run b (half_cycle b (fire_all b s pre) c) post ∧
    fire_all b s (pre ++ c :: post) = fire_all b (half_cycle b (fire_all b s pre) c) post ∧
    disarm_count (fire_all b s (pre ++ c :: post)).trace = disarm_count s.trace + 2 := by
  obtain ⟨p1, p2, p3⟩ := fault_free_of_alternates b pre s d hd hpre
  have hm : (fire_all b s pre).counting_down_ = counting_down_flag c := by rw [p2, hc]
  have hmiss := half_cycle_missed b (fire_all b s pre) c hm
  have hd2 : (half_cycle b (fire_all b s pre) c).counting_down_
      = !(!counting_down_flag c) := by
    rw [hmiss]
    show (fire_all b s pre).counting_down_ = _
    rw [hm]
    cases counting_down_flag c <;> rfl
  obtain ⟨q1, -, q3⟩ :=
    fault_free_of_alternates b post (half_cycle b (fire_all b s pre) c)
      (!counting_down_flag c) hd2 hpost
  have happ : fire_all b s (pre ++ c :: post)
      = fire_all b (half_cycle b (fire_all b s pre) c) post := by
    rw [fire_all_append, fire_all_cons]
  refine ⟨p1, hmiss, q1, happ, ?_⟩
  rw [happ, q3, hmiss]
  show disarm_count ((fire_all b s pre).trace ++ _) = _
  unfold disarm_count at *
  rw [List.countP_append, p3]
  rfl

/-- C11, instance: from the start-up state the flags down, up, down, down, up, down: the
fourth flag repeats the third.  The first three firings and the last two are fault-free,
the fourth is the missed update, and two `disarm_with_error` calls are made in all. -/
theorem single_repeated_flag_witness :
    fault_free_run odrive_v3_6 state_init [TIM_CR1_DIR, 0, TIM_CR1_DIR] ∧
    fault_free_run odrive_v3_6
      (half_cycle odrive_v3_6 (fire_all odrive_v3_6 state_init [TIM_CR1_DIR, 0, TIM_CR1_DIR])
        TIM_CR1_DIR) [0, TIM_CR1_DIR] ∧
    disarm_count (fire_all odrive_v3_6 state_init
      ([TIM_CR1_DIR, 0, TIM_CR1_DIR] ++ TIM_CR1_DIR :: [0, TIM_CR1_DIR])).trace = 2 :=
  ⟨(single_repeated_flag odrive_v3_6 state_init true [TIM_CR1_DIR, 0, TIM_CR1_DIR] TIM_CR1_DIR
      [0, TIM_CR1_DIR] rfl (by decide) (by decide) (by decide)).1,
   (single_repeated_flag odrive_v3_6 state_init true [TIM_CR1_DIR, 0, TIM_CR1_DIR] TIM_CR1_DIR
      [0, TIM_CR1_DIR] rfl (by decide) (by decide) (by decide)).2.2.1,
   (single_repeated_flag odrive_v3_6 state_init true [TIM_CR1_DIR, 0, TIM_CR1_DIR] TIM_CR1_DIR
      [0, TIM_CR1_DIR] rfl (by decide) (by decide) (by decide)).2.2.2.2⟩

/-! ## What the control loop handler leaves alone, and its trace -/

theorem fetch_axis1_frame (b : Board) (s : State) (c : Option Iph_ABC_t) :
    ∃ e, (fetch_axis1 b s c).1 = { s with motors0 := { s.motors0 with error_ := e } } := by
  unfold fetch_axis1
  split
  · obtain ⟨e1, h1⟩ := convert_frame b s s.ADC2.DR s.motors1.phase_current_rev_gain_
    dsimp only
    rw [h1]
    obtain ⟨e2, h2⟩ := convert_frame b
      { s with motors0 := { s.motors0 with error_ := e1 } } s.ADC3.DR
      s.motors1.phase_current_rev_gain_
    exact ⟨e2, h2⟩
  · exact ⟨s.motors0.error_, rfl⟩

theorem fetch_returns (b : Board) (s : State) (c0 c1 : Option Iph_ABC_t) :
    (fetch_and_reset_adcs b s c0 c1).2.2.2 = all_adcs_done s := by
  unfold fetch_and_reset_adcs
  cases all_adcs_done s <;> rfl

theorem fetch_not_done (b : Board) (s : State) (c0 c1 : Option Iph_ABC_t)
    (h : all_adcs_done s = false) :
    fetch_and_reset_adcs b s c0 c1 = (s, c0, c1, false) := by
  unfold fetch_and_reset_adcs
  rw [h]
  rfl

theorem fetch_done (b : Board) (s : State) (c0 c1 : Option Iph_ABC_t)
    (h : all_adcs_done s = true) :
    fetch_and_reset_adcs b s c0 c1 =
      (reset_adcs (fetch_axis1 b (fetch_axis0 b (store_vbus b s) c0).1 c1).1,
       (fetch_axis0 b (store_vbus b s) c0).2,
       (fetch_axis1 b (fetch_axis0 b (store_vbus b s) c0).1 c1).2, true) := by
  unfold fetch_and_reset_adcs
  rw [h]
  rfl

theorem fetch_done_frame (b : Board) (s : State) (c0 c1 : Option Iph_ABC_t)
    (h : all_adcs_done s = true) :
    ∃ e, (fetch_and_reset_adcs b s c0 c1).1
      = reset_adcs { store_vbus b s with motors0 := { s.motors0 with error_ := e } } := by
  rw [fetch_done b s c0 c1 h]
  obtain ⟨e0, h0⟩ := fetch_axis0_frame b (store_vbus b s) c0
  rw [h0]
  obtain ⟨e1, h1⟩ := fetch_axis1_frame b
    { store_vbus b s with motors0 := { (store_vbus b s).motors0 with error_ := e0 } } c1
  rw [h1]
  exact ⟨e1, rfl⟩

/-- The fields that `fetch_and_reset_adcs` never writes. -/
theorem fetch_keeps (b : Board) (s : State) (c0 c1 : Option Iph_ABC_t) :
    (fetch_and_reset_adcs b s c0 c1).1.trace = s.trace ∧
    (fetch_and_reset_adcs b s c0 c1).1.timestamp_ = s.timestamp_ ∧
    (fetch_and_reset_adcs b s c0 c1).1.counting_down_ = s.counting_down_ ∧
    (fetch_and_reset_adcs b s c0 c1).1.TIM1 = s.TIM1 ∧
    (fetch_and_reset_adcs b s c0 c1).1.TIM8 = s.TIM8 ∧
    (fetch_and_reset_adcs b s c0 c1).1.adc1_dma_tc = s.adc1_dma_tc ∧
    (fetch_and_reset_adcs b s c0 c1).1.motors1 = s.motors1 := by
  cases h : all_adcs_done s
  · rw [fetch_not_done b s c0 c1 h]
    exact ⟨rfl, rfl, rfl, rfl, rfl, rfl, rfl⟩
  · obtain ⟨e, he⟩ := fetch_done_frame b s c0 c1 h
    rw [he]
    exact ⟨rfl, rfl, rfl, rfl, rfl, rfl, rfl⟩

theorem disarm_both_unless_trace (s : State) (ok : Bool) (code : Nat) :
    (s.disarm_both_unless ok code).trace = s.trace ++ disarm_events ok code := by
  unfold State.disarm_both_unless disarm_events
  cases ok
  · simp [State.disarm_both, State.disarm0, State.disarm1]
  · simp

/-- The fields that the two `disarm_with_error` calls never write. -/
theorem disarm_both_unless_keeps (s : State) (ok : Bool) (code : Nat) :
    (s.disarm_both_unless ok code).timestamp_ = s.timestamp_ ∧
    (s.disarm_both_unless ok code).counting_down_ = s.counting_down_ ∧
    (s.disarm_both_unless ok code).TIM1 = s.TIM1 ∧
    (s.disarm_both_unless ok code).TIM8 = s.TIM8 ∧
    (s.disarm_both_unless ok code).adc1_dma_tc = s.adc1_dma_tc := by
  unfold State.disarm_both_unless
  cases ok <;> exact ⟨rfl, rfl, rfl, rfl, rfl⟩

theorem fetch_or_disarm_trace (b : Board) (s : State) (c0 c1 : Option Iph_ABC_t) :
    (fetch_or_disarm b s c0 c1).1.trace
      = s.trace ++ disarm_events (all_adcs_done s) b.ERROR_BAD_TIMING := by
  unfold fetch_or_disarm
  dsimp only
  rw [disarm_both_unless_trace, (fetch_keeps b s c0 c1).1, fetch_returns]

theorem fetch_or_disarm_keeps (b : Board) (s : State) (c0 c1 : Option Iph_ABC_t) :
    (fetch_or_disarm b s c0 c1).1.timestamp_ = s.timestamp_ ∧
    (fetch_or_disarm b s c0 c1).1.counting_down_ = s.counting_down_ ∧
    (fetch_or_disarm b s c0 c1).1.TIM1 = s.TIM1 ∧
    (fetch_or_disarm b s c0 c1).1.TIM8 = s.TIM8 ∧
    (fetch_or_disarm b s c0 c1).1.adc1_dma_tc = s.adc1_dma_tc := by
  unfold fetch_or_disarm
  dsimp only
  obtain ⟨d1, d2, d3, d4, d5⟩ := disarm_both_unless_keeps (fetch_and_reset_adcs b s c0 c1).1
    (fetch_and_reset_adcs b s c0 c1).2.2.2 b.ERROR_BAD_TIMING
  obtain ⟨-, f2, f3, f4, f5, f6, -⟩ := fetch_keeps b s c0 c1
  exact ⟨d1.trans f2, d2.trans f3, d3.trans f4, d4.trans f5, d5.trans f6⟩

theorem fetch_or_disarm_currents (b : Board) (s : State) (c0 c1 : Option Iph_ABC_t) :
    (fetch_or_disarm b s c0 c1).2 =
      ((fetch_and_reset_adcs b s c0 c1).2.1, (fetch_and_reset_adcs b s c0 c1).2.2.1) := rfl

theorem dma_check_trace (b : Board) (s : State) :
    (dma_check b s).trace = s.trace ++ disarm_events s.adc1_dma_tc b.ERROR_BAD_TIMING := by
  unfold dma_check
  show (s.disarm_both_unless s.adc1_dma_tc b.ERROR_BAD_TIMING).trace = _
  exact disarm_both_unless_trace _ _ _

theorem dma_check_keeps (b : Board) (s : State) :
    (dma_check b s).timestamp_ = s.timestamp_ ∧
    (dma_check b s).counting_down_ = s.counting_down_ ∧
    (dma_check b s).TIM1 = s.TIM1 ∧
    (dma_check b s).TIM8 = s.TIM8 := by
  obtain ⟨d1, d2, d3, d4, -⟩ := disarm_both_unless_keeps s s.adc1_dma_tc b.ERROR_BAD_TIMING
  exact ⟨d1, d2, d3, d4⟩

/-- The readings handed to the two `current_meas_cb` calls. -/
theorem measure_locals (b : Board) (s : State) :
    (ControlLoop_measure b s).2 =
      { timestamp := s.timestamp_,
        current0 := zero_unless_switching s.TIM1.BDTR (fetch_and_reset_adcs b s none none).2.1,
        current1 := zero_unless_switching s.TIM8.BDTR
          (fetch_and_reset_adcs b s none none).2.2.1 } := by
  unfold ControlLoop_measure
  dsimp only
  obtain ⟨-, -, k3, k4⟩ := dma_check_keeps b (fetch_or_disarm b s none none).1
  obtain ⟨-, -, f3, f4, -⟩ := fetch_or_disarm_keeps b s none none
  rw [k3, k4, f3, f4]
  rfl

theorem measure_trace (b : Board) (s : State) :
    (ControlLoop_measure b s).1.trace =
      s.trace ++ (disarm_events (all_adcs_done s) b.ERROR_BAD_TIMING
        ++ disarm_events s.adc1_dma_tc b.ERROR_BAD_TIMING
        ++ [Event.current_meas_cb 0 (sub32 s.timestamp_ b.TIM1_INIT_COUNT)
              (ControlLoop_measure b s).2.current0,
            Event.current_meas_cb 1 s.timestamp_ (ControlLoop_measure b s).2.current1,
            Event.control_loop_cb s.timestamp_]) := by
  have ht : (ControlLoop_measure b s).1.trace
      = (dma_check b (fetch_or_disarm b s none none).1).trace
        ++ [Event.current_meas_cb 0 (sub32 s.timestamp_ b.TIM1_INIT_COUNT)
              (ControlLoop_measure b s).2.current0,
            Event.current_meas_cb 1 s.timestamp_ (ControlLoop_measure b s).2.current1,
            Event.control_loop_cb s.timestamp_] := by
    unfold ControlLoop_measure measure_callbacks State.emit
    simp
  rw [ht, dma_check_trace, fetch_or_disarm_trace, (fetch_or_disarm_keeps b s none none).2.2.2.2]
  simp

theorem measure_fst (b : Board) (s : State) :
    (ControlLoop_measure b s).1 =
      measure_callbacks b (dma_check b (fetch_or_disarm b s none none).1) s.timestamp_
        (ControlLoop_measure b s).2.current0 (ControlLoop_measure b s).2.current1 := rfl

theorem measure_callbacks_keeps (b : Board) (s : State) (ts : Nat)
    (c0 c1 : Option Iph_ABC_t) :
    (measure_callbacks b s ts c0 c1).timestamp_ = s.timestamp_ ∧
    (measure_callbacks b s ts c0 c1).counting_down_ = s.counting_down_ := ⟨rfl, rfl⟩

theorem measure_keeps (b : Board) (s : State) :
    (ControlLoop_measure b s).1.timestamp_ = s.timestamp_ ∧
    (ControlLoop_measure b s).1.counting_down_ = s.counting_down_ := by
  rw [measure_fst]
  generalize (ControlLoop_measure b s).2.current0 = c0
  generalize (ControlLoop_measure b s).2.current1 = c1
  obtain ⟨m1, m2⟩ := measure_callbacks_keeps b (dma_check b (fetch_or_disarm b s none none).1)
    s.timestamp_ c0 c1
  obtain ⟨k1, k2, -, -⟩ := dma_check_keeps b (fetch_or_disarm b s none none).1
  obtain ⟨f1, f2, -, -, -⟩ := fetch_or_disarm_keeps b s none none
  exact ⟨m1.trans (k1.trans f1), m2.trans (k2.trans f2)⟩

theorem half_cycle_trace (b : Board) (s : State) (c : Nat) :
    (half_cycle b s c).trace = s.trace ++ half_cycle_events b s c := by
  unfold half_cycle_events
  by_cases h : s.counting_down_ = counting_down_flag c
  · rw [half_cycle_missed b s c h, if_pos h]
    rfl
  · rw [half_cycle_passed b s c h, if_neg h]
    cases counting_down_flag c <;> rfl

theorem fire_all_trace (b : Board) (cs : List Nat) (s : State) :
    (fire_all b s cs).trace = s.trace ++ fire_events b s cs := by
  induction cs generalizing s with
  | nil => simp [fire_all, fire_events]
  | cons c cs ih =>
    rw [fire_all_cons, ih, half_cycle_trace]
    simp [fire_events]

theorem half_cycle_events_no_calls (b : Board) (s : State) (c : Nat) :
    (half_cycle_events b s c).filter Event.is_control_loop_call = [] := by
  unfold half_cycle_events
  split
  · rfl
  · split <;> rfl

theorem fire_events_no_calls (b : Board) (cs : List Nat) (s : State) :
    (fire_events b s cs).filter Event.is_control_loop_call = [] := by
  induction cs generalizing s with
  | nil => rfl
  | cons c cs ih =>
    simp only [fire_events, List.filter_append, half_cycle_events_no_calls, ih, List.append_nil]

theorem disarm_events_no_calls (ok : Bool) (code : Nat) :
    (disarm_events ok code).filter Event.is_control_loop_call = [] := by
  cases ok <;> rfl

theorem half_cycle_timestamp (b : Board) (s : State) (c : Nat) :
    (half_cycle b s c).timestamp_ =
      (if s.counting_down_ = counting_down_flag c then s.timestamp_
       else wrap32 (s.timestamp_ + half_period_ticks b)) ∧
    (half_cycle b s c).counting_down_ =
      (if s.counting_down_ = counting_down_flag c then s.counting_down_
       else counting_down_flag c) := by
  by_cases h : s.counting_down_ = counting_down_flag c
  · rw [half_cycle_missed b s c h, if_pos h, if_pos h]
    exact ⟨rfl, rfl⟩
  · rw [half_cycle_passed b s c h, if_neg h, if_neg h]
    cases counting_down_flag c <;> exact ⟨rfl, rfl⟩

/-- The timestamp after a run of firings: one increment for every firing that passes the
direction check. -/
theorem fire_all_timestamp (b : Board) (cs : List Nat) (s : State)
    (ht : s.timestamp_ < 2 ^ 32) :
    (fire_all b s cs).timestamp_
      = wrap32 (s.timestamp_ + flips s.counting_down_ cs * half_period_ticks b) := by
  induction cs generalizing s with
  | nil =>
    simp only [fire_all, List.foldl_nil, flips, Nat.zero_mul, Nat.add_zero, wrap32]
    exact (Nat.mod_eq_of_lt ht).symm
  | cons c cs ih =>
    obtain ⟨h1, h2⟩ := half_cycle_timestamp b s c
    rw [fire_all_cons]
    by_cases h : s.counting_down_ = counting_down_flag c
    · rw [if_pos h] at h1 h2
      rw [ih (half_cycle b s c) (by rw [h1]; exact ht), h1, h2]
      simp only [flips, if_pos h]
    · rw [if_neg h] at h1 h2
      have hlt : (half_cycle b s c).timestamp_ < 2 ^ 32 := by
        rw [h1]; exact Nat.mod_lt _ (by decide)
      rw [ih (half_cycle b s c) hlt, h1, h2]
      simp only [flips, if_neg h, wrap32]
      rw [Nat.add_mul, Nat.one_mul, Nat.mod_add_mod]
      congr 1
      omega

theorem callbacks_trace (b : Board) (s : State) (ts : Nat) (c0 c1 : Option Iph_ABC_t) :
    (ControlLoop_callbacks b s ts c0 c1).trace = s.trace ++
      [Event.dc_calib_cb 0 (sub32 (ts + half_period_ticks b) b.TIM1_INIT_COUNT) c0,
       Event.dc_calib_cb 1 (wrap32 (ts + half_period_ticks b)) c1,
       Event.pwm_update_cb 0 (sub32 (ts + 3 * half_period_ticks b) b.TIM1_INIT_COUNT),
       Event.pwm_update_cb 1 (wrap32 (ts + 3 * half_period_ticks b)),
       Event.brake_resistor_update,
       Event.brake_resistor_output_update
         (sub32 (ts + 3 * half_period_ticks b) b.TIM1_INIT_COUNT)] := by
  unfold ControlLoop_callbacks State.emit
  simp

theorem callbacks_keeps (b : Board) (s : State) (ts : Nat) (c0 c1 : Option Iph_ABC_t) :
    (ControlLoop_callbacks b s ts c0 c1).timestamp_ = s.timestamp_ := by
  unfold ControlLoop_callbacks State.emit
  simp

theorem deadline_check_trace (b : Board) (s : State) (ts : Nat) :
    (deadline_check b s ts).trace = s.trace ++
      disarm_events (s.timestamp_ == wrap32 (ts + half_period_ticks b))
        b.ERROR_CONTROL_DEADLINE_MISSED := by
  unfold deadline_check
  exact disarm_both_unless_trace _ _ _

theorem deadline_check_keeps (b : Board) (s : State) (ts : Nat) :
    (deadline_check b s ts).timestamp_ = s.timestamp_ := by
  unfold deadline_check
  exact (disarm_both_unless_keeps _ _ _).1

theorem actuate_timestamp (b : Board) (s : State) (l : ControlLoopLocals) :
    (ControlLoop_actuate b s l).timestamp_ = s.timestamp_ := by
  unfold ControlLoop_actuate
  dsimp only
  show (deadline_check b _ l.timestamp).timestamp_ = _
  rw [deadline_check_keeps, callbacks_keeps]
  exact (fetch_or_disarm_keeps b s l.current0 l.current1).1

/-- The events of the part of the handler after the wait loop. -/
theorem actuate_trace (b : Board) (s : State) (l : ControlLoopLocals) :
    (ControlLoop_actuate b s l).trace = s.trace ++
      (disarm_events (all_adcs_done s) b.ERROR_BAD_TIMING ++
       [Event.dc_calib_cb 0 (sub32 (l.timestamp + half_period_ticks b) b.TIM1_INIT_COUNT)
          (fetch_and_reset_adcs b s l.current0 l.current1).2.1,
        Event.dc_calib_cb 1 (wrap32 (l.timestamp + half_period_ticks b))
          (fetch_and_reset_adcs b s l.current0 l.current1).2.2.1,
        Event.pwm_update_cb 0 (sub32 (l.timestamp + 3 * half_period_ticks b) b.TIM1_INIT_COUNT),
        Event.pwm_update_cb 1 (wrap32 (l.timestamp + 3 * half_period_ticks b)),
        Event.brake_resistor_update,
        Event.brake_resistor_output_update
          (sub32 (l.timestamp + 3 * half_period_ticks b) b.TIM1_INIT_COUNT)] ++
       disarm_events (s.timestamp_ == wrap32 (l.timestamp + half_period_ticks b))
         b.ERROR_CONTROL_DEADLINE_MISSED) := by
  unfold ControlLoop_actuate
  dsimp only
  show (deadline_check b _ l.timestamp).trace = _
  rw [deadline_check_trace, callbacks_trace, callbacks_keeps, fetch_or_disarm_trace,
    (fetch_or_disarm_keeps b s l.current0 l.current1).1]
  simp only [List.append_assoc]
  rfl

theorem handler_returns (b : Board) (s : State) (env : ControlLoopEnv) (n : Nat)
    (h : wait_for_adc2_eoc env.adc2_sr_polls = some n) :
    ControlLoop_IRQHandler b s env = Outcome.returned
      (ControlLoop_actuate b
        ((fire_all b (ControlLoop_measure b s).1 env.irqs).with_adcs env.ADC1 env.ADC2 env.ADC3)
        (ControlLoop_measure b s).2) := by
  unfold ControlLoop_IRQHandler
  dsimp only
  rw [h]
  rfl

theorem handler_hangs (b : Board) (s : State) (env : ControlLoopEnv)
    (h : wait_for_adc2_eoc env.adc2_sr_polls = none) :
    ControlLoop_IRQHandler b s env
      = Outcome.hangs (fire_all b (ControlLoop_measure b s).1 env.irqs) := by
  unfold ControlLoop_IRQHandler
  dsimp only
  rw [h]
  rfl

/-- The state from which the calibration fetch starts. -/
theorem handler_state_of_returns (b : Board) (s : State) (env : ControlLoopEnv) (n : Nat)
    (h : wait_for_adc2_eoc env.adc2_sr_polls = some n) :
    (ControlLoop_IRQHandler b s env).state =
      ControlLoop_actuate b
        ((fire_all b (ControlLoop_measure b s).1 env.irqs).with_adcs env.ADC1 env.ADC2 env.ADC3)
        (ControlLoop_measure b s).2 := by
  rw [handler_returns b s env n h]
  rfl

theorem measured_currents (b : Board) (s : State) :
    measured_current0 b s
      = zero_unless_switching s.TIM1.BDTR (fetch_and_reset_adcs b s none none).2.1 ∧
    measured_current1 b s
      = zero_unless_switching s.TIM8.BDTR (fetch_and_reset_adcs b s none none).2.2.1 := by
  unfold measured_current0 measured_current1
  rw [measure_locals]
  exact ⟨rfl, rfl⟩

/-- The events a run of the handler that stays in its wait loop adds to the trace. -/
theorem handler_new_events_hangs (b : Board) (s : State) (env : ControlLoopEnv)
    (h : wait_for_adc2_eoc env.adc2_sr_polls = none) :
    new_events s (ControlLoop_IRQHandler b s env).state =
      disarm_events (all_adcs_done s) b.ERROR_BAD_TIMING
        ++ disarm_events s.adc1_dma_tc b.ERROR_BAD_TIMING
        ++ [Event.current_meas_cb 0 (sub32 s.timestamp_ b.TIM1_INIT_COUNT)
              (measured_current0 b s),
            Event.current_meas_cb 1 s.timestamp_ (measured_current1 b s),
            Event.control_loop_cb s.timestamp_]
        ++ fire_events b (ControlLoop_measure b s).1 env.irqs := by
  unfold new_events measured_current0 measured_current1
  rw [handler_hangs b s env h]
  show List.drop _ (fire_all b _ env.irqs).trace = _
  rw [fire_all_trace, measure_trace]
  simp only [List.append_assoc, List.drop_left]

/-- The events a returning run of the handler adds to the trace. -/
theorem handler_new_events (b : Board) (s : State) (env : ControlLoopEnv) (n : Nat)
    (h : wait_for_adc2_eoc env.adc2_sr_polls = some n) :
    new_events s (ControlLoop_IRQHandler b s env).state =
      disarm_events (all_adcs_done s) b.ERROR_BAD_TIMING
        ++ disarm_events s.adc1_dma_tc b.ERROR_BAD_TIMING
        ++ [Event.current_meas_cb 0 (sub32 s.timestamp_ b.TIM1_INIT_COUNT)
              (measured_current0 b s),
            Event.current_meas_cb 1 s.timestamp_ (measured_current1 b s),
            Event.control_loop_cb s.timestamp_]
        ++ fire_events b (ControlLoop_measure b s).1 env.irqs
        ++ disarm_events (all_adcs_done (calibration_entry b s env)) b.ERROR_BAD_TIMING
        ++ [Event.dc_calib_cb 0 (sub32 (s.timestamp_ + half_period_ticks b) b.TIM1_INIT_COUNT)
              (fetch_and_reset_adcs b (calibration_entry b s env)
                (measured_current0 b s) (measured_current1 b s)).2.1,
            Event.dc_calib_cb 1 (wrap32 (s.timestamp_ + half_period_ticks b))
              (fetch_and_reset_adcs b (calibration_entry b s env)
                (measured_current0 b s) (measured_current1 b s)).2.2.1,
            Event.pwm_update_cb 0
              (sub32 (s.timestamp_ + 3 * half_period_ticks b) b.TIM1_INIT_COUNT),
            Event.pwm_update_cb 1 (wrap32 (s.timestamp_ + 3 * half_period_ticks b)),
            Event.brake_resistor_update,
            Event.brake_resistor_output_update
              (sub32 (s.timestamp_ + 3 * half_period_ticks b) b.TIM1_INIT_COUNT)]
        ++ disarm_events ((ControlLoop_IRQHandler b s env).state.timestamp_
              == wrap32 (s.timestamp_ + half_period_ticks b))
            b.ERROR_CONTROL_DEADLINE_MISSED := by
  have hs : (ControlLoop_IRQHandler b s env).state
      = ControlLoop_actuate b (calibration_entry b s env) (ControlLoop_measure b s).2 :=
    handler_state_of_returns b s env n h
  have hl : (ControlLoop_measure b s).2.timestamp = s.timestamp_ := by
    rw [measure_locals]
  have hw : (calibration_entry b s env).trace
      = (fire_all b (ControlLoop_measure b s).1 env.irqs).trace := rfl
  have hwt : (calibration_entry b s env).timestamp_
      = (fire_all b (ControlLoop_measure b s).1 env.irqs).timestamp_ := rfl
  unfold new_events measured_current0 measured_current1
  rw [hs, actuate_timestamp, actuate_trace, hl, hw, fire_all_trace, measure_trace]
  generalize calibration_entry b s env = s2
  simp only [List.append_assoc, List.drop_left]

/-! ## Failed timing checks in the control loop handler -/

theorem flag_set_iff_testBit (x c : Nat) :
    flag_set x c ↔ ∀ i, c.testBit i = true → x.testBit i = true := by
  unfold flag_set
  constructor
  · intro h i hi
    have := congrArg (fun v => v.testBit i) h
    simp only [Nat.testBit_land, hi, Bool.and_true] at this
    exact this
  · intro h
    apply Nat.eq_of_testBit_eq
    intro i
    rw [Nat.testBit_land]
    cases hc : c.testBit i
    · simp
    · simp [h i hc]

theorem flag_set_lor_iff (x a c : Nat) :
    flag_set x (a ||| c) ↔ flag_set x a ∧ flag_set x c := by
  simp only [flag_set_iff_testBit, Nat.testBit_lor, Bool.or_eq_true]
  constructor
  · intro h
    exact ⟨fun i hi => h i (Or.inl hi), fun i hi => h i (Or.inr hi)⟩
  · rintro ⟨h1, h2⟩ i (hi | hi)
    · exact h1 i hi
    · exact h2 i hi

theorem all_adcs_done_iff (s : State) : all_adcs_done s = true ↔ completion_flags_set s := by
  unfold all_adcs_done completion_flags_set
  simp only [Bool.and_eq_true, beq_iff_eq]
  show (flag_set _ _ ∧ flag_set _ (_ ||| _)) ∧ flag_set _ (_ ||| _) ↔ _
  rw [flag_set_lor_iff, flag_set_lor_iff]
  tauto

theorem all_adcs_done_false_iff (s : State) :
    all_adcs_done s = false ↔ ¬ completion_flags_set s := by
  rw [← all_adcs_done_iff]
  cases all_adcs_done s <;> simp

theorem flag_set_disarm_both (s : State) (code : Nat) :
    flag_set (s.disarm_both code).motors0.error_ code ∧
    flag_set (s.disarm_both code).motors1.error_ code :=
  ⟨flag_set_lor _ _, flag_set_lor _ _⟩

theorem flag_set_of_errors_kept {s t : State} {code : Nat} (h : errors_kept s t)
    (hs : flag_set s.motors0.error_ code ∧ flag_set s.motors1.error_ code) :
    flag_set t.motors0.error_ code ∧ flag_set t.motors1.error_ code :=
  ⟨flag_set_of_bits_kept h.1 hs.1, flag_set_of_bits_kept h.2 hs.2⟩

theorem measure_bad_timing (b : Board) (s : State)
    (h : all_adcs_done s = false ∨ s.adc1_dma_tc = false) :
    flag_set (ControlLoop_measure b s).1.motors0.error_ b.ERROR_BAD_TIMING ∧
    flag_set (ControlLoop_measure b s).1.motors1.error_ b.ERROR_BAD_TIMING := by
  rw [measure_fst]
  refine flag_set_of_errors_kept (errors_kept_measure_callbacks b _ _ _ _) ?_
  rcases h with h | h
  · refine flag_set_of_errors_kept (errors_kept_dma_check b _) ?_
    unfold fetch_or_disarm
    dsimp only
    rw [fetch_not_done b s none none h]
    exact flag_set_disarm_both s _
  · have hk : (fetch_or_disarm b s none none).1.adc1_dma_tc = false := by
      rw [(fetch_or_disarm_keeps b s none none).2.2.2.2, h]
    unfold dma_check
    rw [hk]
    generalize (fetch_or_disarm b s none none).1 = u
    exact flag_set_of_errors_kept
      (t := ((u.disarm_both_unless false b.ERROR_BAD_TIMING).clear_dma_flag))
      (errors_kept_of_eq rfl rfl) (flag_set_disarm_both u _)

theorem handler_bad_timing (b : Board) (s : State) (env : ControlLoopEnv)
    (h : all_adcs_done s = false ∨ s.adc1_dma_tc = false) :
    flag_set (ControlLoop_IRQHandler b s env).state.motors0.error_ b.ERROR_BAD_TIMING ∧
    flag_set (ControlLoop_IRQHandler b s env).state.motors1.error_ b.ERROR_BAD_TIMING := by
  have hm := measure_bad_timing b s h
  have hf := flag_set_of_errors_kept (errors_kept_fire_all b env.irqs _) hm
  cases hw : wait_for_adc2_eoc env.adc2_sr_polls with
  | none =>
    rw [handler_hangs b s env hw]
    exact hf
  | some n =>
    rw [handler_state_of_returns b s env n hw]
    refine flag_set_of_errors_kept (errors_kept_actuate b _ _) ?_
    exact flag_set_of_errors_kept
      (t := (fire_all b (ControlLoop_measure b s).1 env.irqs).with_adcs
        env.ADC1 env.ADC2 env.ADC3) (errors_kept_of_eq rfl rfl) hf

/-- The calls of a returning run of the handler, in order. -/
theorem handler_calls (b : Board) (s : State) (env : ControlLoopEnv) (n : Nat)
    (h : wait_for_adc2_eoc env.adc2_sr_polls = some n) :
    control_loop_calls s (ControlLoop_IRQHandler b s env).state =
      [Event.current_meas_cb 0 (sub32 s.timestamp_ b.TIM1_INIT_COUNT) (measured_current0 b s),
       Event.current_meas_cb 1 s.timestamp_ (measured_current1 b s),
       Event.control_loop_cb s.timestamp_,
       Event.dc_calib_cb 0 (sub32 (s.timestamp_ + half_period_ticks b) b.TIM1_INIT_COUNT)
         (fetch_and_reset_adcs b (calibration_entry b s env)
           (measured_current0 b s) (measured_current1 b s)).2.1,
       Event.dc_calib_cb 1 (wrap32 (s.timestamp_ + half_period_ticks b))
         (fetch_and_reset_adcs b (calibration_entry b s env)
           (measured_current0 b s) (measured_current1 b s)).2.2.1,
       Event.pwm_update_cb 0 (sub32 (s.timestamp_ + 3 * half_period_ticks b) b.TIM1_INIT_COUNT),
       Event.pwm_update_cb 1 (wrap32 (s.timestamp_ + 3 * half_period_ticks b)),
       Event.brake_resistor_update,
       Event.brake_resistor_output_update
         (sub32 (s.timestamp_ + 3 * half_period_ticks b) b.TIM1_INIT_COUNT)] := by
  unfold control_loop_calls
  rw [handler_new_events b s env n h]
  simp only [List.filter_append, disarm_events_no_calls, fire_events_no_calls,
    List.append_nil, List.nil_append]
  rfl

/-- The calls of a run of the handler that stays in its wait loop. -/
theorem handler_calls_hangs (b : Board) (s : State) (env : ControlLoopEnv)
    (h : wait_for_adc2_eoc env.adc2_sr_polls = none) :
    control_loop_calls s (ControlLoop_IRQHandler b s env).state =
      [Event.current_meas_cb 0 (sub32 s.timestamp_ b.TIM1_INIT_COUNT) (measured_current0 b s),
       Event.current_meas_cb 1 s.timestamp_ (measured_current1 b s),
       Event.control_loop_cb s.timestamp_] := by
  unfold control_loop_calls
  rw [handler_new_events_hangs b s env h]
  simp only [List.filter_append, disarm_events_no_calls, fire_events_no_calls,
    List.append_nil, List.nil_append]
  rfl

theorem takeWhile_stops (p : Event → Bool) (d : List Event) (x : Event) (r : List Event)
    (hd : ∀ e ∈ d, p e = true) (hx : p x = false) :
    (d ++ x :: r).takeWhile p = d := by
  induction d with
  | nil => simp [List.takeWhile, hx]
  | cons a d ih =>
    have ha : p a = true := hd a (List.mem_cons_self _ _)
    rw [List.cons_append, List.takeWhile_cons, ha, if_pos rfl,
      ih (fun e he => hd e (List.mem_cons_of_mem _ he))]

theorem events_after_calls_append (pre : List Event) (x : Event) (d : List Event)
    (hx : x.is_control_loop_call = true) (hd : ∀ e ∈ d, e.is_control_loop_call = false) :
    events_after_calls (pre ++ x :: d) = d := by
  unfold events_after_calls
  rw [List.reverse_append, List.reverse_cons, List.append_assoc, List.singleton_append,
    takeWhile_stops _ d.reverse x pre.reverse, List.reverse_reverse]
  · intro e he
    rw [hd e (List.mem_reverse.mp he)]
    rfl
  · rw [hx]
    rfl

theorem disarm_events_not_calls (ok : Bool) (code : Nat) :
    ∀ e ∈ disarm_events ok code, e.is_control_loop_call = false := by
  cases ok
  · intro e he
    simp only [disarm_events, Bool.false_eq_true, if_false, List.mem_cons, List.mem_singleton,
      List.not_mem_nil, or_false] at he
    rcases he with he | he <;> rw [he] <;> rfl
  · intro e he
    simp [disarm_events] at he

theorem events_after_calls_six (pre : List Event) (a1 a2 a3 a4 a5 x : Event)
    (d : List Event) (hx : x.is_control_loop_call = true)
    (hd : ∀ e ∈ d, e.is_control_loop_call = false) :
    events_after_calls (pre ++ [a1, a2, a3, a4, a5, x] ++ d) = d := by
  have e : pre ++ [a1, a2, a3, a4, a5, x] ++ d = (pre ++ [a1, a2, a3, a4, a5]) ++ x :: d := by
    simp
  rw [e]
  exact events_after_calls_append _ _ _ hx hd

/-- The events after the last call of a returning run are those of the deadline check. -/
theorem handler_events_after_calls (b : Board) (s : State) (env : ControlLoopEnv) (n : Nat)
    (h : wait_for_adc2_eoc env.adc2_sr_polls = some n) :
    events_after_calls (new_events s (ControlLoop_IRQHandler b s env).state) =
      disarm_events ((ControlLoop_IRQHandler b s env).state.timestamp_
          == wrap32 (s.timestamp_ + half_period_ticks b)) b.ERROR_CONTROL_DEADLINE_MISSED := by
  rw [handler_new_events b s env n h]
  exact events_after_calls_six _ _ _ _ _ _ _ _ rfl (disarm_events_not_calls _ _)

/-- C12: when a required completion flag is clear at the true-current fetch, or the ADC1
DMA transfer-complete flag is clear, and the wait for the calibration conversion returns,
`ControlLoop_IRQHandler` returns; the first events of the run are the `disarm_with_error`
calls of both axes with `ERROR_BAD_TIMING`, whose flag is set on both axes at the end; and
the calls made by the run are, in this order and once each, `current_meas_cb` of axis 0 and
of axis 1, `control_loop_cb`, `dc_calib_cb` of axis 0 and of axis 1, `pwm_update_cb` of axis
0 and of axis 1, the brake resistor update and its output update; the events after the last
call are those of the deadline check. -/
theorem bad_timing_disarms_and_continues (b : Board) (s : State) (env : ControlLoopEnv)
    (n : Nat) (hbad : ¬ completion_flags_set s ∨ s.adc1_dma_tc = false)
    (hwait : wait_for_adc2_eoc env.adc2_sr_polls = some n) :
    ∃ t, ControlLoop_IRQHandler b s env = Outcome.returned t ∧
      [Event.disarm_with_error 0 b.ERROR_BAD_TIMING,
       Event.disarm_with_error 1 b.ERROR_BAD_TIMING] <+: new_events s t ∧
      flag_set t.motors0.error_ b.ERROR_BAD_TIMING ∧
      flag_set t.motors1.error_ b.ERROR_BAD_TIMING ∧
      control_loop_calls s t =
        [Event.current_meas_cb 0 (sub32 s.timestamp_ b.TIM1_INIT_COUNT) (measured_current0 b s),
         Event.current_meas_cb 1 s.timestamp_ (measured_current1 b s),
         Event.control_loop_cb s.timestamp_,
         Event.dc_calib_cb 0 (sub32 (s.timestamp_ + half_period_ticks b) b.TIM1_INIT_COUNT)
           (fetch_and_reset_adcs b (calibration_entry b s env)
             (measured_current0 b s) (measured_current1 b s)).2.1,
         Event.dc_calib_cb 1 (wrap32 (s.timestamp_ + half_period_ticks b))
           (fetch_and_reset_adcs b (calibration_entry b s env)
             (measured_current0 b s) (measured_current1 b s)).2.2.1,
         Event.pwm_update_cb 0
           (sub32 (s.timestamp_ + 3 * half_period_ticks b) b.TIM1_INIT_COUNT),
         Event.pwm_update_cb 1 (wrap32 (s.timestamp_ + 3 * half_period_ticks b)),
         Event.brake_resistor_update,
         Event.brake_resistor_output_update
           (sub32 (s.timestamp_ + 3 * half_period_ticks b) b.TIM1_INIT_COUNT)] ∧
      events_after_calls (new_events s t) =
        disarm_events (t.timestamp_ == wrap32 (s.timestamp_ + half_period_ticks b))
          b.ERROR_CONTROL_DEADLINE_MISSED := by
  have hbad2 : all_adcs_done s = false ∨ s.adc1_dma_tc = false :=
    hbad.imp (all_adcs_done_false_iff s).mpr id
  refine ⟨(ControlLoop_IRQHandler b s env).state, ?_, ?_, (handler_bad_timing b s env hbad2).1,
    (handler_bad_timing b s env hbad2).2, handler_calls b s env n hwait,
    handler_events_after_calls b s env n hwait⟩
  · rw [handler_returns b s env n hwait]
    rfl
  · rw [handler_new_events b s env n hwait]
    simp only [List.append_assoc]
    cases hd : all_adcs_done s
    · exact ⟨_, rfl⟩
    · rcases hbad2 with h | h
      · rw [h] at hd
        exact absurd hd (by decide)
      · rw [h]
        exact ⟨_, rfl⟩

/-- C12, instance: the end-of-conversion flag of ADC2 is clear at the true-current fetch;
the handler returns with `ERROR_BAD_TIMING` set on both axes and has made its nine calls. -/
theorem bad_timing_disarms_and_continues_witness :
    ¬ completion_flags_set state_adc2_not_done ∧
    ∃ t, ControlLoop_IRQHandler odrive_v3_6 state_adc2_not_done env_one_firing
        = Outcome.returned t ∧
      flag_set t.motors0.error_ odrive_v3_6.ERROR_BAD_TIMING ∧
      flag_set t.motors1.error_ odrive_v3_6.ERROR_BAD_TIMING ∧
      (control_loop_calls state_adc2_not_done t).length = 9 :=
  ⟨by decide,
   match bad_timing_disarms_and_continues odrive_v3_6 state_adc2_not_done env_one_firing 2
      (Or.inl (by decide)) rfl with
   | ⟨t, h1, _, h3, h4, h5, _⟩ => ⟨t, h1, h3, h4, by rw [h5]; rfl⟩⟩

/-! ## The readings and timestamps handed to the callbacks -/

/-- C13: the `current_meas_cb` calls of a run of `ControlLoop_IRQHandler`, whether the run
returns or stays in its wait loop, are one for axis 0 and one for axis 1.  The reading of
axis 0 is the present triple `(0, 0, 0)` when the bit `MOE` of `TIM1->BDTR` is clear at
entry, whatever the ADC registers, the gate driver readiness and the completion flags are,
and the output of `fetch_and_reset_adcs`, started from absent readings, when the bit is
set; the same holds for axis 1 with `TIM8->BDTR`. -/
theorem current_meas_reading (b : Board) (s : State) (env : ControlLoopEnv) :
    (control_loop_calls s (ControlLoop_IRQHandler b s env).state).filter Event.is_current_meas
      = [Event.current_meas_cb 0 (sub32 s.timestamp_ b.TIM1_INIT_COUNT) (measured_current0 b s),
         Event.current_meas_cb 1 s.timestamp_ (measured_current1 b s)] ∧
    measured_current0 b s =
      (if s.TIM1.BDTR &&& TIM_BDTR_MOE_Msk = 0 then
        some { phA := F32.fin false 0, phB := F32.fin false 0, phC := F32.fin false 0 }
       else (fetch_and_reset_adcs b s none none).2.1) ∧
    measured_current1 b s =
      (if s.TIM8.BDTR &&& TIM_BDTR_MOE_Msk = 0 then
        some { phA := F32.fin false 0, phB := F32.fin false 0, phC := F32.fin false 0 }
       else (fetch_and_reset_adcs b s none none).2.2.1) := by
  refine ⟨?_, ?_, ?_⟩
  · cases hw : wait_for_adc2_eoc env.adc2_sr_polls with
    | none =>
      rw [handler_calls_hangs b s env hw]
      rfl
    | some n =>
      rw [handler_calls b s env n hw]
      rfl
  · rw [(measured_currents b s).1]
    unfold zero_unless_switching
    by_cases h : s.TIM1.BDTR &&& TIM_BDTR_MOE_Msk = 0
    · rw [if_pos h, if_pos (by rw [h]; rfl)]
      rfl
    · rw [if_neg h, if_neg (by simpa using h)]
  · rw [(measured_currents b s).2]
    unfold zero_unless_switching
    by_cases h : s.TIM8.BDTR &&& TIM_BDTR_MOE_Msk = 0
    · rw [if_pos h, if_pos (by rw [h]; rfl)]
      rfl
    · rw [if_neg h, if_neg (by simpa using h)]

theorem sub32_int (x y : Nat) : ((sub32 x y : Nat) : Int) = ((x : Int) - y) % 2 ^ 32 := by
  unfold sub32
  norm_num
  omega

theorem wrap32_int (x : Nat) : ((wrap32 x : Nat) : Int) = (x : Int) % 2 ^ 32 := by
  unfold wrap32
  norm_num

/-- C14: a returning run of `ControlLoop_IRQHandler` entered with timestamp `T` makes its
calls with these timestamps, `H` being `TIM_1_8_PERIOD_CLOCKS * (TIM_1_8_RCR + 1)`:
`current_meas_cb` gets `T - TIM1_INIT_COUNT` (axis 0) and `T` (axis 1), `control_loop_cb`
gets `T`, `dc_calib_cb` gets `T + H - TIM1_INIT_COUNT` and `T + H`, `pwm_update_cb` gets
`T + 3 * H - TIM1_INIT_COUNT` and `T + 3 * H`, each reduced modulo `2^32`. -/
theorem callback_timestamps (b : Board) (s : State) (env : ControlLoopEnv) (n : Nat)
    (hwait : wait_for_adc2_eoc env.adc2_sr_polls = some n) :
    ∃ (c0 c1 z0 z1 : Option Iph_ABC_t) (m0 d0 d1 p0 p1 r : Nat),
      control_loop_calls s (ControlLoop_IRQHandler b s env).state =
        [Event.current_meas_cb 0 m0 c0, Event.current_meas_cb 1 s.timestamp_ c1,
         Event.control_loop_cb s.timestamp_,
         Event.dc_calib_cb 0 d0 z0, Event.dc_calib_cb 1 d1 z1,
         Event.pwm_update_cb 0 p0, Event.pwm_update_cb 1 p1,
         Event.brake_resistor_update, Event.brake_resistor_output_update r] ∧
      (m0 : Int) = ((s.timestamp_ : Int) - b.TIM1_INIT_COUNT) % 2 ^ 32 ∧
      (d0 : Int) = ((s.timestamp_ : Int) + b.TIM_1_8_PERIOD_CLOCKS * (b.TIM_1_8_RCR + 1)
                      - b.TIM1_INIT_COUNT) % 2 ^ 32 ∧
      (d1 : Int) = ((s.timestamp_ : Int) + b.TIM_1_8_PERIOD_CLOCKS * (b.TIM_1_8_RCR + 1))
                      % 2 ^ 32 ∧
      (p0 : Int) = ((s.timestamp_ : Int) + 3 * (b.TIM_1_8_PERIOD_CLOCKS * (b.TIM_1_8_RCR + 1))
                      - b.TIM1_INIT_COUNT) % 2 ^ 32 ∧
      (p1 : Int) = ((s.timestamp_ : Int) + 3 * (b.TIM_1_8_PERIOD_CLOCKS * (b.TIM_1_8_RCR + 1)))
                      % 2 ^ 32 := by
  refine ⟨_, _, _, _, _, _, _, _, _, _, handler_calls b s env n hwait, ?_, ?_, ?_, ?_, ?_⟩
  · exact sub32_int _ _
  · rw [sub32_int]
    unfold half_period_ticks
    push_cast
    rfl
  · rw [wrap32_int]
    unfold half_period_ticks
    push_cast
    rfl
  · rw [sub32_int]
    unfold half_period_ticks
    push_cast
    rfl
  · rw [wrap32_int]
    unfold half_period_ticks
    push_cast
    rfl

/-- C14, instance: entered at timestamp 0 on the v3.6 board, where the half period is
10500 ticks and `TIM1_INIT_COUNT` is 1622, the handler calls `dc_calib_cb` with 8878 and
10500 and `pwm_update_cb` with 29878 and 31500. -/
theorem callback_timestamps_witness :
    ∃ (c0 c1 z0 z1 : Option Iph_ABC_t) (m0 r : Nat),
      control_loop_calls state_init
          (ControlLoop_IRQHandler odrive_v3_6 state_init env_one_firing).state =
        [Event.current_meas_cb 0 m0 c0, Event.current_meas_cb 1 0 c1, Event.control_loop_cb 0,
         Event.dc_calib_cb 0 8878 z0, Event.dc_calib_cb 1 10500 z1,
         Event.pwm_update_cb 0 29878, Event.pwm_update_cb 1 31500,
         Event.brake_resistor_update, Event.brake_resistor_output_update r] ∧
      (m0 : Int) = 2 ^ 32 - 1622 :=
  match callback_timestamps odrive_v3_6 state_init env_one_firing 2 rfl with
  | ⟨c0, c1, z0, z1, m0, d0, d1, p0, p1, r, h, hm, hd0, hd1, hp0, hp1⟩ => by
    have k1 : (odrive_v3_6.TIM_1_8_PERIOD_CLOCKS : Int) = 3500 := rfl
    have k2 : (odrive_v3_6.TIM_1_8_RCR : Int) = 2 := rfl
    have k3 : (odrive_v3_6.TIM1_INIT_COUNT : Int) = 1622 := rfl
    have k4 : (state_init.timestamp_ : Int) = 0 := rfl
    rw [k1, k2, k3, k4] at hd0 hp0
    rw [k1, k2, k4] at hd1 hp1
    rw [k3, k4] at hm
    norm_num at hd0 hd1 hp0 hp1 hm
    have e0 : d0 = 8878 := by exact_mod_cast hd0
    have e1 : d1 = 10500 := by exact_mod_cast hd1
    have e2 : p0 = 29878 := by exact_mod_cast hp0
    have e3 : p1 = 31500 := by exact_mod_cast hp1
    subst e0 e1 e2 e3
    exact ⟨c0, c1, z0, z1, m0, r, h, by rw [hm]; norm_num⟩

/-! ## The deadline check -/

theorem actuate_deadline_flags (b : Board) (s : State) (l : ControlLoopLocals)
    (h : s.timestamp_ ≠ wrap32 (l.timestamp + half_period_ticks b)) :
    flag_set (ControlLoop_actuate b s l).motors0.error_ b.ERROR_CONTROL_DEADLINE_MISSED ∧
    flag_set (ControlLoop_actuate b s l).motors1.error_ b.ERROR_CONTROL_DEADLINE_MISSED := by
  unfold ControlLoop_actuate
  dsimp only
  have hts : (ControlLoop_callbacks b (fetch_or_disarm b s l.current0 l.current1).1 l.timestamp
      (fetch_or_disarm b s l.current0 l.current1).2.1
      (fetch_or_disarm b s l.current0 l.current1).2.2).timestamp_ = s.timestamp_ := by
    rw [callbacks_keeps]
    exact (fetch_or_disarm_keeps b s l.current0 l.current1).1
  generalize ControlLoop_callbacks b (fetch_or_disarm b s l.current0 l.current1).1 l.timestamp
      (fetch_or_disarm b s l.current0 l.current1).2.1
      (fetch_or_disarm b s l.current0 l.current1).2.2 = s7 at hts ⊢
  unfold deadline_check
  have hc : (s7.timestamp_ == wrap32 (l.timestamp + half_period_ticks b)) = false := by
    rw [hts]
    exact beq_false_of_ne h
  rw [hc]
  exact flag_set_of_errors_kept
    (t := (s7.disarm_both_unless false b.ERROR_CONTROL_DEADLINE_MISSED).finish_task_timers)
    (errors_kept_of_eq rfl rfl) (flag_set_disarm_both s7 _)

/-- The timestamp at the end of a returning run: one increment for every firing that
passed the direction check while the handler ran. -/
theorem handler_timestamp (b : Board) (s : State) (env : ControlLoopEnv) (n : Nat)
    (hT : s.timestamp_ < 2 ^ 32) (hwait : wait_for_adc2_eoc env.adc2_sr_polls = some n) :
    (ControlLoop_IRQHandler b s env).state.timestamp_ =
      wrap32 (s.timestamp_ + flips s.counting_down_ env.irqs * half_period_ticks b) := by
  rw [handler_state_of_returns b s env n hwait, actuate_timestamp]
  show (fire_all b (ControlLoop_measure b s).1 env.irqs).timestamp_ = _
  obtain ⟨m1, m2⟩ := measure_keeps b s
  rw [fire_all_timestamp b env.irqs _ (by rw [m1]; exact hT), m1, m2]

/-- C15: in a returning run of `ControlLoop_IRQHandler` entered with timestamp `T`, the
events after the last call are the `disarm_with_error` calls of both axes with
`ERROR_CONTROL_DEADLINE_MISSED` when `timestamp_` at the end differs from `T + H` modulo
`2^32`, `H` being `TIM_1_8_PERIOD_CLOCKS * (TIM_1_8_RCR + 1)`, and then the flag is set on
both axes; there is no such event when the two are equal.  With `H` not a multiple of
`2^32`, `timestamp_` at the end equals `T + H` when exactly one firing of
`TIM8_UP_TIM13_IRQHandler` passed the direction check while the handler ran, and differs
from it when none or two did. -/
theorem deadline_missed_iff (b : Board) (s : State) (env : ControlLoopEnv) (n : Nat)
    (hH : half_period_ticks b % 2 ^ 32 ≠ 0) (hT : s.timestamp_ < 2 ^ 32)
    (hwait : wait_for_adc2_eoc env.adc2_sr_polls = some n) :
    ∃ t, ControlLoop_IRQHandler b s env = Outcome.returned t ∧
      (t.timestamp_ = wrap32 (s.timestamp_ + half_period_ticks b) →
        events_after_calls (new_events s t) = []) ∧
      (t.timestamp_ ≠ wrap32 (s.timestamp_ + half_period_ticks b) →
        events_after_calls (new_events s t) =
          [Event.disarm_with_error 0 b.ERROR_CONTROL_DEADLINE_MISSED,
           Event.disarm_with_error 1 b.ERROR_CONTROL_DEADLINE_MISSED] ∧
        flag_set t.motors0.error_ b.ERROR_CONTROL_DEADLINE_MISSED ∧
        flag_set t.motors1.error_ b.ERROR_CONTROL_DEADLINE_MISSED) ∧
      (flips s.counting_down_ env.irqs = 1 →
        t.timestamp_ = wrap32 (s.timestamp_ + half_period_ticks b)) ∧
      (flips s.counting_down_ env.irqs = 0 ∨ flips s.counting_down_ env.irqs = 2 →
        t.timestamp_ ≠ wrap32 (s.timestamp_ + half_period_ticks b)) := by
  have hev := handler_events_after_calls b s env n hwait
  have hts := handler_timestamp b s env n hT hwait
  refine ⟨(ControlLoop_IRQHandler b s env).state, ?_, ?_, ?_, ?_, ?_⟩
  · rw [handler_returns b s env n hwait]
    rfl
  · intro h
    rw [hev, h]
    simp [disarm_events]
  · intro h
    refine ⟨?_, ?_⟩
    · rw [hev, beq_false_of_ne h]
      rfl
    · have hl : (ControlLoop_measure b s).2.timestamp = s.timestamp_ := by
        rw [measure_locals]
      rw [handler_state_of_returns b s env n hwait] at h ⊢
      rw [actuate_timestamp] at h
      exact actuate_deadline_flags b _ _ (by rw [hl]; exact h)
  · intro h
    rw [hts, h, Nat.one_mul]
  · intro h
    rw [hts]
    unfold wrap32 at *
    rcases h with h | h
    · rw [h]
      omega
    · rw [h]
      omega

/-- C15, instance: one firing at the peak preempts the handler entered after a trough; the
handler returns, the timestamp has advanced by the 10500 ticks of one half period, and no
event follows the last call. -/
theorem deadline_missed_iff_witness :
    ∃ t, ControlLoop_IRQHandler odrive_v3_6 state_init env_one_firing = Outcome.returned t ∧
      t.timestamp_ = 10500 ∧ events_after_calls (new_events state_init t) = [] :=
  match deadline_missed_iff odrive_v3_6 state_init env_one_firing 2 (by decide) (by decide)
      rfl with
  | ⟨t, h1, h2, _, h4, _⟩ => ⟨t, h1, h4 (by decide), h2 (h4 (by decide))⟩

/-! ## The wait for the calibration conversion -/

theorem wait_of_first_set (pre : List Nat) (sr : Nat) (rest : List Nat)
    (hpre : ∀ x ∈ pre, x &&& ADC_SR_EOC = 0) (hsr : sr &&& ADC_SR_EOC ≠ 0) :
    wait_for_adc2_eoc (pre ++ sr :: rest) = some (pre.length + 1) := by
  induction pre with
  | nil =>
    simp only [List.nil_append, wait_for_adc2_eoc, List.length_nil]
    rw [if_pos (by simpa using hsr)]
  | cons a pre ih =>
    have ha : a &&& ADC_SR_EOC = 0 := hpre a (List.mem_cons_self _ _)
    rw [List.cons_append]
    show (if a &&& ADC_SR_EOC != 0 then some 1
      else (wait_for_adc2_eoc (pre ++ sr :: rest)).map (· + 1)) = _
    rw [if_neg (by simp [ha]), ih (fun x hx => hpre x (List.mem_cons_of_mem _ hx))]
    rfl

theorem wait_none_iff (polls : List Nat) :
    wait_for_adc2_eoc polls = none ↔ ∀ x ∈ polls, x &&& ADC_SR_EOC = 0 := by
  induction polls with
  | nil => simp [wait_for_adc2_eoc]
  | cons a polls ih =>
    by_cases ha : a &&& ADC_SR_EOC = 0
    · simp only [wait_for_adc2_eoc, List.mem_cons, forall_eq_or_imp]
      rw [if_neg (by simp [ha])]
      simp only [Option.map_eq_none', ih, ha, true_and]
    · simp only [wait_for_adc2_eoc, List.mem_cons, forall_eq_or_imp]
      rw [if_pos (by simpa using ha)]
      simp [ha]

theorem wait_some_first_set (polls : List Nat) (k : Nat)
    (h : wait_for_adc2_eoc polls = some k) :
    ∃ pre sr rest, polls = pre ++ sr :: rest ∧ (∀ x ∈ pre, x &&& ADC_SR_EOC = 0) ∧
      sr &&& ADC_SR_EOC ≠ 0 ∧ k = pre.length + 1 := by
  induction polls generalizing k with
  | nil => simp [wait_for_adc2_eoc] at h
  | cons a polls ih =>
    by_cases ha : a &&& ADC_SR_EOC = 0
    · simp only [wait_for_adc2_eoc] at h
      rw [if_neg (by simp [ha])] at h
      cases hw : wait_for_adc2_eoc polls with
      | none => rw [hw] at h; simp at h
      | some k2 =>
        rw [hw] at h
        obtain ⟨pre, sr, rest, h1, h2, h3, h4⟩ := ih k2 hw
        refine ⟨a :: pre, sr, rest, by rw [h1]; rfl, ?_, h3, ?_⟩
        · intro x hx
          rcases List.mem_cons.mp hx with hx | hx
          · rw [hx]; exact ha
          · exact h2 x hx
        · simp only [Option.map_some', Option.some.injEq] at h
          rw [← h, h4]
          rfl
    · simp only [wait_for_adc2_eoc] at h
      rw [if_pos (by simpa using ha)] at h
      refine ⟨[], a, polls, rfl, by simp, ha, ?_⟩
      simp only [Option.some.injEq] at h
      rw [← h]
      rfl

/-- C16, evaluation: with the end-of-conversion flag of ADC2 never set, the run of
`ControlLoop_IRQHandler` from the start-up state does not return; what it has called are
the two `current_meas_cb` and `control_loop_cb`, and neither `dc_calib_cb` nor
`pwm_update_cb`. -/
theorem wait_without_flag_never_ends :
    (ControlLoop_IRQHandler odrive_v3_6 state_init env_never_done).is_returned = false ∧
    (control_loop_calls state_init
      (ControlLoop_IRQHandler odrive_v3_6 state_init env_never_done).state).length = 3 ∧
    (control_loop_calls state_init
      (ControlLoop_IRQHandler odrive_v3_6 state_init env_never_done).state).filter
        Event.is_dc_calib = [] := by
  refine ⟨by decide, ?_, ?_⟩
  · rw [handler_calls_hangs odrive_v3_6 state_init env_never_done rfl]
    rfl
  · rw [handler_calls_hangs odrive_v3_6 state_init env_never_done rfl]
    rfl

/-- C16, amended: the wait of `ControlLoop_IRQHandler` polls `ADC2->SR` until a poll finds
`ADC_SR_EOC` set, without bound.  It ends after `k` polls exactly when the `k`-th poll is
the first that finds the flag set; the handler then goes on to the calibration fetch, the
`dc_calib_cb` and `pwm_update_cb` calls and the deadline check, and returns.  When no poll
finds the flag set the handler stays in the wait for ever and makes none of these calls. -/
theorem wait_ends_at_first_set_flag (b : Board) (s : State) (env : ControlLoopEnv) :
    (∀ k, wait_for_adc2_eoc env.adc2_sr_polls = some k ↔
      ∃ pre sr rest, env.adc2_sr_polls = pre ++ sr :: rest ∧
        (∀ x ∈ pre, x &&& ADC_SR_EOC = 0) ∧ sr &&& ADC_SR_EOC ≠ 0 ∧ k = pre.length + 1) ∧
    (∀ k, wait_for_adc2_eoc env.adc2_sr_polls = some k →
      ControlLoop_IRQHandler b s env = Outcome.returned
        (ControlLoop_actuate b (calibration_entry b s env) (ControlLoop_measure b s).2) ∧
      (control_loop_calls s (ControlLoop_IRQHandler b s env).state).length = 9) ∧
    ((∀ x ∈ env.adc2_sr_polls, x &&& ADC_SR_EOC = 0) →
      ControlLoop_IRQHandler b s env
        = Outcome.hangs (fire_all b (ControlLoop_measure b s).1 env.irqs) ∧
      (control_loop_calls s (ControlLoop_IRQHandler b s env).state).length = 3) := by
  refine ⟨?_, ?_, ?_⟩
  · intro k
    constructor
    · exact wait_some_first_set _ k
    · rintro ⟨pre, sr, rest, h1, h2, h3, h4⟩
      rw [h1, h4]
      exact wait_of_first_set pre sr rest h2 h3
  · intro k hk
    refine ⟨handler_returns b s env k hk, ?_⟩
    rw [handler_calls b s env k hk]
    rfl
  · intro h
    have hn := (wait_none_iff _).mpr h
    refine ⟨handler_hangs b s env hn, ?_⟩
    rw [handler_calls_hangs b s env hn]
    rfl

/-- C16, instance: the second poll is the first that finds the flag set; the wait ends
after two polls and the handler returns. -/
theorem wait_ends_at_first_set_flag_witness :
    wait_for_adc2_eoc env_one_firing.adc2_sr_polls = some 2 ∧
    (ControlLoop_IRQHandler odrive_v3_6 state_init env_one_firing).is_returned = true ∧
    (control_loop_calls state_init
      (ControlLoop_IRQHandler odrive_v3_6 state_init env_one_firing).state).length = 9 :=
  ⟨((wait_ends_at_first_set_flag odrive_v3_6 state_init env_one_firing).1 2).mpr
      ⟨[0], ADC_SR_EOC, [], rfl, by decide, by decide, rfl⟩,
   by rw [((wait_ends_at_first_set_flag odrive_v3_6 state_init env_one_firing).2.1 2 rfl).1]; rfl,
   ((wait_ends_at_first_set_flag odrive_v3_6 state_init env_one_firing).2.1 2 rfl).2⟩

/-! ## The reading handed to the calibration callback -/

theorem store_current_or (c : Option Iph_ABC_t) (x y : Option F32) :
    store_current c x y = (store_current none x y).or c := by
  cases x <;> cases y <;> simp [store_current, Option.or]

theorem fetch_axis0_or (b : Board) (s : State) (c : Option Iph_ABC_t) :
    (fetch_axis0 b s c).1 = (fetch_axis0 b s none).1 ∧
    (fetch_axis0 b s c).2 = ((fetch_axis0 b s none).2).or c := by
  unfold fetch_axis0
  cases s.m0_gate_driver_ready
  · exact ⟨rfl, by simp [Option.or]⟩
  · exact ⟨rfl, store_current_or _ _ _⟩

theorem fetch_axis1_or (b : Board) (s : State) (c : Option Iph_ABC_t) :
    (fetch_axis1 b s c).1 = (fetch_axis1 b s none).1 ∧
    (fetch_axis1 b s c).2 = ((fetch_axis1 b s none).2).or c := by
  unfold fetch_axis1
  cases s.m1_gate_driver_ready
  · exact ⟨rfl, by simp [Option.or]⟩
  · exact ⟨rfl, store_current_or _ _ _⟩

/-- What `fetch_and_reset_adcs` leaves in its outputs: the triple it has converted, and
where it has converted none, the value the output held on entry. -/
theorem fetch_outputs_or (b : Board) (s : State) (c0 c1 : Option Iph_ABC_t) :
    (fetch_and_reset_adcs b s c0 c1).2.1 = ((fetch_and_reset_adcs b s none none).2.1).or c0 ∧
    (fetch_and_reset_adcs b s c0 c1).2.2.1
      = ((fetch_and_reset_adcs b s none none).2.2.1).or c1 := by
  cases h : all_adcs_done s
  · rw [fetch_not_done b s c0 c1 h, fetch_not_done b s none none h]
    exact ⟨by simp [Option.or], by simp [Option.or]⟩
  · rw [fetch_done b s c0 c1 h, fetch_done b s none none h]
    refine ⟨(fetch_axis0_or b _ c0).2, ?_⟩
    show (fetch_axis1 b (fetch_axis0 b (store_vbus b s) c0).1 c1).2 = _
    rw [(fetch_axis0_or b _ c0).1]
    exact (fetch_axis1_or b _ c1).2

/-- C17: evaluation of `ControlLoop_IRQHandler` on a run in which axis 0 is switching, the
true-current samples of axis 0 are the in-window codes 2050 and 2053, and the calibration
sample of phase B of axis 0 is code 0, below the sensing window.  The calibration fetch
started from absent readings yields absent for axis 0, yet `dc_calib_cb` of axis 0 receives
the present triple that `current_meas_cb` of axis 0 received; the same happens when the
calibration fetch finds the injected conversion of ADC3 not complete.  In general the second
call of `fetch_and_reset_adcs` is handed the locals that hold the true-current readings, and
where it converts no triple the output keeps that reading. -/
theorem dc_calib_receives_true_current_reading :
    state_unbalanced.TIM1.BDTR &&& TIM_BDTR_MOE_Msk ≠ 0 ∧
    (fetch_and_reset_adcs odrive_v3_6
      (calibration_entry odrive_v3_6 state_unbalanced env_calibration_saturated)
      none none).2.1 = none ∧
    (measured_current0 odrive_v3_6 state_unbalanced).isSome = true ∧
    ((control_loop_calls state_unbalanced
        (ControlLoop_IRQHandler odrive_v3_6 state_unbalanced
          env_calibration_saturated).state).filter Event.is_dc_calib).head?
      = some (Event.dc_calib_cb 0 8878 (measured_current0 odrive_v3_6 state_unbalanced)) ∧
    (fetch_and_reset_adcs odrive_v3_6
      (calibration_entry odrive_v3_6 state_unbalanced env_calibration_not_done)
      none none).2.1 = none ∧
    ((control_loop_calls state_unbalanced
        (ControlLoop_IRQHandler odrive_v3_6 state_unbalanced
          env_calibration_not_done).state).filter Event.is_dc_calib).head?
      = some (Event.dc_calib_cb 0 8878 (measured_current0 odrive_v3_6 state_unbalanced)) ∧
    (∀ (b : Board) (s : State) (env : ControlLoopEnv),
      (fetch_and_reset_adcs b (calibration_entry b s env)
          (measured_current0 b s) (measured_current1 b s)).2.1
        = ((fetch_and_reset_adcs b (calibration_entry b s env) none none).2.1).or
            (measured_current0 b s) ∧
      (fetch_and_reset_adcs b (calibration_entry b s env)
          (measured_current0 b s) (measured_current1 b s)).2.2.1
        = ((fetch_and_reset_adcs b (calibration_entry b s env) none none).2.2.1).or
            (measured_current1 b s)) := by
  have hnone : (fetch_and_reset_adcs odrive_v3_6
      (calibration_entry odrive_v3_6 state_unbalanced env_calibration_saturated)
      none none).2.1 = none := by decide
  have hnone2 : (fetch_and_reset_adcs odrive_v3_6
      (calibration_entry odrive_v3_6 state_unbalanced env_calibration_not_done)
      none none).2.1 = none := by decide
  refine ⟨by decide, hnone, by decide, ?_, hnone2, ?_,
    fun b s env => fetch_outputs_or b _ _ _⟩
  · rw [handler_calls odrive_v3_6 state_unbalanced env_calibration_saturated 2 rfl]
    rw [(fetch_outputs_or odrive_v3_6 _ _ _).1, hnone]
    rfl
  · rw [handler_calls odrive_v3_6 state_unbalanced env_calibration_not_done 2 rfl]
    rw [(fetch_outputs_or odrive_v3_6 _ _ _).1, hnone2]
    rfl

/-! ## The accepted window of ADC codes -/

/-- C18, evaluation: on the v3.6 board, whose ADC reference is `3.3f`, the distance from the
lower bound to the centre code 2048 is not the distance from the centre code to the upper
bound. -/
theorem window_not_symmetric :
    odrive_v3_6.kAdcMaxVoltage = F32.ofRatio 33 10 ∧
    2048 - CURRENT_ADC_LOWER_BOUND odrive_v3_6 = 1676 ∧
    CURRENT_ADC_UPPER_BOUND odrive_v3_6 - 2048 = 1675 ∧
    2048 - CURRENT_ADC_LOWER_BOUND odrive_v3_6 ≠ CURRENT_ADC_UPPER_BOUND odrive_v3_6 - 2048 := by
  refine ⟨rfl, by decide, by decide, by decide⟩

/-- C18, amended: with the 3.3 V reference the binary32 quotients `4096 * 0.3f / 3.3f` and
`4096 * 3.0f / 3.3f` lie strictly between 372 and 373 and between 3723 and 3724, so their
truncations are `CURRENT_ADC_LOWER_BOUND = 372` and `CURRENT_ADC_UPPER_BOUND = 3723`; the
window reaches one code further below the centre code 2048 than above it. -/
theorem window_bounds_3V3 (b : Board) :
    F32.lt (F32.ofNat 372) (kAdcFullScale * CURRENT_SENSE_MIN_VOLT / b.with_3V3.kAdcMaxVoltage)
      = true ∧
    F32.lt (kAdcFullScale * CURRENT_SENSE_MIN_VOLT / b.with_3V3.kAdcMaxVoltage) (F32.ofNat 373)
      = true ∧
    F32.lt (F32.ofNat 3723) (kAdcFullScale * CURRENT_SENSE_MAX_VOLT / b.with_3V3.kAdcMaxVoltage)
      = true ∧
    F32.lt (kAdcFullScale * CURRENT_SENSE_MAX_VOLT / b.with_3V3.kAdcMaxVoltage) (F32.ofNat 3724)
      = true ∧
    CURRENT_ADC_LOWER_BOUND b.with_3V3 = 372 ∧
    CURRENT_ADC_UPPER_BOUND b.with_3V3 = 3723 ∧
    2048 - CURRENT_ADC_LOWER_BOUND b.with_3V3
      = (CURRENT_ADC_UPPER_BOUND b.with_3V3 - 2048) + 1 := by
  have hk : b.with_3V3.kAdcMaxVoltage = f32_3_3 := rfl
  rw [hk, (window_3V3 b).1, (window_3V3 b).2]
  refine ⟨by decide, by decide, by decide, by decide, rfl, rfl, rfl⟩

/-! ## The outcome of the fetch -/

theorem land_not32_land (x m : Nat) (h : not32 m &&& m = 0) : (x &&& not32 m) &&& m = 0 := by
  rw [Nat.land_assoc, h]
  simp

theorem fetch_skips_axis0 (b : Board) (s : State) (c : Option Iph_ABC_t)
    (h : s.m0_gate_driver_ready = false) : fetch_axis0 b s c = (s, c) := by
  unfold fetch_axis0
  rw [h]
  rfl

theorem fetch_skips_axis1 (b : Board) (s : State) (c : Option Iph_ABC_t)
    (h : s.m1_gate_driver_ready = false) : fetch_axis1 b s c = (s, c) := by
  unfold fetch_axis1
  rw [h]
  rfl

theorem fetch_axis0_ready (b : Board) (s : State) (c : Option Iph_ABC_t) :
    (fetch_axis0 b s c).1.m1_gate_driver_ready = s.m1_gate_driver_ready := by
  obtain ⟨e, he⟩ := fetch_axis0_frame b s c
  rw [he]

theorem convert_error (b : Board) (s : State) (raw : Nat) (g : F32) :
    (phase_current_from_adcval b s raw g).1 =
      (if out_of_window b raw then
        { s with motors0 := { s.motors0 with
            error_ := s.motors0.error_ ||| b.ERROR_CURRENT_SENSE_SATURATION } }
       else s) := by
  unfold phase_current_from_adcval out_of_window
  split <;> rfl

theorem lor_lor_self (x c : Nat) : (x ||| c) ||| c = x ||| c := by
  rw [Nat.lor_assoc, Nat.or_self]

/-- The error bitmask of axis 0 after the block of axis 1. -/
theorem fetch_axis1_error (b : Board) (s : State) (c : Option Iph_ABC_t) :
    (fetch_axis1 b s c).1.motors0.error_ =
      (if s.m1_gate_driver_ready = true ∧
          (out_of_window b s.ADC2.DR ∨ out_of_window b s.ADC3.DR) then
        s.motors0.error_ ||| b.ERROR_CURRENT_SENSE_SATURATION
       else s.motors0.error_) := by
  unfold fetch_axis1
  cases hr : s.m1_gate_driver_ready
  · simp
  · simp only [if_true, true_and]
    rw [convert_error b s s.ADC2.DR, convert_error]
    by_cases h2 : out_of_window b s.ADC2.DR
    · rw [if_pos h2, if_pos (Or.inl h2)]
      by_cases h3 : out_of_window b s.ADC3.DR
      · rw [if_pos h3]
        exact lor_lor_self _ _
      · rw [if_neg h3]
    · rw [if_neg h2]
      by_cases h3 : out_of_window b s.ADC3.DR
      · rw [if_pos h3, if_pos (Or.inr h3)]
      · rw [if_neg h3, if_neg (by tauto)]

/-- C19: evaluation of `fetch_and_reset_adcs` with all completion flags set, the gate driver
of axis 0 not ready, that of axis 1 ready, and the phase B sample of axis 1 at code 0, below
the sensing window.  The fetch returns true and leaves the output of axis 0 as on entry, no
sample of axis 0 being converted; yet the error bitmask of axis 0, `0` on entry, holds
`ERROR_CURRENT_SENSE_SATURATION` afterwards.  In general the fetch returns false exactly
when one of the completion flags JEOC of ADC1, EOC and JEOC of ADC2, EOC and JEOC of ADC3 is
not set, and then the whole state and both outputs are as on entry.  When it returns true,
JEOC of ADC1 and EOC, JEOC and OVR of ADC2 and of ADC3 are clear afterwards and the error
bitmask of axis 1 is as on entry; an axis whose gate driver is not ready keeps its output
and the state is the one reached without the block of that axis; with the gate driver of
axis 0 not ready the error bitmask of axis 0 gains `ERROR_CURRENT_SENSE_SATURATION` exactly
when axis 1 is ready and one of its samples is outside the window; with neither ready both
axes are as on entry. -/
theorem saturation_reaches_axis_not_ready :
    state_axis0_not_ready.m0_gate_driver_ready = false ∧
    completion_flags_set state_axis0_not_ready ∧
    (fetch_and_reset_adcs odrive_v3_6 state_axis0_not_ready none none).2.2.2 = true ∧
    (fetch_and_reset_adcs odrive_v3_6 state_axis0_not_ready none none).2.1 = none ∧
    state_axis0_not_ready.motors0.error_ = 0 ∧
    (fetch_and_reset_adcs odrive_v3_6 state_axis0_not_ready none none).1.motors0.error_
      = odrive_v3_6.ERROR_CURRENT_SENSE_SATURATION ∧
    (∀ (b : Board) (s : State) (c0 c1 : Option Iph_ABC_t),
      ((fetch_and_reset_adcs b s c0 c1).2.2.2 = false ↔ ¬ completion_flags_set s) ∧
      (¬ completion_flags_set s → fetch_and_reset_adcs b s c0 c1 = (s, c0, c1, false)) ∧
      (completion_flags_set s →
        (fetch_and_reset_adcs b s c0 c1).2.2.2 = true ∧
        (fetch_and_reset_adcs b s c0 c1).1.ADC1.SR &&& ADC_SR_JEOC = 0 ∧
        (fetch_and_reset_adcs b s c0 c1).1.ADC2.SR
          &&& (ADC_SR_EOC ||| ADC_SR_JEOC ||| ADC_SR_OVR) = 0 ∧
        (fetch_and_reset_adcs b s c0 c1).1.ADC3.SR
          &&& (ADC_SR_EOC ||| ADC_SR_JEOC ||| ADC_SR_OVR) = 0 ∧
        (fetch_and_reset_adcs b s c0 c1).1.motors1 = s.motors1 ∧
        (s.m0_gate_driver_ready = false →
          (fetch_and_reset_adcs b s c0 c1).2.1 = c0 ∧
          (fetch_and_reset_adcs b s c0 c1).1
            = reset_adcs (fetch_axis1 b (store_vbus b s) c1).1 ∧
          (fetch_and_reset_adcs b s c0 c1).1.motors0.error_ =
            (if s.m1_gate_driver_ready = true ∧
                (out_of_window b s.ADC2.DR ∨ out_of_window b s.ADC3.DR) then
              s.motors0.error_ ||| b.ERROR_CURRENT_SENSE_SATURATION
             else s.motors0.error_)) ∧
        (s.m1_gate_driver_ready = false →
          (fetch_and_reset_adcs b s c0 c1).2.2.1 = c1 ∧
          (fetch_and_reset_adcs b s c0 c1).1
            = reset_adcs (fetch_axis0 b (store_vbus b s) c0).1) ∧
        (s.m0_gate_driver_ready = false → s.m1_gate_driver_ready = false →
          (fetch_and_reset_adcs b s c0 c1).1.motors0 = s.motors0 ∧
          (fetch_and_reset_adcs b s c0 c1).1.motors1 = s.motors1))) := by
  refine ⟨rfl, by decide, by decide, by decide, rfl, by decide, ?_⟩
  intro b s c0 c1
  refine ⟨?_, ?_, ?_⟩
  · rw [fetch_returns, all_adcs_done_false_iff]
  · intro h
    exact fetch_not_done b s c0 c1 ((all_adcs_done_false_iff s).mpr h)
  · intro h
    have hd : all_adcs_done s = true := (all_adcs_done_iff s).mpr h
    obtain ⟨e, he⟩ := fetch_done_frame b s c0 c1 hd
    refine ⟨by rw [fetch_returns, hd], ?_, ?_, ?_, (fetch_keeps b s c0 c1).2.2.2.2.2.2,
      ?_, ?_, ?_⟩
    · rw [he]
      exact land_not32_land _ _ (by decide)
    · rw [he]
      exact land_not32_land _ _ (by decide)
    · rw [he]
      exact land_not32_land _ _ (by decide)
    · intro h0
      have hs : (store_vbus b s).m0_gate_driver_ready = false := h0
      rw [fetch_done b s c0 c1 hd, fetch_skips_axis0 b _ c0 hs]
      refine ⟨rfl, rfl, ?_⟩
      show (fetch_axis1 b (store_vbus b s) c1).1.motors0.error_ = _
      rw [fetch_axis1_error]
      rfl
    · intro h1
      have hs : (fetch_axis0 b (store_vbus b s) c0).1.m1_gate_driver_ready = false := by
        rw [fetch_axis0_ready]
        exact h1
      rw [fetch_done b s c0 c1 hd, fetch_skips_axis1 b _ c1 hs]
      exact ⟨rfl, rfl⟩
    · intro h0 h1
      have hs0 : (store_vbus b s).m0_gate_driver_ready = false := h0
      have hs1 : (store_vbus b s).m1_gate_driver_ready = false := h1
      rw [fetch_done b s c0 c1 hd, fetch_skips_axis0 b _ c0 hs0, fetch_skips_axis1 b _ c1 hs1]
      exact ⟨rfl, rfl⟩
